import Mathlib

/-!
The canvas element of WebCore/html/HTMLCanvasElement.cpp

A shallow embedding of the canvas element: its context slot, its lazily created
image buffer, the dirty rectangle and the two image snapshots.

Conventions of the embedding.

* C++ `int` values are `Int`; the places where the source clamps to the `int`
  range do so explicitly (`clampToInteger`), and the `int` subtractions of
  `convertLogicalToDevice(const FloatRect&)`, which can leave the range, are
  wrapped into 32 bits (`wrapInt32`).
* C++ `float` values that the source computes with (`convertLogicalToDevice`,
  `convertToValidDeviceSize`, and the coordinates of a `FloatRect` in `didDraw`)
  are finite binary32 numbers `mant * 2 ^ exp`, and every `float` operation
  rounds its exact result to 24 significant bits, ties to even (`F32.round`).
  The exponent is not bounded: a product too large for binary32 is saturated by
  `clampToInteger` either way.  One number has many pairs `mant`, `exp`, so
  floats are compared by value (`F32.lt`, `F32.le`, `F32.eqv`), as `<`, `<=`
  and `==` do.
* Calls on collaborators (renderer, observers, rendering context, image buffer
  factory) are recorded in order in the `trace` field; what a collaborator
  answers is an input of the operation (`Host`).
-/

namespace WebCore

/-! ## Single precision numbers -/

/-- Worker of `bitLength`: counts binary digits with explicit fuel. -/
def bitLengthAux : Nat → Nat → Nat
  | 0, _ => 0
  | fuel + 1, n => if n = 0 then 0 else bitLengthAux fuel (n / 2) + 1

/-- Number of binary digits of `n` (`0` for `0`). -/
def bitLength (n : Nat) : Nat := bitLengthAux n n

/-- The integer nearest to `n / 2 ^ k`, ties going to the even neighbour. -/
def roundShift (n k : Nat) : Nat :=
  let q := n / 2 ^ k
  let r := n % 2 ^ k
  if 2 * r < 2 ^ k then q
  else if 2 ^ k < 2 * r then q + 1
  else if q % 2 = 0 then q else q + 1

/-- A finite `float`: the number `mant * 2 ^ exp`. -/
structure F32 where
  mant : Int
  exp : Int
deriving DecidableEq, Repr

namespace F32

/-- The rational number a float stands for. -/
def toRat (x : F32) : ℚ := (x.mant : ℚ) * (2 : ℚ) ^ x.exp

/-- Rounding of an exact result to 24 significant bits, nearest, ties to even. -/
def round (x : F32) : F32 :=
  let a := x.mant.natAbs
  if bitLength a ≤ 24 then x
  else
    let k := bitLength a - 24
    ⟨Int.sign x.mant * (roundShift a k : Int), x.exp + (k : Int)⟩

/-- Conversion `int → float`. -/
def ofInt (i : Int) : F32 := round ⟨i, 0⟩

/-- Operator `*` on `float`. -/
def mul (x y : F32) : F32 := round ⟨x.mant * y.mant, x.exp + y.exp⟩

/-- The least integer not below the value (the value of `ceilf(x)`). -/
def ceil (x : F32) : Int :=
  if 0 ≤ x.exp then x.mant * 2 ^ x.exp.toNat
  else -((-x.mant) / 2 ^ (-x.exp).toNat)

/-- The greatest integer not above the value (the value of `floorf(x)`). -/
def floor (x : F32) : Int :=
  if 0 ≤ x.exp then x.mant * 2 ^ x.exp.toNat
  else x.mant / 2 ^ (-x.exp).toNat

/-- Function `ceilf`: the result is again a float. -/
def ceilf (x : F32) : F32 := ⟨x.ceil, 0⟩

/-- Function `floorf`. -/
def floorf (x : F32) : F32 := ⟨x.floor, 0⟩

/-- Operator `<` on `float`, decided on a common exponent. -/
def lt (x y : F32) : Bool :=
  let e := min x.exp y.exp
  decide (x.mant * 2 ^ (x.exp - e).toNat < y.mant * 2 ^ (y.exp - e).toNat)

/-- Operator `>` on `float`. -/
def gt (x y : F32) : Bool := lt y x

/-- Conversion `float → int` of an in-range value: truncation toward zero. -/
def toInt (x : F32) : Int :=
  if 0 ≤ x.mant then x.floor else x.ceil

/-- Operator `<=` on `float`, decided on a common exponent. -/
def le (x y : F32) : Bool :=
  let e := min x.exp y.exp
  decide (x.mant * 2 ^ (x.exp - e).toNat ≤ y.mant * 2 ^ (y.exp - e).toNat)

/-- Operator `==` on `float`: the same number, whatever the pairs are. -/
def eqv (x y : F32) : Bool :=
  let e := min x.exp y.exp
  decide (x.mant * 2 ^ (x.exp - e).toNat = y.mant * 2 ^ (y.exp - e).toNat)

/-- The exact sum of two floats, before it is rounded. -/
def sum (x y : F32) : F32 :=
  let e := min x.exp y.exp
  ⟨x.mant * 2 ^ (x.exp - e).toNat + y.mant * 2 ^ (y.exp - e).toNat, e⟩

/-- The exact difference of two floats, before it is rounded. -/
def diff (x y : F32) : F32 :=
  let e := min x.exp y.exp
  ⟨x.mant * 2 ^ (x.exp - e).toNat - y.mant * 2 ^ (y.exp - e).toNat, e⟩

/-- Operator `+` on `float`. -/
def add (x y : F32) : F32 := round (sum x y)

/-- Operator `-` on `float`. -/
def sub (x y : F32) : F32 := round (diff x y)

/-- Operator `/` on `float`, for a divisor that is not zero.  The quotient of the
mantissas is taken to at least 26 binary digits, with one more digit that says
whether anything was left over, so that rounding it to 24 digits gives the
float nearest to the exact quotient, ties to even.  (For the divisor zero,
which `mapRect` excludes before it divides, the digits are those of zero.) -/
def div (x y : F32) : F32 :=
  let b := y.mant.natAbs
  let s := bitLength b + 26
  let n := x.mant.natAbs * 2 ^ s
  let sticky : Nat := if n % b = 0 then 0 else 1
  round ⟨Int.sign x.mant * Int.sign y.mant * ((2 * (n / b) + sticky : Nat) : Int),
    x.exp - y.exp - (s : Int) - 1⟩

/-- Function `std::min` on `float`: `(y < x) ? y : x`. -/
def min (x y : F32) : F32 := if lt y x then y else x

/-- Function `std::max` on `float`: `(x < y) ? y : x`. -/
def max (x y : F32) : F32 := if lt x y then y else x

end F32

/-! ## Constants of the file -/

/-- These values come from the WhatWG spec. -/
def DefaultWidth : Int := 300

/-- Default height of a canvas. -/
def DefaultHeight : Int := 150

/-- Maximum canvas area in CSS pixels, `32768 * 8192` as a float. -/
def MaxCanvasArea : F32 := ⟨32768 * 8192, 0⟩

/-- Maximum width/height in CSS pixels when drawing with Skia. -/
def MaxSkiaDim : F32 := ⟨32767, 0⟩

/-- Largest `int`. -/
def intMax : Int := 2147483647

/-- Smallest `int`. -/
def intMin : Int := -2147483648

/-- Modelled from the spec: `clampToInteger` of wtf/MathExtras.h, which is not
part of the sources at hand.  The value is brought into "the representable
integer domain" and converted. -/
def clampToInteger (x : F32) : Int :=
  if intMax ≤ x.toInt then intMax
  else if x.toInt < intMin then intMin
  else x.toInt

/-- Which of the conditionally compiled parts of the file are built. -/
structure Config where
  /-- Source: `ENABLE(WEBGL)` -/
  enableWebGL : Bool
  /-- Source: `PLATFORM(CHROMIUM) || PLATFORM(GTK)` -/
  chromiumOrGtk : Bool
  /-- Source: `USE(SKIA)` -/
  useSkia : Bool
  /-- Source: `PLATFORM(ANDROID)` -/
  platformAndroid : Bool
  /-- Source: `USE(IOSURFACE_CANVAS_BACKING_STORE) || (ENABLE(ACCELERATED_2D_CANVAS) &&
  USE(ACCELERATED_COMPOSITING)) || PLATFORM(ANDROID)` -/
  layerFor2D : Bool
  /-- Source: `USE(CG) || USE(SKIA) || PLATFORM(ANDROID)` -/
  readsBackImageData : Bool
  /-- Source: `ENABLE(DASHBOARD_SUPPORT)` -/
  dashboardSupport : Bool
deriving DecidableEq, Repr

/-- An `IntSize`. -/
structure IntSize where
  width : Int
  height : Int
deriving DecidableEq, Repr

namespace IntSize

/-- The default constructed size `IntSize()`. -/
def zero : IntSize := ⟨0, 0⟩

/-- Method `IntSize::isEmpty`. -/
def isEmpty (s : IntSize) : Bool := decide (s.width ≤ 0) || decide (s.height ≤ 0)

end IntSize

/-! ## Device size conversion -/

/-- Source: `HTMLCanvasElement::convertToValidDeviceSize(float width, float height)`. -/
def convertToValidDeviceSize (cfg : Config) (width height : F32) : IntSize :=
  let width := F32.ceilf width
  let height := F32.ceilf height
  if F32.lt width ⟨1, 0⟩ || F32.lt height ⟨1, 0⟩
      || F32.gt (F32.mul width height) MaxCanvasArea then
    IntSize.zero
  else if cfg.useSkia && (F32.gt width MaxSkiaDim || F32.gt height MaxSkiaDim) then
    IntSize.zero
  else
    ⟨width.toInt, height.toInt⟩

/-- In `convertLogicalToDevice(const FloatSize&)`: one dimension of the device
size, `clampToInteger(ceilf(length * m_pageScaleFactor))` stored in a `float`,
for a logical length that was an `int`. -/
def deviceLength (pageScaleFactor : F32) (length : Int) : F32 :=
  F32.ofInt (clampToInteger (F32.ceilf (F32.mul (F32.ofInt length) pageScaleFactor)))

/-- Source: `HTMLCanvasElement::convertLogicalToDevice(const FloatSize&)`, applied to the
size `FloatSize(w, h)` built from two `int`s as `createImageBuffer` does. -/
def convertLogicalToDevice (cfg : Config) (pageScaleFactor : F32) (w h : Int) : IntSize :=
  let width := deviceLength pageScaleFactor w
  let height := deviceLength pageScaleFactor h
  convertToValidDeviceSize cfg width height

/-! ## Rectangles -/

/-- An `IntRect`. -/
structure IntRect where
  x : Int
  y : Int
  width : Int
  height : Int
deriving DecidableEq, Repr

/-- Modelled from the spec: the rectangle class `FloatRect` of
platform/graphics, which is not part of the sources at hand.  A rectangle is a
corner and a size; the spec asks of it a mapping between coordinate spaces,
intersection, emptiness, containment and the bounding union.  The four members
are `float`s, as the name of the class says and as `convertLogicalToDevice`
uses them (`floorf(logicalRect.x() * m_pageScaleFactor)`), so every sum,
difference, product and quotient below is rounded to binary32. -/
structure FloatRect where
  x : F32
  y : F32
  width : F32
  height : F32
deriving DecidableEq, Repr

namespace FloatRect

/-- The default constructed rectangle `FloatRect()`. -/
def zero : FloatRect := ⟨⟨0, 0⟩, ⟨0, 0⟩, ⟨0, 0⟩, ⟨0, 0⟩⟩

/-- The rectangle `FloatRect(x, y, width, height)` of four `int`s, each
converted to `float`. -/
def ofInts (x y width height : Int) : FloatRect :=
  ⟨F32.ofInt x, F32.ofInt y, F32.ofInt width, F32.ofInt height⟩

/-- Conversion `IntRect → FloatRect`. -/
def ofIntRect (r : IntRect) : FloatRect := ofInts r.x r.y r.width r.height

/-- Right edge, `x() + width()`. -/
def maxX (r : FloatRect) : F32 := F32.add r.x r.width

/-- Bottom edge, `y() + height()`. -/
def maxY (r : FloatRect) : F32 := F32.add r.y r.height

/-- A rectangle without area is empty: `width() <= 0 || height() <= 0`. -/
def isEmpty (r : FloatRect) : Bool := F32.le r.width ⟨0, 0⟩ || F32.le r.height ⟨0, 0⟩

/-- The rectangle with the given four edges: its size is `r - l` by `b - t`. -/
def fromEdges (l t r b : F32) : FloatRect := ⟨l, t, F32.sub r l, F32.sub b t⟩

/-- Whether `other` lies inside `r`: `x() <= other.x() && maxX() >= other.maxX()
&& y() <= other.y() && maxY() >= other.maxY()`. -/
def contains (r other : FloatRect) : Bool :=
  F32.le r.x other.x && F32.le other.maxX r.maxX
    && F32.le r.y other.y && F32.le other.maxY r.maxY

/-- Whether the two rectangles share area. -/
def intersects (r other : FloatRect) : Bool :=
  !r.isEmpty && !other.isEmpty && F32.lt r.x other.maxX && F32.lt other.x r.maxX
    && F32.lt r.y other.maxY && F32.lt other.y r.maxY

/-- Intersection; rectangles that do not meet give the clean empty rectangle. -/
def intersect (r other : FloatRect) : FloatRect :=
  let l := F32.max r.x other.x
  let t := F32.max r.y other.y
  let rt := F32.min r.maxX other.maxX
  let b := F32.min r.maxY other.maxY
  if F32.le rt l || F32.le b t then fromEdges ⟨0, 0⟩ ⟨0, 0⟩ ⟨0, 0⟩ ⟨0, 0⟩
  else fromEdges l t rt b

/-- Bounding union: the rectangle from the smaller left and top edges to the
greater right and bottom edges, an empty operand being ignored. -/
def unite (r other : FloatRect) : FloatRect :=
  if other.isEmpty then r
  else if r.isEmpty then other
  else fromEdges (F32.min r.x other.x) (F32.min r.y other.y)
    (F32.max r.maxX other.maxX) (F32.max r.maxY other.maxY)

/-- Maps `r` from the coordinate space of `srcRect` to that of `destRect`. -/
def mapRect (r srcRect destRect : FloatRect) : FloatRect :=
  if F32.eqv srcRect.width ⟨0, 0⟩ || F32.eqv srcRect.height ⟨0, 0⟩ then zero
  else
    let widthScale := F32.div destRect.width srcRect.width
    let heightScale := F32.div destRect.height srcRect.height
    ⟨F32.add destRect.x (F32.mul (F32.sub r.x srcRect.x) widthScale),
     F32.add destRect.y (F32.mul (F32.sub r.y srcRect.y) heightScale),
     F32.mul r.width widthScale, F32.mul r.height heightScale⟩

/-- Operator `==` on rectangles: the same corner and the same size. -/
def same (a b : FloatRect) : Bool :=
  F32.eqv a.x b.x && F32.eqv a.y b.y && F32.eqv a.width b.width
    && F32.eqv a.height b.height

end FloatRect

/-! ## The objects a canvas refers to -/

/-- The two kinds of rendering context a canvas can hold. -/
inductive ContextKind where
  | canvas2D
  | webGL
deriving DecidableEq, Repr

/-- A `CanvasRenderingContext` object: its identity and its kind. -/
structure CanvasRenderingContext where
  id : Nat
  kind : ContextKind
deriving DecidableEq, Repr

/-- Method `CanvasRenderingContext::is2d`. -/
def CanvasRenderingContext.is2d (c : CanvasRenderingContext) : Bool :=
  decide (c.kind = ContextKind.canvas2D)

/-- Method `CanvasRenderingContext::is3d`. -/
def CanvasRenderingContext.is3d (c : CanvasRenderingContext) : Bool :=
  decide (c.kind = ContextKind.webGL)

/-- An `ImageBuffer` object: its identity and the device size it was created with. -/
structure ImageBuffer where
  id : Nat
  size : IntSize
deriving DecidableEq, Repr

/-- An `Image` object (a snapshot of pixels), known by its identity. -/
structure Image where
  id : Nat
deriving DecidableEq, Repr

/-- The result of `getAttribute(name).toInt(&ok)`. -/
structure AttrInt where
  value : Int
  ok : Bool
deriving DecidableEq, Repr

/-- Calls made on collaborators, in the order the source makes them. -/
inductive Event where
  /-- Source: `new CanvasRenderingContext2D(...)` -/
  | newContext2D (id : Nat)
  /-- Source: `WebGLRenderingContext::create(...)`, with whether it gave a context -/
  | webGLCreate (ok : Bool)
  /-- Source: `setNeedsStyleRecalc(SyntheticStyleChange)` -/
  | setNeedsStyleRecalc
  /-- The three `document()` registrations of the Android WebGL path -/
  | registerWebGLDocument
  /-- Source: `ro->repaintRectangle(enclosingIntRect(rect))` -/
  | repaintRectangle (rect : FloatRect)
  /-- Source: `observer->canvasChanged(this, rect)` -/
  | canvasChanged (observer : Nat) (rect : FloatRect)
  /-- Source: `observer->canvasResized(this)` -/
  | canvasResized (observer : Nat)
  /-- Source: `WebGLRenderingContext::reshape(width, height)` -/
  | reshape (width height : Int)
  /-- Source: `CanvasRenderingContext2D::reset()` -/
  | context2DReset
  /-- Source: `RenderHTMLCanvas::canvasSizeChanged()` -/
  | canvasSizeChanged
  /-- Source: `renderer->repaint()` -/
  | rendererRepaint
  /-- Source: `m_context->paintRenderingResultsToCanvas()` -/
  | paintRenderingResultsToCanvas
  /-- Source: `ctx->paintRenderingResultsToImageData()` -/
  | paintRenderingResultsToImageData
  /-- Source: `ImageBuffer::create(size)`, with whether it gave a buffer -/
  | imageBufferCreate (size : IntSize) (ok : Bool)
  /-- The set-up of the new buffer's graphics context -/
  | imageBufferSetUp (buffer : Nat)
  /-- Source: `buffer->copyImage()` giving the image `image` -/
  | copyImage (buffer : Nat) (image : Nat)
  /-- Source: `ImageDataToDataURL(...)` -/
  | imageDataToDataURL (mimeType : String)
  /-- Source: `buffer->toDataURL(...)` -/
  | bufferToDataURL (buffer : Nat) (mimeType : String)
  /-- Source: `context->drawImage(image, ColorSpaceDeviceRGB, r)` -/
  | drawImage (image : Option Nat) (r : IntRect)
  /-- Source: `context->drawImageBuffer(imageBuffer, ColorSpaceDeviceRGB, r)` -/
  | drawImageBuffer (buffer : Nat) (r : IntRect)
  /-- Source: `WebGLRenderingContext::markLayerComposited()` -/
  | markLayerComposited
  /-- Source: `setIeForbidsInsertHTML()` -/
  | setIeForbidsInsertHTML
deriving DecidableEq

/-- The canvas element: the members of `HTMLCanvasElement`, the two size
attributes of the element, a counter naming the objects it creates and the
calls it has made. -/
structure HTMLCanvasElement where
  m_size : IntSize
  m_rendererIsCanvas : Bool
  m_ignoreReset : Bool
  m_pageScaleFactor : F32
  m_originClean : Bool
  m_hasCreatedImageBuffer : Bool
  m_context : Option CanvasRenderingContext
  m_imageBuffer : Option ImageBuffer
  m_presentedImage : Option Image
  m_copiedImage : Option Image
  m_dirtyRect : FloatRect
  m_observers : List Nat
  widthAttr : AttrInt
  heightAttr : AttrInt
  nextId : Nat
  trace : List Event
deriving DecidableEq

/-- Source: `document()->settings()` as far as the file reads it. -/
structure Settings where
  webGLEnabled : Bool
  acceleratedCompositingEnabled : Bool
  usesDashboardBackwardCompatibilityMode : Bool
deriving DecidableEq, Repr

/-- The render box of the element as far as the file reads it. -/
structure RenderBox where
  contentBoxRect : IntRect
  hasLayer : Bool
deriving DecidableEq, Repr

/-- What the collaborators answer during one call. -/
structure Host where
  /-- Source: `document()->settings()` -/
  settings : Option Settings
  /-- whether `WebGLRenderingContext::create` gives a context -/
  webGLCreates : Bool
  /-- Source: `renderBox()` (and `renderer()`) -/
  renderBox : Option RenderBox
  /-- whether `ImageBuffer::create` gives a buffer -/
  imageBufferCreates : Bool
  /-- whether `paintRenderingResultsToImageData` gives image data -/
  imageDataAvailable : Bool
  /-- Source: `MIMETypeRegistry::isSupportedImageMIMETypeForEncoding` -/
  isSupportedImageMIMETypeForEncoding : String → Bool
  /-- the string `ImageDataToDataURL` gives -/
  imageDataToDataURL : String → Option ℚ → String
  /-- the string `ImageBuffer::toDataURL` gives -/
  bufferToDataURL : String → Option ℚ → String
  /-- Source: `context->paintingDisabled()` of the graphics context handed to `paint` -/
  paintingDisabled : Bool
  /-- Source: `m_context->paintsIntoCanvasBuffer()` -/
  paintsIntoCanvasBuffer : Bool
  /-- Source: `imageBuffer->drawsUsingRecording()` -/
  drawsUsingRecording : Bool
  /-- Source: `imageBuffer->drawsUsingCopy()` -/
  drawsUsingCopy : Bool
  /-- whether `createRenderer` finds a frame whose scripts can run -/
  canExecuteScripts : Bool

/-- The exception code `SECURITY_ERR`. -/
def SECURITY_ERR : Nat := 18

namespace HTMLCanvasElement

/-- Appends a call to the trace. -/
def emit (c : HTMLCanvasElement) (e : Event) : HTMLCanvasElement :=
  { c with trace := c.trace ++ [e] }

/-- The constructor.  `scaleFactor` is the page's scale factor, which is
only read when `ANDROID` is not defined. -/
def create (cfg : Config) (scaleFactor : F32) : HTMLCanvasElement :=
  { m_size := ⟨DefaultWidth, DefaultHeight⟩
    m_rendererIsCanvas := false
    m_ignoreReset := false
    m_pageScaleFactor := if cfg.platformAndroid then ⟨1, 0⟩ else scaleFactor
    m_originClean := true
    m_hasCreatedImageBuffer := false
    m_context := none
    m_imageBuffer := none
    m_presentedImage := none
    m_copiedImage := none
    m_dirtyRect := FloatRect.zero
    m_observers := []
    widthAttr := ⟨0, false⟩
    heightAttr := ⟨0, false⟩
    nextId := 0
    trace := [] }

/-- Source: `HTMLCanvasElement::getContext`. -/
def getContext (cfg : Config) (host : Host) (type : String) (c : HTMLCanvasElement) :
    Option CanvasRenderingContext × HTMLCanvasElement :=
  if type = "2d" then
    match c.m_context with
    | some ctx => if !ctx.is2d then (none, c) else (some ctx, c)
    | none =>
      let ctx : CanvasRenderingContext := ⟨c.nextId, ContextKind.canvas2D⟩
      let c1 := { c with m_context := some ctx, nextId := c.nextId + 1 }
      let c2 := c1.emit (Event.newContext2D ctx.id)
      let c3 := if cfg.layerFor2D then c2.emit Event.setNeedsStyleRecalc else c2
      (some ctx, c3)
  else if cfg.enableWebGL then
    match host.settings with
    | none => (none, c)
    | some settings =>
      if settings.webGLEnabled
          && (cfg.chromiumOrGtk || settings.acceleratedCompositingEnabled) then
        if type = "webkit-3d" ∨ type = "experimental-webgl" then
          match c.m_context with
          | some ctx => if !ctx.is3d then (none, c) else (some ctx, c)
          | none =>
            let c1 := c.emit (Event.webGLCreate host.webGLCreates)
            if host.webGLCreates then
              let ctx : CanvasRenderingContext := ⟨c1.nextId, ContextKind.webGL⟩
              let c2 := { c1 with m_context := some ctx, nextId := c1.nextId + 1 }
              let c3 := c2.emit Event.setNeedsStyleRecalc
              let c4 := if cfg.platformAndroid then c3.emit Event.registerWebGLDocument else c3
              (some ctx, c4)
            else
              (none, c1)
        else (none, c)
      else (none, c)
  else (none, c)

/-- The loop over `m_observers` sending `canvasChanged`. -/
def notifyChanged (rect : FloatRect) (c : HTMLCanvasElement) : HTMLCanvasElement :=
  { c with trace := c.trace ++ c.m_observers.map (fun o => Event.canvasChanged o rect) }

/-- The loop over `m_observers` sending `canvasResized`. -/
def notifyResized (c : HTMLCanvasElement) : HTMLCanvasElement :=
  { c with trace := c.trace ++ c.m_observers.map (fun o => Event.canvasResized o) }

/-- In `didDraw`: the reported rectangle mapped from canvas coordinates to the
content box, `mapRect(rect, FloatRect(0, 0, size().width(), size().height()),
destRect)`. -/
def mapToContentBox (c : HTMLCanvasElement) (ro : RenderBox) (rect : FloatRect) :
    FloatRect :=
  FloatRect.mapRect rect (FloatRect.ofInts 0 0 c.m_size.width c.m_size.height)
    (FloatRect.ofIntRect ro.contentBoxRect)

/-- The rectangle `didDraw` tests and accumulates: the mapped rectangle clipped
to the content box. -/
def mappedRect (c : HTMLCanvasElement) (ro : RenderBox) (rect : FloatRect) : FloatRect :=
  (c.mapToContentBox ro rect).intersect (FloatRect.ofIntRect ro.contentBoxRect)

/-- Source: `HTMLCanvasElement::didDraw`. -/
def didDraw (cfg : Config) (host : Host) (rect : FloatRect) (c : HTMLCanvasElement) :
    HTMLCanvasElement :=
  let c1 := { c with m_copiedImage := none }
  match host.renderBox with
  | some ro =>
    let r := c1.mappedRect ro rect
    if r.isEmpty || c1.m_dirtyRect.contains r then c1
    else
      let c2 := { c1 with m_dirtyRect := c1.m_dirtyRect.unite r }
      let c3 := if cfg.platformAndroid && ro.hasLayer then c2
        else c2.emit (Event.repaintRectangle c2.m_dirtyRect)
      c3.notifyChanged rect
  | none => c1.notifyChanged rect

/-- Source: `HTMLCanvasElement::setSurfaceSize`. -/
def setSurfaceSize (size : IntSize) (c : HTMLCanvasElement) : HTMLCanvasElement :=
  { c with m_size := size, m_hasCreatedImageBuffer := false, m_imageBuffer := none,
           m_copiedImage := none }

/-- The length `reset` takes from a size attribute: `deflt` when the attribute
does not parse or is negative. -/
def attrLength (a : AttrInt) (deflt : Int) : Int :=
  if !a.ok || decide (a.value < 0) then deflt else a.value

/-- In `reset`: the `reshape` sent to a 3D context when the size changed. -/
def resetReshape (cfg : Config) (oldSize : IntSize) (c : HTMLCanvasElement) :
    HTMLCanvasElement :=
  match c.m_context with
  | some ctx =>
    if cfg.enableWebGL && ctx.is3d && decide (oldSize ≠ c.m_size) then
      c.emit (Event.reshape c.m_size.width c.m_size.height)
    else c
  | none => c

/-- In `reset`: the `reset` sent to a 2D context. -/
def resetContext2D (c : HTMLCanvasElement) : HTMLCanvasElement :=
  match c.m_context with
  | some ctx => if ctx.is2d then c.emit Event.context2DReset else c
  | none => c

/-- In `reset`: what the renderer is told. -/
def resetRenderer (host : Host) (oldSize : IntSize) (hadImageBuffer : Bool)
    (c : HTMLCanvasElement) : HTMLCanvasElement :=
  match host.renderBox with
  | some _ =>
    if c.m_rendererIsCanvas then
      let c1 := if oldSize ≠ c.m_size then c.emit Event.canvasSizeChanged else c
      if hadImageBuffer then c1.emit Event.rendererRepaint else c1
    else c
  | none => c

/-- Source: `HTMLCanvasElement::reset`. -/
def reset (cfg : Config) (host : Host) (c : HTMLCanvasElement) : HTMLCanvasElement :=
  if c.m_ignoreReset then c
  else
    let hadImageBuffer := c.m_hasCreatedImageBuffer
    let w := attrLength c.widthAttr DefaultWidth
    let h := attrLength c.heightAttr DefaultHeight
    let oldSize := c.m_size
    let c1 := c.setSurfaceSize ⟨w, h⟩
    let c2 := c1.resetReshape cfg oldSize
    let c3 := c2.resetContext2D
    let c4 := c3.resetRenderer host oldSize hadImageBuffer
    c4.notifyResized

/-- Source: `HTMLCanvasElement::createImageBuffer`. -/
def createImageBuffer (cfg : Config) (host : Host) (c : HTMLCanvasElement) :
    HTMLCanvasElement :=
  let c1 := { c with m_hasCreatedImageBuffer := true }
  let size := convertLogicalToDevice cfg c1.m_pageScaleFactor c1.m_size.width c1.m_size.height
  if size.width = 0 ∨ size.height = 0 then c1
  else
    let c2 := c1.emit (Event.imageBufferCreate size host.imageBufferCreates)
    if host.imageBufferCreates then
      let buf : ImageBuffer := ⟨c2.nextId, size⟩
      let c3 := { c2 with m_imageBuffer := some buf, nextId := c2.nextId + 1 }
      c3.emit (Event.imageBufferSetUp buf.id)
    else
      { c2 with m_imageBuffer := none }

/-- Source: `HTMLCanvasElement::buffer`. -/
def buffer (cfg : Config) (host : Host) (c : HTMLCanvasElement) :
    Option ImageBuffer × HTMLCanvasElement :=
  let c1 := if !c.m_hasCreatedImageBuffer then c.createImageBuffer cfg host else c
  (c1.m_imageBuffer, c1)

/-- Modelled from the spec: `ImageBuffer::copyImage`, which is not part of the
sources at hand; it "copies the backing store's pixels" into a new image. -/
def copyImage (buf : ImageBuffer) (c : HTMLCanvasElement) : Image × HTMLCanvasElement :=
  let img : Image := ⟨c.nextId⟩
  (img, { c with nextId := c.nextId + 1, trace := c.trace ++ [Event.copyImage buf.id img.id] })

/-- Source: `HTMLCanvasElement::copiedImage`.  The source calls `buffer()` a
second time for `copyImage`; that call finds the buffer the first one returned,
the last branch below is the null pointer it cannot return. -/
def copiedImage (cfg : Config) (host : Host) (c : HTMLCanvasElement) :
    Option Image × HTMLCanvasElement :=
  match c.m_copiedImage with
  | some img => (some img, c)
  | none =>
    match c.buffer cfg host with
    | (none, c1) => (c1.m_copiedImage, c1)
    | (some _, c1) =>
      let c2 := if c1.m_context.isSome then c1.emit Event.paintRenderingResultsToCanvas else c1
      match c2.buffer cfg host with
      | (some buf, c3) =>
        let (img, c4) := copyImage buf c3
        (some img, { c4 with m_copiedImage := some img })
      | (none, c3) => (c3.m_copiedImage, c3)

/-- Source: `HTMLCanvasElement::clearCopiedImage`. -/
def clearCopiedImage (c : HTMLCanvasElement) : HTMLCanvasElement :=
  { c with m_copiedImage := none }

/-- Source: `HTMLCanvasElement::makeRenderingResultsAvailable`. -/
def makeRenderingResultsAvailable (c : HTMLCanvasElement) : HTMLCanvasElement :=
  if c.m_context.isSome then c.emit Event.paintRenderingResultsToCanvas else c

/-- Source: `HTMLCanvasElement::getImageData`: whether image data comes back. -/
def getImageData (cfg : Config) (host : Host) (c : HTMLCanvasElement) :
    Bool × HTMLCanvasElement :=
  match c.m_context with
  | none => (false, c)
  | some ctx =>
    if !ctx.is3d then (false, c)
    else if cfg.enableWebGL then
      (host.imageDataAvailable, c.emit Event.paintRenderingResultsToImageData)
    else (false, c)

/-- What `toDataURL` hands back: the string (`none` for the null string) and the
exception code it stored in `ec` (`none` when it stored nothing). -/
structure DataURLResult where
  url : Option String
  ec : Option Nat
deriving DecidableEq, Repr

/-- Source: `HTMLCanvasElement::toDataURL`.  A null `mimeType` is `none`, a null
`quality` pointer is `none`.  The last `buffer()` of the source finds the buffer
the first one returned; the last branch below is the null pointer it cannot
return. -/
def toDataURL (cfg : Config) (host : Host) (mimeType : Option String) (quality : Option ℚ)
    (c : HTMLCanvasElement) : DataURLResult × HTMLCanvasElement :=
  if !c.m_originClean then (⟨none, some SECURITY_ERR⟩, c)
  else if c.m_size.isEmpty then (⟨some "data:,", none⟩, c)
  else
    match c.buffer cfg host with
    | (none, c1) => (⟨some "data:,", none⟩, c1)
    | (some _, c1) =>
      let lowercaseMimeType :=
        match mimeType with
        | none => "image/png"
        | some m =>
          if host.isSupportedImageMIMETypeForEncoding m.toLower then m.toLower else "image/png"
      let (imageData, c2) :=
        if cfg.readsBackImageData then c1.getImageData cfg host else (false, c1)
      if imageData then
        (⟨some (host.imageDataToDataURL lowercaseMimeType quality), none⟩,
          c2.emit (Event.imageDataToDataURL lowercaseMimeType))
      else
        let c3 := c2.makeRenderingResultsAvailable
        match c3.buffer cfg host with
        | (some buf, c4) =>
          (⟨some (host.bufferToDataURL lowercaseMimeType quality), none⟩,
            c4.emit (Event.bufferToDataURL buf.id lowercaseMimeType))
        | (none, c4) => (⟨none, none⟩, c4)

/-- The end of `HTMLCanvasElement::paint`, after the image buffer has been
dealt with. -/
def paintEpilogue (cfg : Config) (host : Host) (c : HTMLCanvasElement) : HTMLCanvasElement :=
  let c1 :=
    match c.m_context with
    | some ctx => if cfg.enableWebGL && ctx.is3d then c.emit Event.markLayerComposited else c
    | none => c
  if cfg.dashboardSupport then
    match host.settings with
    | some settings =>
      if settings.usesDashboardBackwardCompatibilityMode then
        c1.emit Event.setIeForbidsInsertHTML
      else c1
    | none => c1
  else c1

/-- The part of `HTMLCanvasElement::paint` that draws the image buffer. -/
def paintBuffer (cfg : Config) (host : Host) (r : IntRect) (c : HTMLCanvasElement) :
    HTMLCanvasElement :=
  if c.m_hasCreatedImageBuffer then
    match c.buffer cfg host with
    | (some imageBuffer, c1) =>
      if host.drawsUsingRecording then c1
      else
        match c1.m_presentedImage with
        | some img => (c1.emit (Event.drawImage (some img.id) r)).paintEpilogue cfg host
        | none =>
          if host.drawsUsingCopy then
            let (img, c2) := c1.copiedImage cfg host
            (c2.emit (Event.drawImage (img.map Image.id) r)).paintEpilogue cfg host
          else
            (c1.emit (Event.drawImageBuffer imageBuffer.id r)).paintEpilogue cfg host
    | (none, c1) => c1.paintEpilogue cfg host
  else c.paintEpilogue cfg host

/-- Source: `HTMLCanvasElement::paint`. -/
def paint (cfg : Config) (host : Host) (r : IntRect) (c : HTMLCanvasElement) :
    HTMLCanvasElement :=
  let c1 := { c with m_dirtyRect := FloatRect.zero }
  if host.paintingDisabled then c1
  else
    match c1.m_context with
    | some _ =>
      if !host.paintsIntoCanvasBuffer then c1
      else (c1.emit Event.paintRenderingResultsToCanvas).paintBuffer cfg host r
    | none => c1.paintBuffer cfg host r

/-- Source: `HTMLCanvasElement::makePresentationCopy`.  The source calls `copyImage` on
what `buffer()` returns without a null check: `none` stands for that call on a
null pointer. -/
def makePresentationCopy (cfg : Config) (host : Host) (c : HTMLCanvasElement) :
    Option HTMLCanvasElement :=
  match c.m_presentedImage with
  | some _ => some c
  | none =>
    match c.buffer cfg host with
    | (some buf, c1) =>
      let (img, c2) := copyImage buf c1
      some { c2 with m_presentedImage := some img }
    | (none, _) => none

/-- Source: `HTMLCanvasElement::clearPresentationCopy`. -/
def clearPresentationCopy (c : HTMLCanvasElement) : HTMLCanvasElement :=
  { c with m_presentedImage := none }

/-- Source: `HTMLCanvasElement::drawingContext`: the buffer whose context is returned. -/
def drawingContext (cfg : Config) (host : Host) (c : HTMLCanvasElement) :
    Option ImageBuffer × HTMLCanvasElement :=
  c.buffer cfg host

/-- Source: `HTMLCanvasElement::addObserver` (`m_observers` is a set). -/
def addObserver (observer : Nat) (c : HTMLCanvasElement) : HTMLCanvasElement :=
  { c with m_observers := c.m_observers.insert observer }

/-- Source: `HTMLCanvasElement::removeObserver`. -/
def removeObserver (observer : Nat) (c : HTMLCanvasElement) : HTMLCanvasElement :=
  { c with m_observers := c.m_observers.erase observer }

/-- Source: `HTMLCanvasElement::createRenderer`, as far as the element is concerned. -/
def createRenderer (host : Host) (c : HTMLCanvasElement) : HTMLCanvasElement :=
  { c with m_rendererIsCanvas := host.canExecuteScripts }

/-- Source: `HTMLCanvasElement::parseMappedAttribute` for the `width` (`isWidth`) or the
`height` attribute, whose new value parses as `value`. -/
def parseMappedAttribute (cfg : Config) (host : Host) (isWidth : Bool) (value : AttrInt)
    (c : HTMLCanvasElement) : HTMLCanvasElement :=
  let c1 := if isWidth then { c with widthAttr := value } else { c with heightAttr := value }
  c1.reset cfg host

end HTMLCanvasElement

/-! ## Sequences of calls -/

/-- One call on the canvas, with what the collaborators answer during it. -/
inductive Op where
  | getContext (host : Host) (type : String)
  | didDraw (host : Host) (rect : FloatRect)
  | reset (host : Host)
  | setSurfaceSize (size : IntSize)
  | paint (host : Host) (r : IntRect)
  | buffer (host : Host)
  | drawingContext (host : Host)
  | copiedImage (host : Host)
  | clearCopiedImage
  | makePresentationCopy (host : Host)
  | clearPresentationCopy
  | makeRenderingResultsAvailable
  | toDataURL (host : Host) (mimeType : Option String) (quality : Option ℚ)
  | addObserver (observer : Nat)
  | removeObserver (observer : Nat)
  | createRenderer (host : Host)
  | parseMappedAttribute (host : Host) (isWidth : Bool) (value : AttrInt)

/-- The state after one call; `none` when the call dereferences a null pointer. -/
def Op.apply (cfg : Config) (op : Op) (c : HTMLCanvasElement) : Option HTMLCanvasElement :=
  match op with
  | Op.getContext host type => some (c.getContext cfg host type).2
  | Op.didDraw host rect => some (c.didDraw cfg host rect)
  | Op.reset host => some (c.reset cfg host)
  | Op.setSurfaceSize size => some (c.setSurfaceSize size)
  | Op.paint host r => some (c.paint cfg host r)
  | Op.buffer host => some (c.buffer cfg host).2
  | Op.drawingContext host => some (c.drawingContext cfg host).2
  | Op.copiedImage host => some (c.copiedImage cfg host).2
  | Op.clearCopiedImage => some c.clearCopiedImage
  | Op.makePresentationCopy host => c.makePresentationCopy cfg host
  | Op.clearPresentationCopy => some c.clearPresentationCopy
  | Op.makeRenderingResultsAvailable => some c.makeRenderingResultsAvailable
  | Op.toDataURL host mimeType quality => some (c.toDataURL cfg host mimeType quality).2
  | Op.addObserver observer => some (c.addObserver observer)
  | Op.removeObserver observer => some (c.removeObserver observer)
  | Op.createRenderer host => some (c.createRenderer host)
  | Op.parseMappedAttribute host isWidth value =>
    some (c.parseMappedAttribute cfg host isWidth value)

/-- The state after a sequence of calls, made one after the other. -/
def run (cfg : Config) : List Op → HTMLCanvasElement → Option HTMLCanvasElement
  | [], c => some c
  | op :: ops, c =>
    match op.apply cfg c with
    | some c1 => run cfg ops c1
    | none => none

/-- The calls that give the canvas a size anew: `reset`, `setSurfaceSize` and
the attribute change that ends in `reset`. -/
def Op.resizes : Op → Bool
  | Op.reset _ => true
  | Op.setSurfaceSize _ => true
  | Op.parseMappedAttribute _ _ _ => true
  | _ => false

/-- The members that `buffer()`, `copiedImage()` and the calls on collaborators
never write: everything but the has-created flag, the image buffer, the copied
snapshot, the object counter and the trace. -/
def HTMLCanvasElement.bystanders (c : HTMLCanvasElement) :
    IntSize × Bool × Bool × F32 × Bool × Option CanvasRenderingContext × Option Image
      × FloatRect × List Nat × AttrInt × AttrInt :=
  (c.m_size, c.m_rendererIsCanvas, c.m_ignoreReset, c.m_pageScaleFactor, c.m_originClean,
    c.m_context, c.m_presentedImage, c.m_dirtyRect, c.m_observers, c.widthAttr, c.heightAttr)

/-- A run of `didDraw` calls, one for each rectangle of the list, in order. -/
def HTMLCanvasElement.didDrawAll (cfg : Config) (host : Host) (rects : List FloatRect)
    (c : HTMLCanvasElement) : HTMLCanvasElement :=
  rects.foldl (fun d rect => d.didDraw cfg host rect) c

/-- The value of an `int` expression whose exact result is `z`: the result wrapped
into 32 bits.  (Signed overflow is undefined in C++; this is what two's
complement hardware yields.) -/
def wrapInt32 (z : Int) : Int := (z + 2147483648) % 4294967296 - 2147483648

/-- Source: `HTMLCanvasElement::convertLogicalToDevice(const FloatRect&)`, given the
four floats `x()`, `y()`, `maxX()` and `maxY()` of the logical rectangle.  The
differences `right - left` and `bottom - top` are `int` subtractions whose
results are converted to `float` for `convertToValidDeviceSize`. -/
def convertLogicalToDeviceRect (cfg : Config) (pageScaleFactor : F32) (x y maxX maxY : F32) :
    IntRect :=
  let left := clampToInteger (F32.floorf (F32.mul x pageScaleFactor))
  let top := clampToInteger (F32.floorf (F32.mul y pageScaleFactor))
  let right := clampToInteger (F32.ceilf (F32.mul maxX pageScaleFactor))
  let bottom := clampToInteger (F32.ceilf (F32.mul maxY pageScaleFactor))
  let size := convertToValidDeviceSize cfg (F32.ofInt (wrapInt32 (right - left)))
    (F32.ofInt (wrapInt32 (bottom - top)))
  ⟨left, top, size.width, size.height⟩

/-- The members the invariants of the image buffer speak of. -/
def HTMLCanvasElement.store (c : HTMLCanvasElement) :
    IntSize × F32 × Bool × Option ImageBuffer × Option Image × List Nat :=
  (c.m_size, c.m_pageScaleFactor, c.m_hasCreatedImageBuffer, c.m_imageBuffer,
    c.m_copiedImage, c.m_observers)

/-- The invariants of the image buffer and of the observer set: a buffer exists
only after a creation was attempted; a copied snapshot exists only with a
buffer; a buffer has the device size of the current logical size, with both
dimensions at least 1; no observer is registered twice. -/
def HTMLCanvasElement.WellFormed (cfg : Config) (c : HTMLCanvasElement) : Prop :=
  (c.m_hasCreatedImageBuffer = false → c.m_imageBuffer = none)
    ∧ (c.m_imageBuffer = none → c.m_copiedImage = none)
    ∧ (∀ buf, c.m_imageBuffer = some buf →
      buf.size = convertLogicalToDevice cfg c.m_pageScaleFactor c.m_size.width c.m_size.height
        ∧ 1 ≤ buf.size.width ∧ 1 ≤ buf.size.height)
    ∧ c.m_observers.Nodup

/-- The calls by which `reset()` instructs the rendering context: the `reshape`
of a 3D context and the `reset` of a 2D context. -/
def Event.isContextInstruction : Event → Bool
  | Event.reshape _ _ => true
  | Event.context2DReset => true
  | _ => false

/-- The instructions to the rendering context among the calls that `reset()`
makes, in the order in which it makes them. -/
def HTMLCanvasElement.resetInstructions (cfg : Config) (host : Host)
    (c : HTMLCanvasElement) : List Event :=
  ((c.reset cfg host).trace.drop c.trace.length).filter Event.isContextInstruction

/-- A 3D context is bound only in a build with WebGL. -/
def HTMLCanvasElement.ContextOfBuild (cfg : Config) (c : HTMLCanvasElement) : Prop :=
  ∀ ctx, c.m_context = some ctx → ctx.is3d = true → cfg.enableWebGL = true

/-- The calls that draw pixels to the destination of `paint`: `drawImage` and
`drawImageBuffer` on the graphics context. -/
def Event.isDraw : Event → Bool
  | Event.drawImage _ _ => true
  | Event.drawImageBuffer _ _ => true
  | _ => false

/-- The draw calls among the calls that `paint` makes, in the order in which it
makes them. -/
def HTMLCanvasElement.paintDraws (cfg : Config) (host : Host) (r : IntRect)
    (c : HTMLCanvasElement) : List Event :=
  ((c.paint cfg host r).trace.drop c.trace.length).filter Event.isDraw

/-- Whether `d` is the bounding box of `a` and `b`, the smallest rectangle that
holds both: its left and top edges are the smaller of the two left and top
edges, its right and bottom edges the greater of the two right and bottom
edges. -/
def FloatRect.isBoundingBox (d a b : FloatRect) : Bool :=
  F32.eqv d.x (F32.min a.x b.x) && F32.eqv d.y (F32.min a.y b.y)
    && F32.eqv d.maxX (F32.max a.maxX b.maxX) && F32.eqv d.maxY (F32.max a.maxY b.maxY)

/-- Whether the float arithmetic that takes the edges `l`, `t`, `r`, `b` of the
bounding box of `a` and `b` to a size and back is exact: `l + (r - l) == r`
and `t + (b - t) == b`. -/
def FloatRect.unionIsExact (a b : FloatRect) : Bool :=
  F32.eqv (F32.add (F32.min a.x b.x) (F32.sub (F32.max a.maxX b.maxX) (F32.min a.x b.x)))
      (F32.max a.maxX b.maxX)
    && F32.eqv
      (F32.add (F32.min a.y b.y) (F32.sub (F32.max a.maxY b.maxY) (F32.min a.y b.y)))
      (F32.max a.maxY b.maxY)

/-- Whether the rectangle has its right edge beyond its left edge and its bottom
edge beyond its top edge: `x() < maxX() && y() < maxY()`.  (A float rectangle
that is not empty can fail this, when its size is lost in the rounding of
`x() + width()`.) -/
def FloatRect.isProper (r : FloatRect) : Bool := F32.lt r.x r.maxX && F32.lt r.y r.maxY

/-- Whether the float arithmetic on edges is exact in every call of a run of
`didDraw` calls, one for each rectangle of the list: the image of the rectangle
(mapped to the content box and clipped to it) is empty, or it is proper
(`isProper`) and, when `didDraw` unites it into a dirty rectangle that is not
empty and does not contain it, the edges of their bounding box satisfy
`unionIsExact`. -/
def HTMLCanvasElement.didDrawAllExact (cfg : Config) (host : Host) (ro : RenderBox) :
    List FloatRect → HTMLCanvasElement → Bool
  | [], _ => true
  | rect :: rects, c =>
    ((c.mappedRect ro rect).isEmpty
        || ((c.mappedRect ro rect).isProper
          && (c.m_dirtyRect.isEmpty || c.m_dirtyRect.contains (c.mappedRect ro rect)
            || c.m_dirtyRect.unionIsExact (c.mappedRect ro rect))))
      && didDrawAllExact cfg host ro rects (c.didDraw cfg host rect)

/-! ## Concrete inputs -/

/-- The Android build of the file: WebGL, Skia, compositing layers. -/
def androidConfig : Config :=
  { enableWebGL := true, chromiumOrGtk := false, useSkia := true, platformAndroid := true,
    layerFor2D := true, readsBackImageData := true, dashboardSupport := false }

/-- Collaborators that grant everything: WebGL is enabled and its context gets
created, image buffers get allocated, the element has a render box of 300 by 150
without a layer. -/
def grantingHost : Host :=
  { settings := some ⟨true, true, false⟩
    webGLCreates := true
    renderBox := some ⟨⟨0, 0, 300, 150⟩, false⟩
    imageBufferCreates := true
    imageDataAvailable := true
    isSupportedImageMIMETypeForEncoding := fun m => decide (m = "image/png")
    imageDataToDataURL := fun _ _ => "data:image/png;base64,"
    bufferToDataURL := fun _ _ => "data:image/png;base64,"
    paintingDisabled := false
    paintsIntoCanvasBuffer := true
    drawsUsingRecording := false
    drawsUsingCopy := false
    canExecuteScripts := true }

/-- A freshly constructed canvas of the Android build. -/
def freshCanvas : HTMLCanvasElement := HTMLCanvasElement.create androidConfig ⟨1, 0⟩

/-- The fresh canvas after a successful `getContext("2d")`. -/
def canvas2D : HTMLCanvasElement :=
  (freshCanvas.getContext androidConfig grantingHost "2d").2

/-- The fresh canvas after a successful `getContext("webkit-3d")`. -/
def canvas3D : HTMLCanvasElement :=
  (freshCanvas.getContext androidConfig grantingHost "webkit-3d").2

/-- Some calls made on a canvas after its context was created. -/
def laterCalls : List Op :=
  [Op.reset grantingHost, Op.buffer grantingHost,
    Op.getContext grantingHost "experimental-webgl"]

/-- The canvas `canvas2D` after `laterCalls`. -/
def canvas2DLater : HTMLCanvasElement :=
  (((canvas2D.reset androidConfig grantingHost).buffer androidConfig grantingHost).2.getContext
    androidConfig grantingHost "experimental-webgl").2

/-- A fresh canvas given the size 10768 by 24929; its scale factor is 1. -/
def canvasLarge : HTMLCanvasElement := freshCanvas.setSurfaceSize ⟨10768, 24929⟩

/-- A fresh canvas given the size 20000 by 20000. -/
def canvasHuge : HTMLCanvasElement := freshCanvas.setSurfaceSize ⟨20000, 20000⟩

/-- Calls that do not resize the canvas. -/
def drawingCalls : List Op :=
  [Op.getContext grantingHost "2d", Op.paint grantingHost ⟨0, 0, 300, 150⟩,
    Op.copiedImage grantingHost, Op.toDataURL grantingHost none none]

/-- The canvas `canvasHuge` after a first `buffer()` and then `drawingCalls`. -/
def canvasHugeLater : HTMLCanvasElement :=
  ((((((canvasHuge.buffer androidConfig grantingHost).2.getContext androidConfig grantingHost
    "2d").2.paint androidConfig grantingHost ⟨0, 0, 300, 150⟩).copiedImage androidConfig
      grantingHost).2).toDataURL androidConfig grantingHost none none).2

/-- A canvas with a 2D context and a copied snapshot whose origin is no longer
clean. -/
def canvasTainted : HTMLCanvasElement :=
  { (canvas2D.copiedImage androidConfig grantingHost).2 with m_originClean := false }

/-- The render box of `grantingHost`: a content box of 300 by 150 at the origin. -/
def box300 : RenderBox := ⟨⟨0, 0, 300, 150⟩, false⟩

/-- A square of side 10 at the origin of the canvas. -/
def squareA : FloatRect := ⟨⟨0, 0⟩, ⟨0, 0⟩, ⟨10, 0⟩, ⟨10, 0⟩⟩

/-- A square of side 10 at (20, 30). -/
def squareB : FloatRect := ⟨⟨20, 0⟩, ⟨30, 0⟩, ⟨10, 0⟩, ⟨10, 0⟩⟩

/-- A fresh canvas whose `width` attribute is "-1" and whose `height`
attribute is "77". -/
def canvasNegativeWidth : HTMLCanvasElement :=
  { freshCanvas with widthAttr := ⟨-1, true⟩, heightAttr := ⟨77, true⟩ }

/-- A canvas with a 2D context that ignores resets, whose `width` attribute has
been set to "50". -/
def canvasIgnoring : HTMLCanvasElement :=
  { canvas2D with m_ignoreReset := true, widthAttr := ⟨50, true⟩ }

/-- The fresh canvas after `makePresentationCopy()`. -/
def canvasPresented : HTMLCanvasElement :=
  match freshCanvas.makePresentationCopy androidConfig grantingHost with
  | some c => c
  | none => freshCanvas

/-- The canvas `canvasPresented` after `didDraw` of the square at the origin. -/
def canvasPresentedDrawn : HTMLCanvasElement :=
  canvasPresented.didDraw androidConfig grantingHost squareA

/-- The canvas with a 2D context after two observers, 7 and 9, were added. -/
def canvasObserved : HTMLCanvasElement :=
  (canvas2D.addObserver 7).addObserver 9

/-- The fresh canvas after `didDraw` of the square at the origin. -/
def canvasDrawn : HTMLCanvasElement := freshCanvas.didDraw androidConfig grantingHost squareA

/-- The canvas `canvasPresented` given its size of 300 by 150 anew. -/
def canvasPresentedResized : HTMLCanvasElement := canvasPresented.setSurfaceSize ⟨300, 150⟩

/-- The fresh canvas given the size 0 by 150. -/
def canvasEmpty : HTMLCanvasElement := freshCanvas.setSurfaceSize ⟨0, 150⟩

/-- The fresh canvas after `buffer()`. -/
def canvasBuffered : HTMLCanvasElement := (freshCanvas.buffer androidConfig grantingHost).2

/-- Collaborators like `grantingHost`, except that no WebGL context gets created. -/
def refusingHost : Host := { grantingHost with webGLCreates := false }

/-- The float -3000000000, which is `-11718750 * 2 ^ 8`. -/
def minusThreeBillion : F32 := ⟨-11718750, 8⟩

/-- The float 3000000000. -/
def threeBillion : F32 := ⟨11718750, 8⟩

/-- A square of side 10 at (100, 100). -/
def squareC : FloatRect := ⟨⟨100, 0⟩, ⟨100, 0⟩, ⟨10, 0⟩, ⟨10, 0⟩⟩

/-- The canvas with a 3D context whose `width` attribute has been set to "640". -/
def canvas3DWide : HTMLCanvasElement := { canvas3D with widthAttr := ⟨640, true⟩ }

/-- Collaborators like `grantingHost`, except that the image buffer draws using
copy. -/
def copyingHost : Host := { grantingHost with drawsUsingCopy := true }

/-- Collaborators like `grantingHost`, except that the image buffer draws using
recording. -/
def recordingHost : Host := { grantingHost with drawsUsingRecording := true }

/-- A render box with a content box of 512 by 512 at the origin. -/
def box512 : RenderBox := ⟨⟨0, 0, 512, 512⟩, false⟩

/-- Collaborators like `grantingHost`, with the render box `box512`. -/
def host512 : Host := { grantingHost with renderBox := some box512 }

/-- The rectangle `(1 + 2^-18, 200, 1, 184 + 2^-15)`. -/
def stripA : FloatRect := ⟨⟨262145, -18⟩, ⟨200, 0⟩, ⟨1, 0⟩, ⟨6029313, -15⟩⟩

/-- The rectangle `(50, 128 + 2^-16, 50 + 2^-17, 10)`. -/
def stripB : FloatRect := ⟨⟨50, 0⟩, ⟨8388609, -16⟩, ⟨6553601, -17⟩, ⟨10, 0⟩⟩

/-- A fresh canvas given the size 512 by 512, after `didDraw` of `stripA`. -/
def canvas512Drawn : HTMLCanvasElement :=
  (freshCanvas.setSurfaceSize ⟨512, 512⟩).didDraw androidConfig host512 stripA

/-- The rectangle `(1 + 2^-18, 0, 1, 1)`. -/
def sliverA : FloatRect := ⟨⟨262145, -18⟩, ⟨0, 0⟩, ⟨1, 0⟩, ⟨1, 0⟩⟩

/-- The rectangle `(50, 0, 50 + 2^-17, 1)`. -/
def sliverB : FloatRect := ⟨⟨50, 0⟩, ⟨0, 0⟩, ⟨6553601, -17⟩, ⟨1, 0⟩⟩

/-- A render box with a content box of 600 by 300 at (10, 20): twice the size of
the default canvas. -/
def box600 : RenderBox := ⟨⟨10, 20, 600, 300⟩, false⟩

/-- Collaborators like `grantingHost`, with the render box `box600`. -/
def scalingHost : Host := { grantingHost with renderBox := some box600 }

/-- A square of side 20 at (290, 140), half of it outside a canvas of 300 by
150. -/
def squareD : FloatRect := ⟨⟨290, 0⟩, ⟨140, 0⟩, ⟨20, 0⟩, ⟨20, 0⟩⟩

/-! ## Steps that only make calls -/

namespace HTMLCanvasElement

/-- The members of the element without the record of the calls it made. -/
def members (c : HTMLCanvasElement) : HTMLCanvasElement := { c with trace := [] }

theorem m_context_of_members {c d : HTMLCanvasElement} (h : c.members = d.members) :
    c.m_context = d.m_context :=
  show c.members.m_context = d.members.m_context from congrArg HTMLCanvasElement.m_context h

@[simp] theorem emit_members (c : HTMLCanvasElement) (e : Event) :
    (c.emit e).members = c.members := rfl

@[simp] theorem notifyChanged_members (c : HTMLCanvasElement) (rect : FloatRect) :
    (c.notifyChanged rect).members = c.members := rfl

@[simp] theorem notifyResized_members (c : HTMLCanvasElement) :
    c.notifyResized.members = c.members := rfl

@[simp] theorem resetReshape_members (cfg : Config) (oldSize : IntSize)
    (c : HTMLCanvasElement) : (c.resetReshape cfg oldSize).members = c.members := by
  unfold resetReshape
  split
  · split <;> rfl
  · rfl

@[simp] theorem resetContext2D_members (c : HTMLCanvasElement) :
    c.resetContext2D.members = c.members := by
  unfold resetContext2D
  split
  · split <;> rfl
  · rfl

@[simp] theorem resetRenderer_members (host : Host) (oldSize : IntSize) (had : Bool)
    (c : HTMLCanvasElement) : (c.resetRenderer host oldSize had).members = c.members := by
  unfold resetRenderer
  split
  · split
    · split <;> split <;> rfl
    · rfl
  · rfl

/-- A `reset` that is not ignored leaves the members as `setSurfaceSize` does. -/
theorem reset_members (cfg : Config) (host : Host) (c : HTMLCanvasElement)
    (h : c.m_ignoreReset = false) :
    (c.reset cfg host).members =
      (c.setSurfaceSize ⟨attrLength c.widthAttr DefaultWidth,
        attrLength c.heightAttr DefaultHeight⟩).members := by
  unfold reset
  simp [h]

end HTMLCanvasElement

/-! ## The context slot is written by `getContext` only -/

namespace HTMLCanvasElement

@[simp] theorem emit_m_context (c : HTMLCanvasElement) (e : Event) :
    (c.emit e).m_context = c.m_context := rfl

@[simp] theorem notifyChanged_m_context (c : HTMLCanvasElement) (rect : FloatRect) :
    (c.notifyChanged rect).m_context = c.m_context := rfl

@[simp] theorem notifyResized_m_context (c : HTMLCanvasElement) :
    c.notifyResized.m_context = c.m_context := rfl

@[simp] theorem setSurfaceSize_m_context (c : HTMLCanvasElement) (size : IntSize) :
    (c.setSurfaceSize size).m_context = c.m_context := rfl

theorem didDraw_m_context (cfg : Config) (host : Host) (rect : FloatRect)
    (c : HTMLCanvasElement) : (c.didDraw cfg host rect).m_context = c.m_context := by
  unfold didDraw
  cases host.renderBox with
  | none => rfl
  | some ro =>
    simp only
    split
    · rfl
    · split <;> rfl

theorem reset_m_context (cfg : Config) (host : Host) (c : HTMLCanvasElement) :
    (c.reset cfg host).m_context = c.m_context := by
  cases h : c.m_ignoreReset
  · exact (m_context_of_members (reset_members cfg host c h)).trans rfl
  · unfold reset
    simp [h]

theorem createImageBuffer_m_context (cfg : Config) (host : Host) (c : HTMLCanvasElement) :
    (c.createImageBuffer cfg host).m_context = c.m_context := by
  unfold createImageBuffer
  simp only
  split
  · rfl
  · split <;> rfl

theorem buffer_m_context (cfg : Config) (host : Host) (c : HTMLCanvasElement) :
    (c.buffer cfg host).2.m_context = c.m_context := by
  unfold buffer
  simp only
  split
  · exact createImageBuffer_m_context cfg host c
  · rfl

theorem buffer_fst (cfg : Config) (host : Host) (c : HTMLCanvasElement) :
    (c.buffer cfg host).1 = (c.buffer cfg host).2.m_imageBuffer := rfl

theorem copyImage_m_context (buf : ImageBuffer) (c : HTMLCanvasElement) :
    (copyImage buf c).2.m_context = c.m_context := rfl

theorem copiedImage_m_context (cfg : Config) (host : Host) (c : HTMLCanvasElement) :
    (c.copiedImage cfg host).2.m_context = c.m_context := by
  unfold copiedImage
  cases c.m_copiedImage with
  | some img => rfl
  | none =>
    simp only
    have h1 := buffer_m_context cfg host c
    rcases hb : c.buffer cfg host with ⟨b, c1⟩
    rw [hb] at h1
    cases b with
    | none => exact h1
    | some b1 =>
      simp only
      have h2 := buffer_m_context cfg host
        (if c1.m_context.isSome then c1.emit Event.paintRenderingResultsToCanvas else c1)
      rcases hb2 : (if c1.m_context.isSome then c1.emit Event.paintRenderingResultsToCanvas
        else c1).buffer cfg host with ⟨b2, c3⟩
      rw [hb2] at h2
      have h3 : (if c1.m_context.isSome then c1.emit Event.paintRenderingResultsToCanvas
        else c1).m_context = c1.m_context := by split <;> rfl
      cases b2 with
      | none => exact h2.trans (h3.trans h1)
      | some b3 => exact h2.trans (h3.trans h1)

theorem makeRenderingResultsAvailable_m_context (c : HTMLCanvasElement) :
    c.makeRenderingResultsAvailable.m_context = c.m_context := by
  unfold makeRenderingResultsAvailable
  split <;> rfl

theorem getImageData_m_context (cfg : Config) (host : Host) (c : HTMLCanvasElement) :
    (c.getImageData cfg host).2.m_context = c.m_context := by
  unfold getImageData
  split
  · rfl
  · split
    · rfl
    · split <;> rfl

theorem paintEpilogue_m_context (cfg : Config) (host : Host) (c : HTMLCanvasElement) :
    (c.paintEpilogue cfg host).m_context = c.m_context := by
  unfold paintEpilogue
  have h : (match c.m_context with
      | some ctx =>
        if cfg.enableWebGL && ctx.is3d then c.emit Event.markLayerComposited else c
      | none => c).m_context = c.m_context := by
    split
    · split <;> rfl
    · rfl
  simp only
  split
  · split
    · split
      · exact h
      · exact h
    · exact h
  · exact h

theorem paintBuffer_m_context (cfg : Config) (host : Host) (r : IntRect)
    (c : HTMLCanvasElement) : (c.paintBuffer cfg host r).m_context = c.m_context := by
  unfold paintBuffer
  split
  · have h1 := buffer_m_context cfg host c
    rcases hb : c.buffer cfg host with ⟨b, c1⟩
    rw [hb] at h1
    cases b with
    | none => simpa [paintEpilogue_m_context] using h1
    | some b1 =>
      simp only
      split
      · exact h1
      · split
        · simpa [paintEpilogue_m_context] using h1
        · split
          · have h2 := copiedImage_m_context cfg host c1
            rcases hc : c1.copiedImage cfg host with ⟨img, c2⟩
            rw [hc] at h2
            simp only [paintEpilogue_m_context, emit_m_context]
            exact h2.trans h1
          · simpa [paintEpilogue_m_context] using h1
  · exact paintEpilogue_m_context cfg host c

theorem paint_m_context (cfg : Config) (host : Host) (r : IntRect) (c : HTMLCanvasElement) :
    (c.paint cfg host r).m_context = c.m_context := by
  unfold paint
  simp only
  split
  · rfl
  · split
    · split
      · rfl
      · rw [paintBuffer_m_context]; rfl
    · rw [paintBuffer_m_context]

theorem makePresentationCopy_m_context (cfg : Config) (host : Host)
    (c d : HTMLCanvasElement) (h : c.makePresentationCopy cfg host = some d) :
    d.m_context = c.m_context := by
  unfold makePresentationCopy at h
  cases hp : c.m_presentedImage with
  | some img =>
    rw [hp] at h
    simp only [Option.some.injEq] at h
    rw [← h]
  | none =>
    rw [hp] at h
    simp only at h
    have h1 := buffer_m_context cfg host c
    rcases hb : c.buffer cfg host with ⟨b, c1⟩
    rw [hb] at h h1
    cases b with
    | none => simp at h
    | some b1 =>
      simp only [Option.some.injEq] at h
      rw [← h]
      exact h1

theorem toDataURL_m_context (cfg : Config) (host : Host) (mimeType : Option String)
    (quality : Option ℚ) (c : HTMLCanvasElement) :
    (c.toDataURL cfg host mimeType quality).2.m_context = c.m_context := by
  unfold toDataURL
  split
  · rfl
  · split
    · rfl
    · have h1 := buffer_m_context cfg host c
      rcases hb : c.buffer cfg host with ⟨b, c1⟩
      rw [hb] at h1
      cases b with
      | none => exact h1
      | some b1 =>
        simp only
        have h2 : (if cfg.readsBackImageData then c1.getImageData cfg host
            else (false, c1)).2.m_context = c1.m_context := by
          split
          · exact getImageData_m_context cfg host c1
          · rfl
        rcases hg : (if cfg.readsBackImageData then c1.getImageData cfg host
            else (false, c1)) with ⟨imageData, c2⟩
        rw [hg] at h2
        simp only
        split
        · exact h2.trans h1
        · have h3 := buffer_m_context cfg host c2.makeRenderingResultsAvailable
          rcases hb3 : c2.makeRenderingResultsAvailable.buffer cfg host with ⟨b3, c4⟩
          rw [hb3] at h3
          have h4 := makeRenderingResultsAvailable_m_context c2
          cases b3 with
          | none => exact h3.trans (h4.trans (h2.trans h1))
          | some b4 => exact h3.trans (h4.trans (h2.trans h1))

/-- A call of `getContext` on a canvas that holds a context changes nothing. -/
theorem getContext_bound (cfg : Config) (host : Host) (type : String)
    (c : HTMLCanvasElement) (ctx : CanvasRenderingContext) (h : c.m_context = some ctx) :
    (c.getContext cfg host type).2 = c := by
  unfold getContext
  rw [h]
  simp only
  split
  · split <;> rfl
  · split
    · split
      · rfl
      · split
        · split
          · split <;> rfl
          · rfl
        · rfl
    · rfl

/-- No call takes a context out of the slot or puts another one in. -/
theorem apply_m_context (cfg : Config) (op : Op) (c d : HTMLCanvasElement)
    (ctx : CanvasRenderingContext) (h : c.m_context = some ctx)
    (hd : op.apply cfg c = some d) : d.m_context = some ctx := by
  cases op <;> simp only [Op.apply, Option.some.injEq] at hd
  case getContext host type => rw [← hd, getContext_bound cfg host type c ctx h, h]
  case didDraw host rect => rw [← hd, didDraw_m_context, h]
  case reset host => rw [← hd, reset_m_context, h]
  case setSurfaceSize size => rw [← hd]; exact h
  case paint host r => rw [← hd, paint_m_context, h]
  case buffer host => rw [← hd, buffer_m_context, h]
  case drawingContext host => rw [← hd]; exact (buffer_m_context cfg host c).trans h
  case copiedImage host => rw [← hd, copiedImage_m_context, h]
  case clearCopiedImage => rw [← hd]; exact h
  case makePresentationCopy host => rw [makePresentationCopy_m_context cfg host c d hd, h]
  case clearPresentationCopy => rw [← hd]; exact h
  case makeRenderingResultsAvailable =>
    rw [← hd, makeRenderingResultsAvailable_m_context, h]
  case toDataURL host mimeType quality => rw [← hd, toDataURL_m_context, h]
  case addObserver observer => rw [← hd]; exact h
  case removeObserver observer => rw [← hd]; exact h
  case createRenderer host => rw [← hd]; exact h
  case parseMappedAttribute host isWidth value =>
    rw [← hd]
    unfold parseMappedAttribute
    rw [reset_m_context]
    split <;> exact h

/-- Nor does a sequence of calls. -/
theorem run_m_context (cfg : Config) (ops : List Op) (c d : HTMLCanvasElement)
    (ctx : CanvasRenderingContext) (h : c.m_context = some ctx)
    (hd : run cfg ops c = some d) : d.m_context = some ctx := by
  induction ops generalizing c with
  | nil =>
    simp only [run, Option.some.injEq] at hd
    rw [← hd]; exact h
  | cons op ops ih =>
    simp only [run] at hd
    cases ha : op.apply cfg c with
    | none => rw [ha] at hd; simp at hd
    | some c1 =>
      rw [ha] at hd
      exact ih c1 (apply_m_context cfg op c c1 ctx h ha) hd

end HTMLCanvasElement

/-! ## The context slot (C1, C2) -/

/-- A context that `getContext("2d")` returns is a 2D context and sits in the slot. -/
theorem HTMLCanvasElement.getContext_2d_some (cfg : Config) (host : Host)
    (c : HTMLCanvasElement) (ctx : CanvasRenderingContext)
    (h : (c.getContext cfg host "2d").1 = some ctx) :
    (c.getContext cfg host "2d").2.m_context = some ctx ∧ ctx.is2d = true := by
  unfold HTMLCanvasElement.getContext at h ⊢
  simp only [if_true] at h ⊢
  cases hc : c.m_context with
  | none =>
    rw [hc] at h
    simp only [Option.some.injEq] at h
    simp only
    subst h
    constructor
    · split <;> rfl
    · rfl
  | some ctx0 =>
    rw [hc] at h
    simp only at h ⊢
    cases h2 : ctx0.is2d with
    | false => rw [h2] at h; simp at h
    | true =>
      rw [h2] at h
      simp only [Bool.not_true, Bool.false_eq_true, if_false, Option.some.injEq] at h
      subst h
      simp [hc, h2]

/-- On a canvas holding a 2D context the WebGL names give no context and "2d"
gives the held one, the element staying as it is. -/
theorem HTMLCanvasElement.getContext_of_2d (cfg : Config) (host : Host)
    (c : HTMLCanvasElement) (ctx : CanvasRenderingContext)
    (h : c.m_context = some ctx) (h2 : ctx.is2d = true) :
    (c.getContext cfg host "webkit-3d").1 = none
      ∧ (c.getContext cfg host "experimental-webgl").1 = none
      ∧ c.getContext cfg host "2d" = (some ctx, c) := by
  have h3 : ctx.is3d = false := by
    unfold CanvasRenderingContext.is2d at h2
    unfold CanvasRenderingContext.is3d
    simp only [decide_eq_true_eq] at h2
    simp [h2]
  refine ⟨?_, ?_, ?_⟩
  · unfold HTMLCanvasElement.getContext
    rw [h]
    simp only [h3]
    split
    · rename_i hs; simp at hs
    · split
      · split
        · rfl
        · split
          · split <;> rfl
          · rfl
      · rfl
  · unfold HTMLCanvasElement.getContext
    rw [h]
    simp only [h3]
    split
    · rename_i hs; simp at hs
    · split
      · split
        · rfl
        · split
          · split <;> rfl
          · rfl
      · rfl
  · unfold HTMLCanvasElement.getContext
    rw [h]
    simp [h2]

/-- C1: once `getContext("2d")` has returned a context `ctx`, then after any
further sequence of calls on the canvas `getContext("webkit-3d")` and
`getContext("experimental-webgl")` return no context, and `getContext("2d")`
returns the same `ctx` and leaves the element exactly as it was, so that no
context is constructed. -/
theorem C1_exclusive_after_2d (cfg : Config) (host0 host : Host) (c0 d : HTMLCanvasElement)
    (ctx : CanvasRenderingContext) (ops : List Op)
    (h : (c0.getContext cfg host0 "2d").1 = some ctx)
    (hd : run cfg ops (c0.getContext cfg host0 "2d").2 = some d) :
    (d.getContext cfg host "webkit-3d").1 = none
      ∧ (d.getContext cfg host "experimental-webgl").1 = none
      ∧ d.getContext cfg host "2d" = (some ctx, d) := by
  have h1 := HTMLCanvasElement.getContext_2d_some cfg host0 c0 ctx h
  have h2 := HTMLCanvasElement.run_m_context cfg ops _ d ctx h1.1 hd
  exact HTMLCanvasElement.getContext_of_2d cfg host d ctx h2 h1.2

/-- C1 at a fresh canvas: "2d" is requested, then the canvas is reset, its
buffer is created and WebGL is asked for in vain. -/
theorem C1_exclusive_after_2d_witness :
    (freshCanvas.getContext androidConfig grantingHost "2d").1 = some ⟨0, ContextKind.canvas2D⟩
      ∧ run androidConfig laterCalls (freshCanvas.getContext androidConfig grantingHost "2d").2
        = some canvas2DLater
      ∧ (canvas2DLater.getContext androidConfig grantingHost "webkit-3d").1 = none
      ∧ (canvas2DLater.getContext androidConfig grantingHost "experimental-webgl").1 = none
      ∧ canvas2DLater.getContext androidConfig grantingHost "2d"
        = (some ⟨0, ContextKind.canvas2D⟩, canvas2DLater) :=
  ⟨rfl, rfl,
    C1_exclusive_after_2d androidConfig grantingHost grantingHost freshCanvas canvas2DLater
      ⟨0, ContextKind.canvas2D⟩ laterCalls rfl rfl⟩

/-- C2: on a canvas whose slot holds a context, of either kind, `getContext`
with any type string leaves the slot holding that very context; the call
changes nothing at all in the element. -/
theorem C2_bound_is_terminal (cfg : Config) (host : Host) (type : String)
    (c : HTMLCanvasElement) (ctx : CanvasRenderingContext) (h : c.m_context = some ctx) :
    (c.getContext cfg host type).2.m_context = some ctx
      ∧ (c.getContext cfg host type).2 = c := by
  have h1 := HTMLCanvasElement.getContext_bound cfg host type c ctx h
  exact ⟨by rw [h1]; exact h, h1⟩

/-- C2 at a canvas holding a WebGL context, asked for "2d". -/
theorem C2_bound_is_terminal_witness :
    canvas3D.m_context = some ⟨0, ContextKind.webGL⟩
      ∧ (canvas3D.getContext androidConfig grantingHost "2d").2.m_context
        = some ⟨0, ContextKind.webGL⟩
      ∧ (canvas3D.getContext androidConfig grantingHost "2d").2 = canvas3D :=
  ⟨rfl, C2_bound_is_terminal androidConfig grantingHost "2d" canvas3D
    ⟨0, ContextKind.webGL⟩ rfl⟩

/-! ## Rounding to single precision -/

theorem bitLengthAux_zero (fuel : Nat) : bitLengthAux fuel 0 = 0 := by
  cases fuel <;> simp [bitLengthAux]

theorem bitLengthAux_bounds : ∀ (fuel n : Nat), n ≤ fuel → n ≠ 0 →
    2 ^ (bitLengthAux fuel n - 1) ≤ n ∧ n < 2 ^ bitLengthAux fuel n := by
  intro fuel
  induction fuel with
  | zero => intro n h h0; omega
  | succ fuel ih =>
    intro n h h0
    simp only [bitLengthAux, h0, if_false, Nat.add_sub_cancel]
    by_cases h2 : n / 2 = 0
    · rw [h2, bitLengthAux_zero]
      have h1 : n = 1 := by omega
      subst h1
      simp
    · obtain ⟨ih1, ih2⟩ := ih (n / 2) (by omega) h2
      have hpos : 1 ≤ bitLengthAux fuel (n / 2) := by
        by_contra hc
        have h3 : bitLengthAux fuel (n / 2) = 0 := by omega
        rw [h3] at ih2
        simp at ih2
        exact h2 ih2
      have e : 2 ^ bitLengthAux fuel (n / 2)
          = 2 * 2 ^ (bitLengthAux fuel (n / 2) - 1) := by
        conv_lhs => rw [← Nat.sub_add_cancel hpos]
        rw [pow_succ, Nat.mul_comm]
      constructor
      · rw [e]; omega
      · rw [pow_succ]; omega

/-- A positive number has `bitLength n` binary digits. -/
theorem bitLength_bounds (n : Nat) (h0 : n ≠ 0) :
    2 ^ (bitLength n - 1) ≤ n ∧ n < 2 ^ bitLength n :=
  bitLengthAux_bounds n n le_rfl h0

theorem roundShift_ge (n k : Nat) : n / 2 ^ k ≤ roundShift n k := by
  unfold roundShift
  simp only
  split_ifs <;> omega

theorem roundShift_le (n k : Nat) : roundShift n k ≤ n / 2 ^ k + 1 := by
  unfold roundShift
  simp only
  split_ifs <;> omega

/-- The product of two positive whole floats is found greater than
`MaxCanvasArea` exactly when the exact product exceeds `32768 * 8192 + 16`:
the products up to there round to `32768 * 8192` or less. -/
theorem round_gt_MaxCanvasArea (n : Nat) (hn : 0 < n) :
    F32.gt (F32.round ⟨(n : Int), 0⟩) MaxCanvasArea = decide (32768 * 8192 + 16 < n) := by
  have hb := bitLength_bounds n (by omega)
  unfold F32.gt F32.lt F32.round MaxCanvasArea
  simp only [Int.natAbs_ofNat]
  by_cases hL : bitLength n ≤ 24
  · have h1 : 2 ^ bitLength n ≤ 2 ^ 24 := Nat.pow_le_pow_right (by norm_num) hL
    have h2 : n < 16777216 := by
      have := hb.2
      norm_num at h1
      omega
    simp only [hL, if_true, min_self, sub_self, Int.toNat_zero, pow_zero, mul_one]
    rw [decide_eq_decide]
    constructor
    · intro h; omega
    · intro h; omega
  · have hk : 24 < bitLength n := by omega
    simp only [hL, if_false]
    have hs : Int.sign (n : Int) = 1 := Int.sign_eq_one_of_pos (by exact_mod_cast hn)
    have hmin : min (0 : Int) ((bitLength n - 24 : Nat) : Int) = 0 := by
      apply min_eq_left
      positivity
    simp only [hs, zero_add, hmin, sub_zero, Int.toNat_zero, pow_zero, mul_one, one_mul,
      Int.toNat_ofNat]
    generalize hkk : bitLength n - 24 = k
    have hLk : bitLength n = k + 24 := by omega
    rw [hLk] at hb
    obtain ⟨hb1, hb2⟩ := hb
    have hge := roundShift_ge n k
    have hle := roundShift_le n k
    have hkpos : 0 < 2 ^ k := Nat.pow_pos (by norm_num)
    have hcast : ((32768 * 8192 : Int) < (roundShift n k : Int) * 2 ^ k)
        ↔ (32768 * 8192 < roundShift n k * 2 ^ k) := by
      constructor
      · intro h; exact_mod_cast h
      · intro h; exact_mod_cast h
    rw [decide_eq_decide, hcast]
    rcases Nat.lt_or_ge k 5 with h5 | h5
    · -- fewer than 29 digits: the number and its rounding stay below the limit
      have e1 : 2 ^ (k + 24) = 2 ^ k * 16777216 := by rw [pow_add]; norm_num
      have hq : n / 2 ^ k < 16777216 := by
        rw [Nat.div_lt_iff_lt_mul hkpos, Nat.mul_comm]
        omega
      have hk16 : 2 ^ k ≤ 2 ^ 4 := Nat.pow_le_pow_right (by norm_num) (by omega)
      have h3 : roundShift n k * 2 ^ k ≤ 16777216 * 2 ^ k :=
        Nat.mul_le_mul_right _ (by omega)
      norm_num at hk16
      constructor
      · intro h; omega
      · intro h; omega
    · rcases Nat.eq_or_lt_of_le h5 with h6 | h6
      · -- 29 digits: the last five are rounded away
        subst h6
        norm_num at hb1 hb2 ⊢
        unfold roundShift
        simp only
        norm_num
        split_ifs <;> constructor <;> intro h <;> omega
      · -- 30 digits or more
        have e1 : 2 ^ (k + 24 - 1) = 2 ^ k * 8388608 := by
          have : k + 24 - 1 = k + 23 := by omega
          rw [this, pow_add]; norm_num
        rw [e1] at hb1
        have hq : 8388608 ≤ n / 2 ^ k := by
          rw [Nat.le_div_iff_mul_le hkpos, Nat.mul_comm]
          exact hb1
        have hk64 : 2 ^ 6 ≤ 2 ^ k := Nat.pow_le_pow_right (by norm_num) (by omega)
        norm_num at hk64
        have h3 : 8388608 * 2 ^ k ≤ roundShift n k * 2 ^ k :=
          Nat.mul_le_mul_right _ (by omega)
        constructor
        · intro h; omega
        · intro h; omega

theorem F32.lt_whole (a b : Int) : F32.lt ⟨a, 0⟩ ⟨b, 0⟩ = decide (a < b) := by
  simp [F32.lt]

theorem F32.toInt_whole (a : Int) : F32.toInt ⟨a, 0⟩ = a := by
  simp [F32.toInt, F32.floor, F32.ceil]

theorem F32.mul_whole (a b : Int) : F32.mul ⟨a, 0⟩ ⟨b, 0⟩ = F32.round ⟨a * b, 0⟩ := by
  simp [F32.mul]

/-- What `convertToValidDeviceSize` computes, in terms of the two ceilings. -/
theorem convertToValidDeviceSize_eq (cfg : Config) (width height : F32) :
    convertToValidDeviceSize cfg width height =
      if width.ceil < 1 ∨ height.ceil < 1 ∨ 32768 * 8192 + 16 < width.ceil * height.ceil
          ∨ (cfg.useSkia = true ∧ (32767 < width.ceil ∨ 32767 < height.ceil)) then
        IntSize.zero
      else ⟨width.ceil, height.ceil⟩ := by
  unfold convertToValidDeviceSize
  simp only [F32.ceilf, F32.lt_whole, F32.toInt_whole, F32.mul_whole, MaxSkiaDim, F32.gt]
  generalize width.ceil = a
  generalize height.ceil = b
  by_cases ha : a < 1
  · simp [ha]
  · by_cases hb : b < 1
    · simp [hb]
    · have hab : 0 < a * b := by
        apply mul_pos <;> omega
      obtain ⟨n, hn⟩ := Int.eq_ofNat_of_zero_le (le_of_lt hab)
      have hn0 : 0 < n := by
        rw [hn] at hab
        exact_mod_cast hab
      have key := round_gt_MaxCanvasArea n hn0
      unfold F32.gt at key
      rw [hn, key]
      have e : (32768 * 8192 + 16 < n) ↔ ((32768 * 8192 + 16 : Int) < (n : Int)) := by
        constructor
        · intro h; exact_mod_cast h
        · intro h; exact_mod_cast h
      by_cases hc : (32768 * 8192 + 16 : Int) < (n : Int)
      · have hc2 := e.mpr hc
        simp [ha, hb, hc, hc2]
      · have hc2 : ¬ (32768 * 8192 + 16 < n) := fun h => hc (e.mp h)
        simp only [ha, hb, hc, hc2, decide_False, Bool.or_false, Bool.false_eq_true, if_false,
          false_or, Bool.and_eq_true, Bool.or_eq_true, decide_eq_true_eq]

/-! ## The size `reset` gives the canvas (C3) -/

theorem HTMLCanvasElement.m_size_of_members {c d : HTMLCanvasElement}
    (h : c.members = d.members) : c.m_size = d.m_size :=
  show c.members.m_size = d.members.m_size from congrArg HTMLCanvasElement.m_size h

/-- C3, refuted as stated: with `width="-1"` and `height="77"`, one dimension
being negative, a `reset` that is not ignored leaves the size (300, 77), not
(300, 150). -/
theorem C3_counterexample :
    canvasNegativeWidth.m_ignoreReset = false
      ∧ canvasNegativeWidth.widthAttr.value < 0
      ∧ (canvasNegativeWidth.reset androidConfig grantingHost).m_size = ⟨300, 77⟩
      ∧ (canvasNegativeWidth.reset androidConfig grantingHost).m_size ≠ ⟨300, 150⟩ := by
  refine ⟨rfl, by decide, ?_, ?_⟩
  · rw [HTMLCanvasElement.m_size_of_members
      (HTMLCanvasElement.reset_members androidConfig grantingHost canvasNegativeWidth rfl)]
    decide
  · rw [HTMLCanvasElement.m_size_of_members
      (HTMLCanvasElement.reset_members androidConfig grantingHost canvasNegativeWidth rfl)]
    decide

/-- C3 (amended): a `reset` that is not ignored defaults each dimension on its
own.  The width is 300 when the `width` attribute does not parse or is negative
and the parsed value otherwise; the height is 150 when the `height` attribute
does not parse or is negative and the parsed value otherwise.  The size is
(300, 150) when both attributes are invalid. -/
theorem C3_reset_defaults_each_dimension (cfg : Config) (host : Host) (c : HTMLCanvasElement)
    (h : c.m_ignoreReset = false) :
    ((c.widthAttr.ok = false ∨ c.widthAttr.value < 0) →
        (c.reset cfg host).m_size.width = 300)
      ∧ ((c.widthAttr.ok = true ∧ 0 ≤ c.widthAttr.value) →
        (c.reset cfg host).m_size.width = c.widthAttr.value)
      ∧ ((c.heightAttr.ok = false ∨ c.heightAttr.value < 0) →
        (c.reset cfg host).m_size.height = 150)
      ∧ ((c.heightAttr.ok = true ∧ 0 ≤ c.heightAttr.value) →
        (c.reset cfg host).m_size.height = c.heightAttr.value)
      ∧ ((c.widthAttr.ok = false ∨ c.widthAttr.value < 0) →
        (c.heightAttr.ok = false ∨ c.heightAttr.value < 0) →
        (c.reset cfg host).m_size = ⟨300, 150⟩) := by
  have hs : (c.reset cfg host).m_size
      = ⟨HTMLCanvasElement.attrLength c.widthAttr DefaultWidth,
        HTMLCanvasElement.attrLength c.heightAttr DefaultHeight⟩ :=
    HTMLCanvasElement.m_size_of_members (HTMLCanvasElement.reset_members cfg host c h)
  have bad : ∀ (a : AttrInt) (d : Int), (a.ok = false ∨ a.value < 0) →
      HTMLCanvasElement.attrLength a d = d := by
    intro a d ha
    unfold HTMLCanvasElement.attrLength
    rcases ha with ha | ha
    · simp [ha]
    · simp [ha]
  have good : ∀ (a : AttrInt) (d : Int), (a.ok = true ∧ 0 ≤ a.value) →
      HTMLCanvasElement.attrLength a d = a.value := by
    intro a d ha
    unfold HTMLCanvasElement.attrLength
    have h2 : ¬ a.value < 0 := by omega
    simp [ha.1, h2]
  rw [hs]
  refine ⟨fun hw => ?_, fun hw => ?_, fun hh => ?_, fun hh => ?_, fun hw hh => ?_⟩
  · exact bad _ _ hw
  · exact good _ _ hw
  · exact bad _ _ hh
  · exact good _ _ hh
  · rw [bad _ _ hw, bad _ _ hh]; rfl

/-- C3 (amended) at the canvas with `width="-1"` and `height="77"`. -/
theorem C3_reset_defaults_each_dimension_witness :
    canvasNegativeWidth.m_ignoreReset = false
      ∧ (canvasNegativeWidth.reset androidConfig grantingHost).m_size.width = 300
      ∧ (canvasNegativeWidth.reset androidConfig grantingHost).m_size.height = 77 :=
  ⟨rfl,
    (C3_reset_defaults_each_dimension androidConfig grantingHost canvasNegativeWidth rfl).1
      (Or.inr (by decide)),
    (C3_reset_defaults_each_dimension androidConfig grantingHost canvasNegativeWidth
      rfl).2.2.2.1 ⟨rfl, by decide⟩⟩

/-! ## The device size (C5) -/

/-- C5, refuted as stated: the sizes 10768 and 24929 are whole, at least 1 and
at most 32767, their product 268435472 is greater than 32768 * 8192, and yet
the size is accepted, since the product is rounded to 268435456 before it is
compared. -/
theorem C5_counterexample :
    convertToValidDeviceSize androidConfig ⟨10768, 0⟩ ⟨24929, 0⟩ = ⟨10768, 24929⟩
      ∧ F32.ceil ⟨10768, 0⟩ = 10768 ∧ F32.ceil ⟨24929, 0⟩ = 24929
      ∧ F32.mul ⟨10768, 0⟩ ⟨24929, 0⟩ = ⟨8388608, 5⟩
      ∧ (32768 * 8192 : Int) < 10768 * 24929 := by
  decide

/-- C5 (amended): `convertToValidDeviceSize` returns the empty size (0, 0) if
and only if `ceil(width) < 1`, or `ceil(height) < 1`, or
`ceil(width) * ceil(height) > 32768 * 8192 + 16` (the product is compared after
rounding to single precision), or, with the Skia limit compiled in, one ceiled
dimension exceeds 32767.  In every other case it returns exactly
`(ceil(width), ceil(height))`, so a non-empty result has both dimensions at
least 1 and an area of at most `32768 * 8192 + 16`. -/
theorem C5_convertToValidDeviceSize (cfg : Config) (width height : F32) :
    (convertToValidDeviceSize cfg width height = IntSize.zero ↔
        (width.ceil < 1 ∨ height.ceil < 1 ∨ 32768 * 8192 + 16 < width.ceil * height.ceil
          ∨ (cfg.useSkia = true ∧ (32767 < width.ceil ∨ 32767 < height.ceil))))
      ∧ (convertToValidDeviceSize cfg width height ≠ IntSize.zero →
        convertToValidDeviceSize cfg width height = ⟨width.ceil, height.ceil⟩
          ∧ 1 ≤ width.ceil ∧ 1 ≤ height.ceil
          ∧ width.ceil * height.ceil ≤ 32768 * 8192 + 16) := by
  rw [convertToValidDeviceSize_eq]
  by_cases hc : width.ceil < 1 ∨ height.ceil < 1
      ∨ 32768 * 8192 + 16 < width.ceil * height.ceil
      ∨ (cfg.useSkia = true ∧ (32767 < width.ceil ∨ 32767 < height.ceil))
  · rw [if_pos hc]
    exact ⟨⟨fun _ => hc, fun _ => rfl⟩, fun h => absurd rfl h⟩
  · rw [if_neg hc]
    have h1 : ¬ width.ceil < 1 := fun h => hc (Or.inl h)
    have h2 : ¬ height.ceil < 1 := fun h => hc (Or.inr (Or.inl h))
    have h3 : ¬ 32768 * 8192 + 16 < width.ceil * height.ceil :=
      fun h => hc (Or.inr (Or.inr (Or.inl h)))
    have hne : (⟨width.ceil, height.ceil⟩ : IntSize) ≠ IntSize.zero := by
      intro h
      have hw : width.ceil = 0 := congrArg IntSize.width h
      omega
    refine ⟨⟨fun h => absurd h hne, fun h => absurd h hc⟩, fun _ => ⟨rfl, ?_, ?_, ?_⟩⟩
    · omega
    · omega
    · omega

/-! ## A buffer that could not be created (C4) -/

namespace HTMLCanvasElement

/-- Once creation has been attempted, `buffer()` only reads the member. -/
theorem buffer_of_created (cfg : Config) (host : Host) (c : HTMLCanvasElement)
    (h : c.m_hasCreatedImageBuffer = true) : c.buffer cfg host = (c.m_imageBuffer, c) := by
  unfold buffer
  simp [h]

theorem set_created_of_created (c : HTMLCanvasElement) (h : c.m_hasCreatedImageBuffer = true) :
    { c with m_hasCreatedImageBuffer := true } = c := by
  cases c
  simp only at h
  subst h
  rfl

/-- The first `buffer()` on a canvas without buffer whose device size is
rejected: nothing is returned, and only the flag is set. -/
theorem buffer_of_rejected (cfg : Config) (host : Host) (c : HTMLCanvasElement)
    (hb : c.m_imageBuffer = none)
    (he : convertLogicalToDevice cfg c.m_pageScaleFactor c.m_size.width c.m_size.height
      = IntSize.zero) :
    c.buffer cfg host = (none, { c with m_hasCreatedImageBuffer := true }) := by
  cases hf : c.m_hasCreatedImageBuffer with
  | true => rw [buffer_of_created cfg host c hf, set_created_of_created c hf, hb]
  | false =>
    unfold buffer createImageBuffer
    simp only [hf, he, IntSize.zero, Bool.not_false, if_true, true_or, hb]

theorem m_imageBuffer_of_members {c d : HTMLCanvasElement} (h : c.members = d.members) :
    c.m_imageBuffer = d.m_imageBuffer :=
  show c.members.m_imageBuffer = d.members.m_imageBuffer from
    congrArg HTMLCanvasElement.m_imageBuffer h

theorem m_hasCreatedImageBuffer_of_members {c d : HTMLCanvasElement}
    (h : c.members = d.members) : c.m_hasCreatedImageBuffer = d.m_hasCreatedImageBuffer :=
  show c.members.m_hasCreatedImageBuffer = d.members.m_hasCreatedImageBuffer from
    congrArg HTMLCanvasElement.m_hasCreatedImageBuffer h

theorem getContext_buffer_members (cfg : Config) (host : Host) (type : String)
    (c : HTMLCanvasElement) :
    (c.getContext cfg host type).2.m_hasCreatedImageBuffer = c.m_hasCreatedImageBuffer
      ∧ (c.getContext cfg host type).2.m_imageBuffer = c.m_imageBuffer := by
  unfold getContext
  repeat' split
  all_goals exact ⟨rfl, rfl⟩

theorem didDraw_buffer_members (cfg : Config) (host : Host) (rect : FloatRect)
    (c : HTMLCanvasElement) :
    (c.didDraw cfg host rect).m_hasCreatedImageBuffer = c.m_hasCreatedImageBuffer
      ∧ (c.didDraw cfg host rect).m_imageBuffer = c.m_imageBuffer := by
  unfold didDraw
  cases host.renderBox with
  | none => exact ⟨rfl, rfl⟩
  | some ro =>
    simp only
    split
    · exact ⟨rfl, rfl⟩
    · split <;> exact ⟨rfl, rfl⟩

theorem paintEpilogue_members (cfg : Config) (host : Host) (c : HTMLCanvasElement) :
    (c.paintEpilogue cfg host).members = c.members := by
  unfold paintEpilogue
  have h : (match c.m_context with
      | some ctx =>
        if cfg.enableWebGL && ctx.is3d then c.emit Event.markLayerComposited else c
      | none => c).members = c.members := by
    split
    · split <;> rfl
    · rfl
  simp only
  split
  · split
    · split
      · exact h
      · exact h
    · exact h
  · exact h

/-- On a canvas whose buffer could not be created `paint` draws nothing: it
clears the dirty rectangle and makes calls on the context only. -/
theorem paint_of_failed (cfg : Config) (host : Host) (r : IntRect) (c : HTMLCanvasElement)
    (hf : c.m_hasCreatedImageBuffer = true) (hb : c.m_imageBuffer = none) :
    (c.paint cfg host r).members = { c with m_dirtyRect := FloatRect.zero }.members := by
  have key : ∀ c1 : HTMLCanvasElement, c1.m_hasCreatedImageBuffer = true →
      c1.m_imageBuffer = none → (c1.paintBuffer cfg host r).members = c1.members := by
    intro c1 h1 h2
    unfold paintBuffer
    rw [buffer_of_created cfg host c1 h1, h2]
    simp only [h1, if_true]
    exact paintEpilogue_members cfg host c1
  unfold paint
  simp only
  split
  · rfl
  · split
    · split
      · rfl
      · exact (key ({ c with m_dirtyRect := FloatRect.zero }.emit
          Event.paintRenderingResultsToCanvas) hf hb).trans rfl
    · exact key { c with m_dirtyRect := FloatRect.zero } hf hb

theorem copiedImage_of_failed (cfg : Config) (host : Host) (c : HTMLCanvasElement)
    (hf : c.m_hasCreatedImageBuffer = true) (hb : c.m_imageBuffer = none) :
    (c.copiedImage cfg host).2 = c := by
  unfold copiedImage
  split
  · rfl
  · rw [buffer_of_created cfg host c hf, hb]

theorem toDataURL_of_failed (cfg : Config) (host : Host) (mimeType : Option String)
    (quality : Option ℚ) (c : HTMLCanvasElement)
    (hf : c.m_hasCreatedImageBuffer = true) (hb : c.m_imageBuffer = none) :
    (c.toDataURL cfg host mimeType quality).2 = c := by
  unfold toDataURL
  split
  · rfl
  · split
    · rfl
    · rw [buffer_of_created cfg host c hf, hb]

theorem makePresentationCopy_of_failed (cfg : Config) (host : Host) (c d : HTMLCanvasElement)
    (hf : c.m_hasCreatedImageBuffer = true) (hb : c.m_imageBuffer = none)
    (h : c.makePresentationCopy cfg host = some d) : d = c := by
  unfold makePresentationCopy at h
  rw [buffer_of_created cfg host c hf, hb] at h
  split at h
  · simp only [Option.some.injEq] at h
    exact h.symm
  · simp at h

theorem makeRenderingResultsAvailable_members (c : HTMLCanvasElement) :
    c.makeRenderingResultsAvailable.members = c.members := by
  unfold makeRenderingResultsAvailable
  split <;> rfl

/-- A call that does not resize the canvas leaves a failed buffer failed. -/
theorem apply_failed (cfg : Config) (op : Op) (c d : HTMLCanvasElement)
    (hf : c.m_hasCreatedImageBuffer = true) (hb : c.m_imageBuffer = none)
    (hop : op.resizes = false) (hd : op.apply cfg c = some d) :
    d.m_hasCreatedImageBuffer = true ∧ d.m_imageBuffer = none := by
  cases op <;> simp only [Op.resizes, Bool.true_eq_false] at hop <;>
    simp only [Op.apply, Option.some.injEq] at hd
  case getContext host type =>
    rw [← hd, (getContext_buffer_members cfg host type c).1,
      (getContext_buffer_members cfg host type c).2]
    exact ⟨hf, hb⟩
  case didDraw host rect =>
    rw [← hd, (didDraw_buffer_members cfg host rect c).1,
      (didDraw_buffer_members cfg host rect c).2]
    exact ⟨hf, hb⟩
  case paint host r =>
    rw [← hd, m_hasCreatedImageBuffer_of_members (paint_of_failed cfg host r c hf hb),
      m_imageBuffer_of_members (paint_of_failed cfg host r c hf hb)]
    exact ⟨hf, hb⟩
  case buffer host =>
    rw [← hd, buffer_of_created cfg host c hf]
    exact ⟨hf, hb⟩
  case drawingContext host =>
    rw [← hd]
    unfold drawingContext
    rw [buffer_of_created cfg host c hf]
    exact ⟨hf, hb⟩
  case copiedImage host =>
    rw [← hd, copiedImage_of_failed cfg host c hf hb]
    exact ⟨hf, hb⟩
  case clearCopiedImage => rw [← hd]; exact ⟨hf, hb⟩
  case makePresentationCopy host =>
    rw [makePresentationCopy_of_failed cfg host c d hf hb hd]
    exact ⟨hf, hb⟩
  case clearPresentationCopy => rw [← hd]; exact ⟨hf, hb⟩
  case makeRenderingResultsAvailable =>
    rw [← hd, m_hasCreatedImageBuffer_of_members (makeRenderingResultsAvailable_members c),
      m_imageBuffer_of_members (makeRenderingResultsAvailable_members c)]
    exact ⟨hf, hb⟩
  case toDataURL host mimeType quality =>
    rw [← hd, toDataURL_of_failed cfg host mimeType quality c hf hb]
    exact ⟨hf, hb⟩
  case addObserver observer => rw [← hd]; exact ⟨hf, hb⟩
  case removeObserver observer => rw [← hd]; exact ⟨hf, hb⟩
  case createRenderer host => rw [← hd]; exact ⟨hf, hb⟩

/-- Nor does a sequence of such calls. -/
theorem run_failed (cfg : Config) (ops : List Op) (c d : HTMLCanvasElement)
    (hf : c.m_hasCreatedImageBuffer = true) (hb : c.m_imageBuffer = none)
    (hops : ∀ op ∈ ops, op.resizes = false) (hd : run cfg ops c = some d) :
    d.m_hasCreatedImageBuffer = true ∧ d.m_imageBuffer = none := by
  induction ops generalizing c with
  | nil =>
    simp only [run, Option.some.injEq] at hd
    rw [← hd]; exact ⟨hf, hb⟩
  | cons op ops ih =>
    simp only [run] at hd
    cases ha : op.apply cfg c with
    | none => rw [ha] at hd; simp at hd
    | some c1 =>
      rw [ha] at hd
      have h1 := apply_failed cfg op c c1 hf hb (hops op (List.mem_cons_self op ops)) ha
      exact ih c1 h1.1 h1.2 (fun o ho => hops o (List.mem_cons_of_mem op ho)) hd

end HTMLCanvasElement

/-- A device size whose area exceeds `32768 * 8192 + 16` is rejected. -/
theorem convertLogicalToDevice_of_area (cfg : Config) (s : F32) (w h : Int)
    (harea : 32768 * 8192 + 16 < (deviceLength s w).ceil * (deviceLength s h).ceil) :
    convertLogicalToDevice cfg s w h = IntSize.zero := by
  unfold convertLogicalToDevice
  simp only
  rw [convertToValidDeviceSize_eq]
  exact if_pos (Or.inr (Or.inr (Or.inl harea)))

/-- C4, refuted as stated: with scale factor 1 and logical size 10768 by 24929,
`width * height * s * s` is 268435472, more than 32768 * 8192, and `buffer()`
on the canvas, which has not attempted a creation yet, asks for an image buffer
of that size and returns it. -/
theorem C4_counterexample :
    0 < canvasLarge.m_pageScaleFactor.toRat
      ∧ (32768 * 8192 : ℚ) < (canvasLarge.m_size.width : ℚ) * canvasLarge.m_size.height
          * canvasLarge.m_pageScaleFactor.toRat * canvasLarge.m_pageScaleFactor.toRat
      ∧ canvasLarge.m_hasCreatedImageBuffer = false
      ∧ canvasLarge.m_imageBuffer = none
      ∧ (canvasLarge.buffer androidConfig grantingHost).1 = some ⟨0, ⟨10768, 24929⟩⟩ := by
  have hs : canvasLarge.m_pageScaleFactor = ⟨1, 0⟩ := rfl
  have hw : canvasLarge.m_size = ⟨10768, 24929⟩ := rfl
  refine ⟨?_, ?_, rfl, rfl, by decide⟩
  · rw [hs]; norm_num [F32.toRat]
  · rw [hs, hw]; norm_num [F32.toRat]

/-- C4 (amended): let the canvas hold no image buffer and let its device size,
the two lengths `clampToInteger(ceilf(length * scale))` computed in single
precision, have an area of more than `32768 * 8192 + 16`.  Then `buffer()`
returns no buffer, sets the has-created flag and does nothing else, so that no
allocation is attempted; and after any further calls that do not resize the
canvas the flag is still set and `buffer()` again returns no buffer and leaves
the element exactly as it is. -/
theorem C4_oversized_buffer_fails (cfg : Config) (host host2 : Host)
    (c d : HTMLCanvasElement) (ops : List Op)
    (hb : c.m_imageBuffer = none)
    (harea : 32768 * 8192 + 16
      < (deviceLength c.m_pageScaleFactor c.m_size.width).ceil
        * (deviceLength c.m_pageScaleFactor c.m_size.height).ceil)
    (hops : ∀ op ∈ ops, op.resizes = false)
    (hd : run cfg ops (c.buffer cfg host).2 = some d) :
    c.buffer cfg host = (none, { c with m_hasCreatedImageBuffer := true })
      ∧ d.m_hasCreatedImageBuffer = true
      ∧ d.buffer cfg host2 = (none, d) := by
  have h1 := HTMLCanvasElement.buffer_of_rejected cfg host c hb
    (convertLogicalToDevice_of_area cfg _ _ _ harea)
  rw [h1] at hd
  have h2 := HTMLCanvasElement.run_failed cfg ops
    { c with m_hasCreatedImageBuffer := true } d rfl hb hops hd
  refine ⟨h1, h2.1, ?_⟩
  rw [HTMLCanvasElement.buffer_of_created cfg host2 d h2.1, h2.2]

/-- C4 (amended) at a canvas of 20000 by 20000 with scale factor 1, on which a
context is requested, which is painted, copied and exported after the first
`buffer()`. -/
theorem C4_oversized_buffer_fails_witness :
    canvasHuge.m_imageBuffer = none
      ∧ 32768 * 8192 + 16
        < (deviceLength canvasHuge.m_pageScaleFactor canvasHuge.m_size.width).ceil
          * (deviceLength canvasHuge.m_pageScaleFactor canvasHuge.m_size.height).ceil
      ∧ (∀ op ∈ drawingCalls, op.resizes = false)
      ∧ run androidConfig drawingCalls (canvasHuge.buffer androidConfig grantingHost).2
        = some canvasHugeLater
      ∧ canvasHuge.buffer androidConfig grantingHost
        = (none, { canvasHuge with m_hasCreatedImageBuffer := true })
      ∧ canvasHugeLater.m_hasCreatedImageBuffer = true
      ∧ canvasHugeLater.buffer androidConfig grantingHost = (none, canvasHugeLater) :=
  ⟨rfl, by decide, by decide, rfl,
    C4_oversized_buffer_fails androidConfig grantingHost grantingHost canvasHuge
      canvasHugeLater drawingCalls rfl (by decide) (by decide) rfl⟩

/-- The digits of a number below `2 ^ 24` fit a float. -/
theorem bitLength_le_of_lt (n : Nat) (h : n < 2 ^ 24) : bitLength n ≤ 24 := by
  rcases Nat.eq_zero_or_pos n with h0 | h0
  · subst h0
    decide
  · have hb := (bitLength_bounds n (by omega)).1
    by_contra hc
    have h1 : 2 ^ 24 ≤ 2 ^ (bitLength n - 1) := Nat.pow_le_pow_right (by norm_num) (by omega)
    omega

/-- With the scale factor 1 a logical length below `2 ^ 24` in magnitude is its
own device length. -/
theorem deviceLength_one (w : Int) (h : w.natAbs < 2 ^ 24) :
    deviceLength ⟨1, 0⟩ w = ⟨w, 0⟩ := by
  have hb := bitLength_le_of_lt w.natAbs h
  have h1 : F32.ofInt w = ⟨w, 0⟩ := by
    unfold F32.ofInt F32.round
    simp [hb]
  have h2 : F32.mul ⟨w, 0⟩ ⟨1, 0⟩ = ⟨w, 0⟩ := by
    unfold F32.mul F32.round
    simp [hb]
  have h3 : F32.ceilf ⟨w, 0⟩ = ⟨w, 0⟩ := by
    simp [F32.ceilf, F32.ceil]
  have h4 : clampToInteger ⟨w, 0⟩ = w := by
    unfold clampToInteger
    rw [F32.toInt_whole]
    have : (2 : Nat) ^ 24 = 16777216 := by norm_num
    unfold intMax intMin
    split
    · omega
    · split
      · omega
      · rfl
  unfold deviceLength
  rw [h1, h2, h3, h4, h1]

/-! ## The model of `ceilf` and `floorf` -/

/-- The model of `floorf` is the floor of the number the float stands for. -/
theorem F32.floor_eq_floor_toRat (x : F32) : x.floor = ⌊x.toRat⌋ := by
  unfold F32.floor F32.toRat
  split
  · rename_i h
    obtain ⟨n, hn⟩ := Int.eq_ofNat_of_zero_le h
    rw [hn]
    simp only [Int.toNat_ofNat, zpow_natCast]
    have e : ((x.mant : ℚ) * 2 ^ n) = ((x.mant * 2 ^ n : Int) : ℚ) := by push_cast; rfl
    rw [e, Int.floor_intCast]
  · rename_i h
    have h2 : 0 ≤ -x.exp := by omega
    obtain ⟨n, hn⟩ := Int.eq_ofNat_of_zero_le h2
    have he : x.exp = -(n : Int) := by omega
    rw [hn, he]
    simp only [Int.toNat_ofNat, zpow_neg, zpow_natCast]
    have e : (x.mant : ℚ) * ((2 : ℚ) ^ n)⁻¹ = (x.mant : ℚ) / ((2 ^ n : ℕ) : ℚ) := by
      push_cast; rw [div_eq_mul_inv]
    rw [e, Rat.floor_intCast_div_natCast]
    push_cast; rfl

/-- The model of `ceilf` is the ceiling of the number the float stands for. -/
theorem F32.ceil_eq_ceil_toRat (x : F32) : x.ceil = ⌈x.toRat⌉ := by
  have h := F32.floor_eq_floor_toRat ⟨-x.mant, x.exp⟩
  have e : (⟨-x.mant, x.exp⟩ : F32).toRat = -x.toRat := by
    simp [F32.toRat]
  rw [e, Int.floor_neg] at h
  have e2 : x.ceil = -(⟨-x.mant, x.exp⟩ : F32).floor := by
    unfold F32.ceil F32.floor
    split <;> simp
  rw [e2, h, neg_neg]

/-! ## Export of a tainted canvas (C6) -/

/-- With a clean origin `toDataURL` stores nothing in `ec`. -/
theorem HTMLCanvasElement.toDataURL_ec_of_clean (cfg : Config) (host : Host)
    (mimeType : Option String) (quality : Option ℚ) (c : HTMLCanvasElement)
    (h : c.m_originClean = true) : (c.toDataURL cfg host mimeType quality).1.ec = none := by
  unfold HTMLCanvasElement.toDataURL
  simp only [h, Bool.not_true, Bool.false_eq_true, if_false]
  split
  · rfl
  · rcases c.buffer cfg host with ⟨b, c1⟩
    cases b with
    | none => rfl
    | some b1 =>
      simp only
      rcases (if cfg.readsBackImageData then c1.getImageData cfg host
        else (false, c1)) with ⟨imageData, c2⟩
      simp only
      split
      · rfl
      · rcases c2.makeRenderingResultsAvailable.buffer cfg host with ⟨b3, c4⟩
        cases b3 <;> rfl

/-- C6: `toDataURL` stores `SECURITY_ERR` in `ec` if and only if the origin is
not clean, and then, whatever the mime type, the quality and the size of the
canvas, it returns the null string and leaves the element exactly as it is: no
image buffer is created and no snapshot is taken. -/
theorem C6_toDataURL_security_error (cfg : Config) (host : Host) (mimeType : Option String)
    (quality : Option ℚ) (c : HTMLCanvasElement) :
    ((c.toDataURL cfg host mimeType quality).1.ec = some SECURITY_ERR
        ↔ c.m_originClean = false)
      ∧ (c.m_originClean = false →
        (c.toDataURL cfg host mimeType quality).1.url = none
          ∧ (c.toDataURL cfg host mimeType quality).2 = c) := by
  cases h : c.m_originClean with
  | true =>
    refine ⟨⟨fun he => ?_, fun hf => ?_⟩, fun hf => ?_⟩
    · rw [HTMLCanvasElement.toDataURL_ec_of_clean cfg host mimeType quality c h] at he
      simp at he
    · simp at hf
    · simp at hf
  | false =>
    have e : c.toDataURL cfg host mimeType quality = (⟨none, some SECURITY_ERR⟩, c) := by
      unfold HTMLCanvasElement.toDataURL
      simp [h]
    rw [e]
    exact ⟨⟨fun _ => rfl, fun _ => rfl⟩, fun _ => ⟨rfl, rfl⟩⟩

/-- C6 at a tainted canvas that holds a context and a snapshot, and at a fresh
canvas, whose origin is clean. -/
theorem C6_toDataURL_security_error_witness :
    canvasTainted.m_originClean = false
      ∧ (canvasTainted.toDataURL androidConfig grantingHost (some "image/png") none).1
        = ⟨none, some SECURITY_ERR⟩
      ∧ (canvasTainted.toDataURL androidConfig grantingHost (some "image/png") none).2
        = canvasTainted
      ∧ freshCanvas.m_originClean = true
      ∧ (freshCanvas.toDataURL androidConfig grantingHost none none).1.ec ≠ some SECURITY_ERR :=
  ⟨rfl, rfl,
    ((C6_toDataURL_security_error androidConfig grantingHost (some "image/png") none
      canvasTainted).2 rfl).2,
    rfl,
    fun h => Bool.noConfusion
      ((C6_toDataURL_security_error androidConfig grantingHost none none freshCanvas).1.mp h)⟩

/-! ## The copied snapshot (C7) -/

/-- After `buffer()` the creation has been attempted. -/
theorem HTMLCanvasElement.buffer_created (cfg : Config) (host : Host)
    (c : HTMLCanvasElement) : (c.buffer cfg host).2.m_hasCreatedImageBuffer = true := by
  unfold HTMLCanvasElement.buffer
  simp only
  cases h : c.m_hasCreatedImageBuffer with
  | true => simp [h]
  | false =>
    simp only [Bool.not_false, if_true]
    unfold HTMLCanvasElement.createImageBuffer
    simp only
    split
    · rfl
    · split <;> rfl

/-- The flush `copiedImage` asks of the context, if there is one. -/
theorem HTMLCanvasElement.flush_created (c : HTMLCanvasElement) :
    (if c.m_context.isSome then c.emit Event.paintRenderingResultsToCanvas
      else c).m_hasCreatedImageBuffer = c.m_hasCreatedImageBuffer
    ∧ (if c.m_context.isSome then c.emit Event.paintRenderingResultsToCanvas
      else c).m_imageBuffer = c.m_imageBuffer := by
  split <;> exact ⟨rfl, rfl⟩

/-- C7: `copiedImage()` is a cache of one slot.  (a) A snapshot in the slot is
returned as it is and the element is unchanged: no flush, no copy.  (b) With an
empty slot and a buffer from `buffer()`, the context, if there is one, is told
to paint its results to the canvas, then the buffer is copied into a new image,
which is stored in the slot and returned; nothing else happens.  (c) With an
empty slot and no buffer nothing is returned.  (d) Of two `copiedImage()` calls
in a row the second returns what the first returned and leaves the element
exactly as it is, so it flushes and copies nothing. -/
theorem C7_copiedImage_cache (cfg : Config) (host host2 : Host) (c : HTMLCanvasElement) :
    (∀ img, c.m_copiedImage = some img → c.copiedImage cfg host = (some img, c))
      ∧ (∀ buf, c.m_copiedImage = none → (c.buffer cfg host).1 = some buf →
        c.copiedImage cfg host
          = (some ⟨(c.buffer cfg host).2.nextId⟩,
            { (c.buffer cfg host).2 with
              m_copiedImage := some ⟨(c.buffer cfg host).2.nextId⟩
              nextId := (c.buffer cfg host).2.nextId + 1
              trace := ((c.buffer cfg host).2.trace
                ++ (if c.m_context.isSome then [Event.paintRenderingResultsToCanvas] else []))
                ++ [Event.copyImage buf.id (c.buffer cfg host).2.nextId] }))
      ∧ (c.m_copiedImage = none → (c.buffer cfg host).1 = none →
        (c.copiedImage cfg host).1 = none)
      ∧ (c.copiedImage cfg host).2.copiedImage cfg host2
        = ((c.copiedImage cfg host).1, (c.copiedImage cfg host).2) := by
  have ha : ∀ (c0 : HTMLCanvasElement) (h0 : Host) (img : Image),
      c0.m_copiedImage = some img → c0.copiedImage cfg h0 = (some img, c0) := by
    intro c0 h0 img h
    unfold HTMLCanvasElement.copiedImage
    rw [h]
  have hb : ∀ buf, c.m_copiedImage = none → (c.buffer cfg host).1 = some buf →
      c.copiedImage cfg host
        = (some ⟨(c.buffer cfg host).2.nextId⟩,
          { (c.buffer cfg host).2 with
            m_copiedImage := some ⟨(c.buffer cfg host).2.nextId⟩
            nextId := (c.buffer cfg host).2.nextId + 1
            trace := ((c.buffer cfg host).2.trace
              ++ (if c.m_context.isSome then [Event.paintRenderingResultsToCanvas] else []))
              ++ [Event.copyImage buf.id (c.buffer cfg host).2.nextId] }) := by
    intro buf hn hbuf
    have hcr := HTMLCanvasElement.buffer_created cfg host c
    have hctx := HTMLCanvasElement.buffer_m_context cfg host c
    have hfst := HTMLCanvasElement.buffer_fst cfg host c
    unfold HTMLCanvasElement.copiedImage
    rw [hn]
    simp only
    rcases hbc : c.buffer cfg host with ⟨b, c1⟩
    rw [hbc] at hbuf hcr hctx hfst
    simp only at hbuf hcr hctx hfst
    subst hbuf
    simp only
    have h2 := HTMLCanvasElement.flush_created c1
    rw [HTMLCanvasElement.buffer_of_created cfg host _ (h2.1.trans hcr), h2.2, ← hfst]
    rw [← hctx]
    cases hcc : c1.m_context <;>
      simp [HTMLCanvasElement.emit, HTMLCanvasElement.copyImage, hcc, hfst.symm]
  have hc : c.m_copiedImage = none → (c.buffer cfg host).1 = none →
      (c.copiedImage cfg host).1 = none := by
    intro hn hbuf
    have hfst := HTMLCanvasElement.buffer_fst cfg host c
    unfold HTMLCanvasElement.copiedImage
    rw [hn]
    simp only
    rcases hbc : c.buffer cfg host with ⟨b, c1⟩
    rw [hbc] at hbuf hfst
    simp only at hbuf hfst
    subst hbuf
    simp only
    have hs : (c.buffer cfg host).2.m_copiedImage = c.m_copiedImage := by
      unfold HTMLCanvasElement.buffer HTMLCanvasElement.createImageBuffer
      simp only
      repeat' split
      all_goals rfl
    rw [hbc] at hs
    exact hs.trans hn
  refine ⟨ha c host, hb, hc, ?_⟩
  cases hs : c.m_copiedImage with
  | some img =>
    rw [ha c host img hs]
    exact ha c host2 img hs
  | none =>
    cases hbuf : (c.buffer cfg host).1 with
    | some buf =>
      rw [hb buf hs hbuf]
      exact ha _ host2 _ rfl
    | none =>
      have hcr := HTMLCanvasElement.buffer_created cfg host c
      have hfst := HTMLCanvasElement.buffer_fst cfg host c
      have hcop : (c.buffer cfg host).2.m_copiedImage = none := by
        have hs2 : (c.buffer cfg host).2.m_copiedImage = c.m_copiedImage := by
          unfold HTMLCanvasElement.buffer HTMLCanvasElement.createImageBuffer
          simp only
          repeat' split
          all_goals rfl
        exact hs2.trans hs
      have e : c.copiedImage cfg host = (none, (c.buffer cfg host).2) := by
        unfold HTMLCanvasElement.copiedImage
        rw [hs]
        simp only
        rcases hbc : c.buffer cfg host with ⟨b, c1⟩
        rw [hbc] at hbuf hcop
        simp only at hbuf hcop
        subst hbuf
        simp only [hcop]
      rw [e]
      simp only
      unfold HTMLCanvasElement.copiedImage
      rw [hcop]
      simp only
      rw [HTMLCanvasElement.buffer_of_created cfg host2 _ hcr, ← hfst, hbuf]
      simp only [hcop]

/-- C7 at a fresh canvas with a 2D context: the first `copiedImage()` creates
the buffer, flushes the context and copies, the second returns the same image. -/
theorem C7_copiedImage_cache_witness :
    canvas2D.m_copiedImage = none
      ∧ (canvas2D.buffer androidConfig grantingHost).1 = some ⟨1, ⟨300, 150⟩⟩
      ∧ (canvas2D.copiedImage androidConfig grantingHost).1 = some ⟨2⟩
      ∧ ((canvas2D.copiedImage androidConfig grantingHost).2.copiedImage androidConfig
          grantingHost).1 = some ⟨2⟩
      ∧ (canvas2D.copiedImage androidConfig grantingHost).2.copiedImage androidConfig
          grantingHost
        = ((canvas2D.copiedImage androidConfig grantingHost).1,
          (canvas2D.copiedImage androidConfig grantingHost).2) :=
  ⟨rfl, by decide, by decide, by decide,
    (C7_copiedImage_cache androidConfig grantingHost grantingHost canvas2D).2.2.2⟩

/-! ## Damage (C8, C9, C10) -/

/-! ### Order of floats -/

theorem toRat_scaled (x : F32) (e : Int) (h : e ≤ x.exp) :
    (x.mant : ℚ) * (2 : ℚ) ^ (x.exp - e).toNat * (2 : ℚ) ^ e = x.toRat := by
  unfold F32.toRat
  have h1 : ((x.exp - e).toNat : Int) = x.exp - e := Int.toNat_of_nonneg (by omega)
  have h2 : (2 : ℚ) ^ (x.exp - e).toNat * (2 : ℚ) ^ e = (2 : ℚ) ^ x.exp := by
    rw [← zpow_natCast, h1, ← zpow_add₀ (by norm_num : (2 : ℚ) ≠ 0)]
    congr 1
    ring
  rw [mul_assoc, h2]

/-- The operator `<=` compares the numbers. -/
theorem le_iff_toRat (x y : F32) : F32.le x y = true ↔ x.toRat ≤ y.toRat := by
  have hp : (0 : ℚ) < (2 : ℚ) ^ (min x.exp y.exp) := zpow_pos (by norm_num) _
  unfold F32.le
  simp only [decide_eq_true_eq]
  rw [← toRat_scaled x (min x.exp y.exp) (min_le_left _ _),
    ← toRat_scaled y (min x.exp y.exp) (min_le_right _ _), mul_le_mul_right hp,
    ← Int.cast_le (R := ℚ)]
  push_cast
  rfl

/-- The operator `<` compares the numbers. -/
theorem lt_iff_toRat (x y : F32) : F32.lt x y = true ↔ x.toRat < y.toRat := by
  have hp : (0 : ℚ) < (2 : ℚ) ^ (min x.exp y.exp) := zpow_pos (by norm_num) _
  unfold F32.lt
  simp only [decide_eq_true_eq]
  rw [← toRat_scaled x (min x.exp y.exp) (min_le_left _ _),
    ← toRat_scaled y (min x.exp y.exp) (min_le_right _ _), mul_lt_mul_right hp,
    ← Int.cast_lt (R := ℚ)]
  push_cast
  rfl

theorem le_self (x : F32) : F32.le x x = true := by
  simp [F32.le]

theorem eqv_self (x : F32) : F32.eqv x x = true := by
  simp [F32.eqv]

theorem le_chain {x y z : F32} (h1 : F32.le x y = true) (h2 : F32.le y z = true) :
    F32.le x z = true :=
  (le_iff_toRat x z).mpr (le_trans ((le_iff_toRat x y).mp h1) ((le_iff_toRat y z).mp h2))

/-- The smaller of two floats is the first one when that is not above the
second. -/
theorem min_of_le {x y : F32} (h : F32.le x y = true) : F32.min x y = x := by
  have h1 : ¬ (F32.lt y x = true) := by
    rw [lt_iff_toRat]
    exact not_lt.mpr ((le_iff_toRat x y).mp h)
  unfold F32.min
  rw [if_neg h1]

/-- The greater of two floats is the first one when the second is not above
it. -/
theorem max_of_le {x y : F32} (h : F32.le y x = true) : F32.max x y = x := by
  have h1 : ¬ (F32.lt x y = true) := by
    rw [lt_iff_toRat]
    exact not_lt.mpr ((le_iff_toRat y x).mp h)
  unfold F32.max
  rw [if_neg h1]

theorem toRat_sum (x y : F32) : (F32.sum x y).toRat = x.toRat + y.toRat := by
  rw [← toRat_scaled x (min x.exp y.exp) (min_le_left _ _),
    ← toRat_scaled y (min x.exp y.exp) (min_le_right _ _), ← add_mul]
  unfold F32.sum F32.toRat
  push_cast
  rfl

theorem toRat_pos_iff (x : F32) : 0 < x.toRat ↔ 0 < x.mant := by
  have hp : (0 : ℚ) < (2 : ℚ) ^ x.exp := zpow_pos (by norm_num) _
  unfold F32.toRat
  rw [mul_pos_iff_of_pos_right hp]
  exact Int.cast_pos

/-- Rounding leaves a positive float positive. -/
theorem round_mant_pos (x : F32) (h : 0 < x.mant) : 0 < (F32.round x).mant := by
  unfold F32.round
  simp only
  split
  · exact h
  · rename_i hb
    have hs : Int.sign x.mant = 1 := Int.sign_eq_one_of_pos h
    have hn : x.mant.natAbs ≠ 0 := by omega
    have hb1 := (bitLength_bounds _ hn).1
    have hk : 2 ^ (bitLength x.mant.natAbs - 24) ≤ x.mant.natAbs :=
      le_trans (Nat.pow_le_pow_right (by norm_num) (by omega)) hb1
    have hq : 1 ≤ x.mant.natAbs / 2 ^ (bitLength x.mant.natAbs - 24) :=
      (Nat.one_le_div_iff (by positivity)).mpr hk
    have hr := roundShift_ge x.mant.natAbs (bitLength x.mant.natAbs - 24)
    have hpos : 0 < roundShift x.mant.natAbs (bitLength x.mant.natAbs - 24) :=
      Nat.lt_of_lt_of_le Nat.zero_lt_one (le_trans hq hr)
    simp only [hs, one_mul]
    exact_mod_cast hpos

/-- The sum of a float that is not negative and a positive float is positive. -/
theorem add_pos_of_nonneg_of_pos (x w : F32) (hx : F32.le ⟨0, 0⟩ x = true)
    (hw : F32.le w ⟨0, 0⟩ = false) : F32.le (F32.add x w) ⟨0, 0⟩ = false := by
  have z : (⟨0, 0⟩ : F32).toRat = 0 := by simp [F32.toRat]
  have h1 : 0 ≤ x.toRat := by
    have := (le_iff_toRat ⟨0, 0⟩ x).mp hx
    rwa [z] at this
  have h2 : 0 < w.toRat := by
    have : ¬ (w.toRat ≤ (⟨0, 0⟩ : F32).toRat) := by
      rw [← le_iff_toRat, hw]
      simp
    rw [z] at this
    exact not_le.mp this
  have h3 : 0 < (F32.sum x w).toRat := by
    rw [toRat_sum]
    linarith
  have h4 : 0 < (F32.add x w).toRat :=
    (toRat_pos_iff _).mpr (round_mant_pos _ ((toRat_pos_iff _).mp h3))
  cases hc : F32.le (F32.add x w) ⟨0, 0⟩ with
  | false => rfl
  | true =>
    have := (le_iff_toRat _ _).mp hc
    rw [z] at this
    linarith

/-- The operator `==` compares the numbers. -/
theorem eqv_iff_toRat (x y : F32) : F32.eqv x y = true ↔ x.toRat = y.toRat := by
  have hp : (2 : ℚ) ^ (min x.exp y.exp) ≠ 0 := zpow_ne_zero _ (by norm_num)
  unfold F32.eqv
  simp only [decide_eq_true_eq]
  rw [← toRat_scaled x (min x.exp y.exp) (min_le_left _ _),
    ← toRat_scaled y (min x.exp y.exp) (min_le_right _ _), mul_left_inj' hp,
    ← Int.cast_inj (α := ℚ)]
  push_cast
  rfl

theorem min_le_fst (x y : F32) : F32.le (F32.min x y) x = true := by
  unfold F32.min
  split
  · rename_i h
    exact (le_iff_toRat y x).mpr (le_of_lt ((lt_iff_toRat y x).mp h))
  · exact le_self x

theorem min_le_snd (x y : F32) : F32.le (F32.min x y) y = true := by
  unfold F32.min
  split
  · exact le_self y
  · rename_i h
    rw [lt_iff_toRat] at h
    exact (le_iff_toRat x y).mpr (not_lt.mp h)

theorem le_max_fst (x y : F32) : F32.le x (F32.max x y) = true := by
  unfold F32.max
  split
  · rename_i h
    exact (le_iff_toRat x y).mpr (le_of_lt ((lt_iff_toRat x y).mp h))
  · exact le_self x

theorem le_max_snd (x y : F32) : F32.le y (F32.max x y) = true := by
  unfold F32.max
  split
  · exact le_self y
  · rename_i h
    rw [lt_iff_toRat] at h
    exact (le_iff_toRat y x).mpr (not_lt.mp h)

theorem toRat_diff (x y : F32) : (F32.diff x y).toRat = x.toRat - y.toRat := by
  rw [← toRat_scaled x (min x.exp y.exp) (min_le_left _ _),
    ← toRat_scaled y (min x.exp y.exp) (min_le_right _ _), ← sub_mul]
  unfold F32.diff F32.toRat
  push_cast
  rfl

/-- The difference of a float and a smaller one is positive. -/
theorem sub_pos_of_lt (r l : F32) (h : F32.lt l r = true) :
    F32.le (F32.sub r l) ⟨0, 0⟩ = false := by
  have z : (⟨0, 0⟩ : F32).toRat = 0 := by simp [F32.toRat]
  have h1 : 0 < (F32.diff r l).toRat := by
    rw [toRat_diff]
    linarith [(lt_iff_toRat l r).mp h]
  have h2 : 0 < (F32.sub r l).toRat :=
    (toRat_pos_iff _).mpr (round_mant_pos _ ((toRat_pos_iff _).mp h1))
  cases hc : F32.le (F32.sub r l) ⟨0, 0⟩ with
  | false => rfl
  | true =>
    have := (le_iff_toRat _ _).mp hc
    rw [z] at this
    linarith

namespace FloatRect

theorem contains_self (r : FloatRect) : r.contains r = true := by
  simp [contains, le_self]

/-- Containment is transitive. -/
theorem contains_trans {a b c : FloatRect} (h1 : a.contains b = true)
    (h2 : b.contains c = true) : a.contains c = true := by
  unfold contains at h1 h2 ⊢
  simp only [Bool.and_eq_true] at h1 h2 ⊢
  obtain ⟨⟨⟨a1, a2⟩, a3⟩, a4⟩ := h1
  obtain ⟨⟨⟨b1, b2⟩, b3⟩, b4⟩ := h2
  exact ⟨⟨⟨le_chain a1 b1, le_chain b2 a2⟩, le_chain a3 b3⟩, le_chain b4 a4⟩

/-- The clean rectangle `FloatRect()` holds no rectangle that is not empty. -/
theorem zero_not_contains (m : FloatRect) (h : m.isEmpty = false) :
    zero.contains m = false := by
  unfold isEmpty at h
  simp only [Bool.or_eq_false_iff] at h
  cases hc : zero.contains m with
  | false => rfl
  | true =>
    unfold contains at hc
    simp only [Bool.and_eq_true] at hc
    obtain ⟨⟨⟨c1, c2⟩, _⟩, _⟩ := hc
    have hz : zero.maxX = ⟨0, 0⟩ := by decide
    rw [hz] at c2
    have := add_pos_of_nonneg_of_pos m.x m.width c1 h.1
    unfold maxX at c2
    rw [c2] at this
    cases this

/-- Uniting into an empty rectangle gives the rectangle that is added. -/
theorem unite_of_isEmpty (d m : FloatRect) (hd : d.isEmpty = true) (hm : m.isEmpty = false) :
    d.unite m = m := by
  unfold unite
  simp [hd, hm]

/-- Uniting two rectangles that are not empty builds the rectangle from the
smaller near edges to the greater far edges. -/
theorem unite_of_not_isEmpty (d m : FloatRect) (hd : d.isEmpty = false)
    (hm : m.isEmpty = false) :
    d.unite m = fromEdges (F32.min d.x m.x) (F32.min d.y m.y)
      (F32.max d.maxX m.maxX) (F32.max d.maxY m.maxY) := by
  unfold unite
  simp [hd, hm]

/-- When the arithmetic on the edges of the bounding box is exact, the rectangle
that `unite` builds from these edges contains both rectangles. -/
theorem fromEdges_contains_of_exact (d m : FloatRect) (h : d.unionIsExact m = true) :
    (fromEdges (F32.min d.x m.x) (F32.min d.y m.y) (F32.max d.maxX m.maxX)
        (F32.max d.maxY m.maxY)).contains d = true
      ∧ (fromEdges (F32.min d.x m.x) (F32.min d.y m.y) (F32.max d.maxX m.maxX)
        (F32.max d.maxY m.maxY)).contains m = true := by
  unfold unionIsExact at h
  simp only [Bool.and_eq_true] at h
  obtain ⟨hx, hy⟩ := h
  have ex := (eqv_iff_toRat _ _).mp hx
  have ey := (eqv_iff_toRat _ _).mp hy
  have gx : ∀ v : F32, F32.le v (F32.max d.maxX m.maxX) = true →
      F32.le v (F32.add (F32.min d.x m.x)
        (F32.sub (F32.max d.maxX m.maxX) (F32.min d.x m.x))) = true := by
    intro v hv
    rw [le_iff_toRat] at hv ⊢
    rw [ex]
    exact hv
  have gy : ∀ v : F32, F32.le v (F32.max d.maxY m.maxY) = true →
      F32.le v (F32.add (F32.min d.y m.y)
        (F32.sub (F32.max d.maxY m.maxY) (F32.min d.y m.y))) = true := by
    intro v hv
    rw [le_iff_toRat] at hv ⊢
    rw [ey]
    exact hv
  unfold contains fromEdges maxX maxY
  simp only [Bool.and_eq_true]
  exact ⟨⟨⟨⟨min_le_fst _ _, gx _ (le_max_fst _ _)⟩, min_le_fst _ _⟩, gy _ (le_max_fst _ _)⟩,
    ⟨⟨⟨min_le_snd _ _, gx _ (le_max_snd _ _)⟩, min_le_snd _ _⟩, gy _ (le_max_snd _ _)⟩⟩

/-- When the arithmetic on the edges of the bounding box is exact and the first
rectangle has its far edges beyond its near edges, the rectangle that `unite`
builds is not empty and has its far edges beyond its near edges, too. -/
theorem fromEdges_isProper_of_exact (d m : FloatRect) (h : d.unionIsExact m = true)
    (hd : d.isProper = true) :
    (fromEdges (F32.min d.x m.x) (F32.min d.y m.y) (F32.max d.maxX m.maxX)
        (F32.max d.maxY m.maxY)).isEmpty = false
      ∧ (fromEdges (F32.min d.x m.x) (F32.min d.y m.y) (F32.max d.maxX m.maxX)
        (F32.max d.maxY m.maxY)).isProper = true := by
  unfold unionIsExact at h
  unfold isProper at hd
  simp only [Bool.and_eq_true] at h hd
  obtain ⟨hx, hy⟩ := h
  obtain ⟨px, py⟩ := hd
  have ex := (eqv_iff_toRat _ _).mp hx
  have ey := (eqv_iff_toRat _ _).mp hy
  have lx : F32.lt (F32.min d.x m.x) (F32.max d.maxX m.maxX) = true := by
    rw [lt_iff_toRat]
    have a1 := (le_iff_toRat _ _).mp (min_le_fst d.x m.x)
    have a2 := (le_iff_toRat _ _).mp (le_max_fst d.maxX m.maxX)
    have a3 := (lt_iff_toRat _ _).mp px
    linarith
  have ly : F32.lt (F32.min d.y m.y) (F32.max d.maxY m.maxY) = true := by
    rw [lt_iff_toRat]
    have a1 := (le_iff_toRat _ _).mp (min_le_fst d.y m.y)
    have a2 := (le_iff_toRat _ _).mp (le_max_fst d.maxY m.maxY)
    have a3 := (lt_iff_toRat _ _).mp py
    linarith
  constructor
  · unfold isEmpty fromEdges
    simp only [Bool.or_eq_false_iff]
    exact ⟨sub_pos_of_lt _ _ lx, sub_pos_of_lt _ _ ly⟩
  · unfold isProper
    simp only [Bool.and_eq_true]
    constructor
    · show F32.lt (F32.min d.x m.x) (F32.add (F32.min d.x m.x)
        (F32.sub (F32.max d.maxX m.maxX) (F32.min d.x m.x))) = true
      rw [lt_iff_toRat, ex]
      exact (lt_iff_toRat _ _).mp lx
    · show F32.lt (F32.min d.y m.y) (F32.add (F32.min d.y m.y)
        (F32.sub (F32.max d.maxY m.maxY) (F32.min d.y m.y))) = true
      rw [lt_iff_toRat, ey]
      exact (lt_iff_toRat _ _).mp ly

end FloatRect

namespace HTMLCanvasElement

theorem mappedRect_didDraw (cfg : Config) (host : Host) (rect rect2 : FloatRect)
    (ro : RenderBox) (c : HTMLCanvasElement) :
    (c.didDraw cfg host rect).mappedRect ro rect2 = c.mappedRect ro rect2 := by
  have hs : (c.didDraw cfg host rect).m_size = c.m_size := by
    unfold didDraw
    cases host.renderBox with
    | none => rfl
    | some ro =>
      simp only
      split
      · rfl
      · split <;> rfl
  unfold mappedRect mapToContentBox
  rw [hs]

/-- The dirty rectangle after `didDraw` when the element has a render box. -/
theorem didDraw_m_dirtyRect (cfg : Config) (host : Host) (rect : FloatRect) (ro : RenderBox)
    (c : HTMLCanvasElement) (h : host.renderBox = some ro) :
    (c.didDraw cfg host rect).m_dirtyRect =
      if (c.mappedRect ro rect).isEmpty || c.m_dirtyRect.contains (c.mappedRect ro rect)
      then c.m_dirtyRect else c.m_dirtyRect.unite (c.mappedRect ro rect) := by
  unfold didDraw
  rw [h]
  simp only
  have e : ({ c with m_copiedImage := none } : HTMLCanvasElement).mappedRect ro rect
      = c.mappedRect ro rect := rfl
  rw [e]
  split
  · rfl
  · split <;> rfl

/-- Without a render box `didDraw` leaves the dirty rectangle alone. -/
theorem didDraw_m_dirtyRect_none (cfg : Config) (host : Host) (rect : FloatRect)
    (c : HTMLCanvasElement) (h : host.renderBox = none) :
    (c.didDraw cfg host rect).m_dirtyRect = c.m_dirtyRect := by
  unfold didDraw
  rw [h]
  rfl

end HTMLCanvasElement

/-- The dirty rectangle after a second `didDraw` of the same rectangle. -/
theorem didDraw_twice (cfg : Config) (host : Host) (rect : FloatRect) (ro : RenderBox)
    (c : HTMLCanvasElement) (h : host.renderBox = some ro) :
    ((c.didDraw cfg host rect).didDraw cfg host rect).m_dirtyRect =
      if (c.mappedRect ro rect).isEmpty
          || (c.didDraw cfg host rect).m_dirtyRect.contains (c.mappedRect ro rect)
      then (c.didDraw cfg host rect).m_dirtyRect
      else (c.didDraw cfg host rect).m_dirtyRect.unite (c.mappedRect ro rect) := by
  rw [HTMLCanvasElement.didDraw_m_dirtyRect cfg host rect ro _ h,
    HTMLCanvasElement.mappedRect_didDraw]

/-- After a `didDraw` that was skipped, or that found the dirty rectangle
empty, or whose union was exact, the dirty rectangle contains the image unless
that is empty. -/
theorem didDraw_contains_image (cfg : Config) (host : Host) (rect : FloatRect)
    (ro : RenderBox) (c : HTMLCanvasElement) (h : host.renderBox = some ro)
    (hc : c.m_dirtyRect.isEmpty = true
      ∨ c.m_dirtyRect.contains (c.mappedRect ro rect) = true
      ∨ c.m_dirtyRect.unionIsExact (c.mappedRect ro rect) = true)
    (hm : (c.mappedRect ro rect).isEmpty = false) :
    (c.didDraw cfg host rect).m_dirtyRect.contains (c.mappedRect ro rect) = true := by
  rw [HTMLCanvasElement.didDraw_m_dirtyRect cfg host rect ro c h, hm]
  cases hk : c.m_dirtyRect.contains (c.mappedRect ro rect) with
  | true => simpa using hk
  | false =>
    simp only [Bool.or_self, Bool.false_eq_true, if_false]
    cases he : c.m_dirtyRect.isEmpty with
    | true =>
      rw [FloatRect.unite_of_isEmpty _ _ he hm]
      exact FloatRect.contains_self _
    | false =>
      rcases hc with hc | hc | hc
      · rw [he] at hc
        cases hc
      · rw [hk] at hc
        cases hc
      · rw [FloatRect.unite_of_not_isEmpty _ _ he hm]
        exact (FloatRect.fromEdges_contains_of_exact _ _ hc).2

set_option maxRecDepth 100000 in
theorem canvas512Drawn_once :
    (canvas512Drawn.didDraw androidConfig host512 stripB).m_dirtyRect.same
      ⟨⟨262145, -18⟩, ⟨8388609, -16⟩, ⟨99, 0⟩, ⟨256, 0⟩⟩ = true := by
  decide

set_option maxRecDepth 100000 in
theorem canvas512Drawn_twice :
    ((canvas512Drawn.didDraw androidConfig host512 stripB).didDraw androidConfig host512
      stripB).m_dirtyRect.same
        ⟨⟨262145, -18⟩, ⟨8388609, -16⟩, ⟨99, 0⟩, ⟨16777215, -16⟩⟩ = true := by
  decide

set_option maxRecDepth 100000 in
theorem canvas512Drawn_differ :
    ((canvas512Drawn.didDraw androidConfig host512 stripB).didDraw androidConfig host512
      stripB).m_dirtyRect.same
        (canvas512Drawn.didDraw androidConfig host512 stripB).m_dirtyRect = false := by
  decide

/-- C8, refuted as stated: a canvas of 512 by 512 is shown in a content box of
512 by 512 and holds the dirty rectangle left by
`didDraw(1 + 2^-18, 200, 1, 184 + 2^-15)`, which ends at `384 + 2^-15` at the
bottom.  One `didDraw(50, 128 + 2^-16, 50 + 2^-17, 10)` leaves the dirty
rectangle `(1 + 2^-18, 128 + 2^-16, 99, 256)`: the width `99 + 2^-18` and the
height `256 + 2^-16` of the union are rounded to 99 and to 256.  That rectangle
ends at 100 on the right, short of the right edge `100 + 2^-17` of the image,
and at `128 + 2^-16 + 256`, rounded to 384, at the bottom.  So the second
`didDraw` of the same rectangle unites again, and the height comes out as
`384 - (128 + 2^-16) = 256 - 2^-16`. -/
theorem C8_counterexample :
    host512.renderBox = some box512
      ∧ (canvas512Drawn.didDraw androidConfig host512 stripB).m_dirtyRect.same
          ⟨⟨262145, -18⟩, ⟨8388609, -16⟩, ⟨99, 0⟩, ⟨256, 0⟩⟩ = true
      ∧ ((canvas512Drawn.didDraw androidConfig host512 stripB).didDraw androidConfig
          host512 stripB).m_dirtyRect.same
            ⟨⟨262145, -18⟩, ⟨8388609, -16⟩, ⟨99, 0⟩, ⟨16777215, -16⟩⟩ = true
      ∧ ((canvas512Drawn.didDraw androidConfig host512 stripB).didDraw androidConfig
          host512 stripB).m_dirtyRect.same
            (canvas512Drawn.didDraw androidConfig host512 stripB).m_dirtyRect = false :=
  ⟨rfl, canvas512Drawn_once, canvas512Drawn_twice, canvas512Drawn_differ⟩

/-- C8 (amended): `didDraw(r)` called twice in a row leaves the same dirty
rectangle as `didDraw(r)` called once when there is no render box, when the
image of `r` (mapped to the content box and clipped to it) is empty, when the
dirty rectangle before the calls is empty or contains the image, and when the
float arithmetic of the union that the first call takes is exact:
`l + (r - l) == r` and `t + (b - t) == b` for the edges `l`, `t`, `r`, `b` of
the bounding box of the dirty rectangle and the image.  Whenever the dirty
rectangle after the first call does not contain an image that is not empty, the
second call unites the image into it again. -/
theorem C8_didDraw_idempotent (cfg : Config) (host : Host) (rect : FloatRect)
    (c : HTMLCanvasElement) :
    (host.renderBox = none →
        ((c.didDraw cfg host rect).didDraw cfg host rect).m_dirtyRect
          = (c.didDraw cfg host rect).m_dirtyRect)
      ∧ ∀ ro, host.renderBox = some ro →
        (((c.mappedRect ro rect).isEmpty = true
            ∨ c.m_dirtyRect.isEmpty = true
            ∨ c.m_dirtyRect.contains (c.mappedRect ro rect) = true
            ∨ c.m_dirtyRect.unionIsExact (c.mappedRect ro rect) = true) →
          ((c.didDraw cfg host rect).didDraw cfg host rect).m_dirtyRect
            = (c.didDraw cfg host rect).m_dirtyRect)
        ∧ ((c.mappedRect ro rect).isEmpty = false →
          (c.didDraw cfg host rect).m_dirtyRect.contains (c.mappedRect ro rect) = false →
          ((c.didDraw cfg host rect).didDraw cfg host rect).m_dirtyRect
            = (c.didDraw cfg host rect).m_dirtyRect.unite (c.mappedRect ro rect)) := by
  refine ⟨fun h => ?_, fun ro h => ⟨fun hc => ?_, fun hm hk => ?_⟩⟩
  · rw [HTMLCanvasElement.didDraw_m_dirtyRect_none cfg host rect _ h]
  · rw [didDraw_twice cfg host rect ro c h]
    cases hm : (c.mappedRect ro rect).isEmpty with
    | true => simp
    | false =>
      have hk : (c.didDraw cfg host rect).m_dirtyRect.contains (c.mappedRect ro rect)
          = true := by
        rcases hc with hc | hc
        · rw [hm] at hc
          cases hc
        · exact didDraw_contains_image cfg host rect ro c h hc hm
      simp [hk]
  · rw [didDraw_twice cfg host rect ro c h, hm, hk]
    simp

set_option maxRecDepth 100000 in
theorem scaled_squareC_image :
    (freshCanvas.mappedRect box600 squareC).same ⟨⟨210, 0⟩, ⟨220, 0⟩, ⟨20, 0⟩, ⟨20, 0⟩⟩ = true
      ∧ (freshCanvas.mappedRect box600 squareC).isEmpty = false := by
  decide

set_option maxRecDepth 100000 in
theorem scaled_squareC_once :
    (freshCanvas.didDraw androidConfig scalingHost squareC).m_dirtyRect.same
      ⟨⟨210, 0⟩, ⟨220, 0⟩, ⟨20, 0⟩, ⟨20, 0⟩⟩ = true := by
  decide

/-- C8 (amended) at a fresh canvas of 300 by 150 shown in a content box of 600
by 300 at (10, 20): the square of side 10 at (100, 100) has the image
(210, 220, 20, 20), which one `didDraw` makes the dirty rectangle and a second
one leaves there. -/
theorem C8_didDraw_idempotent_witness :
    scalingHost.renderBox = some box600
      ∧ freshCanvas.m_dirtyRect.isEmpty = true
      ∧ (freshCanvas.mappedRect box600 squareC).same
          ⟨⟨210, 0⟩, ⟨220, 0⟩, ⟨20, 0⟩, ⟨20, 0⟩⟩ = true
      ∧ (freshCanvas.didDraw androidConfig scalingHost squareC).m_dirtyRect.same
          ⟨⟨210, 0⟩, ⟨220, 0⟩, ⟨20, 0⟩, ⟨20, 0⟩⟩ = true
      ∧ ((freshCanvas.didDraw androidConfig scalingHost squareC).didDraw androidConfig
          scalingHost squareC).m_dirtyRect
        = (freshCanvas.didDraw androidConfig scalingHost squareC).m_dirtyRect :=
  ⟨rfl, by decide, scaled_squareC_image.1, scaled_squareC_once,
    ((C8_didDraw_idempotent androidConfig scalingHost squareC freshCanvas).2 box600 rfl).1
      (Or.inr (Or.inl (by decide)))⟩

/-- From a clean dirty rectangle the first `didDraw` of a rectangle whose image
is not empty makes that image the dirty rectangle. -/
theorem didDraw_of_clean (cfg : Config) (host : Host) (rect : FloatRect) (ro : RenderBox)
    (c : HTMLCanvasElement) (h : host.renderBox = some ro)
    (hclean : c.m_dirtyRect = FloatRect.zero)
    (hm : (c.mappedRect ro rect).isEmpty = false) :
    (c.didDraw cfg host rect).m_dirtyRect = c.mappedRect ro rect := by
  rw [HTMLCanvasElement.didDraw_m_dirtyRect cfg host rect ro c h, hm, hclean,
    FloatRect.zero_not_contains _ hm]
  simp only [Bool.or_self, Bool.false_eq_true, if_false]
  exact FloatRect.unite_of_isEmpty _ _ (by decide) hm

/-- A rectangle that holds another one is the bounding box of the two. -/
theorem FloatRect.isBoundingBox_of_contains (a b : FloatRect) (h : a.contains b = true) :
    a.isBoundingBox a b = true := by
  unfold FloatRect.contains at h
  simp only [Bool.and_eq_true] at h
  obtain ⟨⟨⟨h1, h2⟩, h3⟩, h4⟩ := h
  unfold FloatRect.isBoundingBox
  rw [min_of_le h1, min_of_le h3, max_of_le h2, max_of_le h4]
  simp [eqv_self]

/-- The rectangle built from the edges of the bounding box is the bounding box
exactly when its far edges come out exactly. -/
theorem FloatRect.isBoundingBox_fromEdges (a b : FloatRect) :
    (FloatRect.fromEdges (F32.min a.x b.x) (F32.min a.y b.y) (F32.max a.maxX b.maxX)
      (F32.max a.maxY b.maxY)).isBoundingBox a b = a.unionIsExact b := by
  unfold FloatRect.isBoundingBox FloatRect.unionIsExact FloatRect.fromEdges
  simp only [eqv_self, Bool.true_and]
  rfl

set_option maxRecDepth 100000 in
theorem slivers_facts :
    sliverA.intersects sliverB = false
      ∧ (freshCanvas.mapToContentBox box300 sliverA).same sliverA = true
      ∧ (freshCanvas.mapToContentBox box300 sliverB).same sliverB = true
      ∧ (freshCanvas.mapToContentBox box300 sliverA).isEmpty = false
      ∧ (freshCanvas.mapToContentBox box300 sliverB).isEmpty = false
      ∧ (FloatRect.ofIntRect box300.contentBoxRect).contains
          (freshCanvas.mapToContentBox box300 sliverA) = true
      ∧ (FloatRect.ofIntRect box300.contentBoxRect).contains
          (freshCanvas.mapToContentBox box300 sliverB) = true := by
  decide

set_option maxRecDepth 100000 in
theorem slivers_dirtyRect :
    ((freshCanvas.didDraw androidConfig grantingHost sliverA).didDraw androidConfig
        grantingHost sliverB).m_dirtyRect.same ⟨⟨262145, -18⟩, ⟨0, 0⟩, ⟨99, 0⟩, ⟨1, 0⟩⟩ = true
      ∧ F32.eqv ((freshCanvas.didDraw androidConfig grantingHost sliverA).didDraw
          androidConfig grantingHost sliverB).m_dirtyRect.maxX ⟨100, 0⟩ = true
      ∧ F32.eqv (F32.max (freshCanvas.mapToContentBox box300 sliverA).maxX
          (freshCanvas.mapToContentBox box300 sliverB).maxX) ⟨13107201, -17⟩ = true := by
  decide

set_option maxRecDepth 100000 in
theorem slivers_not_bounding :
    ((freshCanvas.didDraw androidConfig grantingHost sliverA).didDraw androidConfig
        grantingHost sliverB).m_dirtyRect.isBoundingBox
      (freshCanvas.mapToContentBox box300 sliverA)
      (freshCanvas.mapToContentBox box300 sliverB) = false := by
  decide

/-- C9, refuted as stated: on a fresh canvas of 300 by 150 shown in a content box
of 300 by 150 the rectangles `(1 + 2^-18, 0, 1, 1)` and `(50, 0, 50 + 2^-17, 1)`
are disjoint, and their images are the rectangles themselves, not empty and
inside the content box.  The bounding box of the two images ends at
`100 + 2^-17` on the right.  After `didDraw` of the one and the other the dirty
rectangle is `(1 + 2^-18, 0, 99, 1)`, because the width `99 + 2^-18` of the
bounding box is rounded to 99; it ends at 100 and is not the bounding box. -/
theorem C9_counterexample :
    grantingHost.renderBox = some box300
      ∧ freshCanvas.m_dirtyRect = FloatRect.zero
      ∧ sliverA.intersects sliverB = false
      ∧ (freshCanvas.mapToContentBox box300 sliverA).same sliverA = true
      ∧ (freshCanvas.mapToContentBox box300 sliverB).same sliverB = true
      ∧ (freshCanvas.mapToContentBox box300 sliverA).isEmpty = false
      ∧ (freshCanvas.mapToContentBox box300 sliverB).isEmpty = false
      ∧ (FloatRect.ofIntRect box300.contentBoxRect).contains
          (freshCanvas.mapToContentBox box300 sliverA) = true
      ∧ (FloatRect.ofIntRect box300.contentBoxRect).contains
          (freshCanvas.mapToContentBox box300 sliverB) = true
      ∧ F32.eqv (F32.max (freshCanvas.mapToContentBox box300 sliverA).maxX
          (freshCanvas.mapToContentBox box300 sliverB).maxX) ⟨13107201, -17⟩ = true
      ∧ ((freshCanvas.didDraw androidConfig grantingHost sliverA).didDraw androidConfig
          grantingHost sliverB).m_dirtyRect.same
            ⟨⟨262145, -18⟩, ⟨0, 0⟩, ⟨99, 0⟩, ⟨1, 0⟩⟩ = true
      ∧ F32.eqv ((freshCanvas.didDraw androidConfig grantingHost sliverA).didDraw
          androidConfig grantingHost sliverB).m_dirtyRect.maxX ⟨100, 0⟩ = true
      ∧ ((freshCanvas.didDraw androidConfig grantingHost sliverA).didDraw androidConfig
          grantingHost sliverB).m_dirtyRect.isBoundingBox
            (freshCanvas.mapToContentBox box300 sliverA)
            (freshCanvas.mapToContentBox box300 sliverB) = false :=
  ⟨rfl, rfl, slivers_facts.1, slivers_facts.2.1, slivers_facts.2.2.1, slivers_facts.2.2.2.1,
    slivers_facts.2.2.2.2.1,
    slivers_facts.2.2.2.2.2.1, slivers_facts.2.2.2.2.2.2, slivers_dirtyRect.2.2,
    slivers_dirtyRect.1, slivers_dirtyRect.2.1, slivers_not_bounding⟩

/-- C9 (amended): on a canvas with a render box and a clean dirty rectangle, let
`R1` and `R2` be rectangles whose images (mapped to the content box and clipped
to it) are not empty.  After `didDraw(R1)` and `didDraw(R2)` the left and top
edges of the dirty rectangle are the smaller of the two left and top edges.
The dirty rectangle is the bounding box of the two images, right and bottom
edge included, exactly when the first image contains the second or the float
arithmetic on the edges `l`, `t`, `r`, `b` of the bounding box is exact:
`l + (r - l) == r` and `t + (b - t) == b`.  This holds for disjoint `R1` and
`R2` in particular; it does not need them to be disjoint. -/
theorem C9_didDraw_bounding_union (cfg : Config) (host : Host) (ro : RenderBox)
    (R1 R2 : FloatRect) (c : HTMLCanvasElement)
    (hro : host.renderBox = some ro)
    (hclean : c.m_dirtyRect = FloatRect.zero)
    (h1 : (c.mappedRect ro R1).isEmpty = false)
    (h2 : (c.mappedRect ro R2).isEmpty = false) :
    F32.eqv ((c.didDraw cfg host R1).didDraw cfg host R2).m_dirtyRect.x
        (F32.min (c.mappedRect ro R1).x (c.mappedRect ro R2).x) = true
      ∧ F32.eqv ((c.didDraw cfg host R1).didDraw cfg host R2).m_dirtyRect.y
        (F32.min (c.mappedRect ro R1).y (c.mappedRect ro R2).y) = true
      ∧ (((c.didDraw cfg host R1).didDraw cfg host R2).m_dirtyRect.isBoundingBox
            (c.mappedRect ro R1) (c.mappedRect ro R2) = true
          ↔ ((c.mappedRect ro R1).contains (c.mappedRect ro R2) = true
            ∨ (c.mappedRect ro R1).unionIsExact (c.mappedRect ro R2) = true)) := by
  have e1 := didDraw_of_clean cfg host R1 ro c hro hclean h1
  have e2 : ((c.didDraw cfg host R1).didDraw cfg host R2).m_dirtyRect
      = if (c.mappedRect ro R1).contains (c.mappedRect ro R2)
        then c.mappedRect ro R1
        else FloatRect.fromEdges (F32.min (c.mappedRect ro R1).x (c.mappedRect ro R2).x)
          (F32.min (c.mappedRect ro R1).y (c.mappedRect ro R2).y)
          (F32.max (c.mappedRect ro R1).maxX (c.mappedRect ro R2).maxX)
          (F32.max (c.mappedRect ro R1).maxY (c.mappedRect ro R2).maxY) := by
    rw [HTMLCanvasElement.didDraw_m_dirtyRect cfg host R2 ro _ hro,
      HTMLCanvasElement.mappedRect_didDraw, e1, h2,
      FloatRect.unite_of_not_isEmpty _ _ h1 h2]
    simp
  rw [e2]
  cases hc : (c.mappedRect ro R1).contains (c.mappedRect ro R2) with
  | true =>
    have hb := FloatRect.isBoundingBox_of_contains _ _ hc
    simp only [if_true, hb, true_or]
    unfold FloatRect.isBoundingBox at hb
    simp only [Bool.and_eq_true] at hb
    exact ⟨hb.1.1.1, hb.1.1.2, trivial⟩
  | false =>
    simp only [Bool.false_eq_true, if_false, false_or]
    rw [FloatRect.isBoundingBox_fromEdges]
    exact ⟨eqv_self _, eqv_self _, Iff.rfl⟩

set_option maxRecDepth 100000 in
theorem scaled_squares_facts :
    (freshCanvas.mappedRect box600 squareA).isEmpty = false
      ∧ (freshCanvas.mappedRect box600 squareC).isEmpty = false
      ∧ (freshCanvas.mappedRect box600 squareA).same
          ⟨⟨10, 0⟩, ⟨20, 0⟩, ⟨20, 0⟩, ⟨20, 0⟩⟩ = true
      ∧ (freshCanvas.mappedRect box600 squareA).unionIsExact
          (freshCanvas.mappedRect box600 squareC) = true := by
  decide

set_option maxRecDepth 100000 in
theorem scaled_squares_dirtyRect :
    ((freshCanvas.didDraw androidConfig scalingHost squareA).didDraw androidConfig
        scalingHost squareC).m_dirtyRect.same
      ⟨⟨10, 0⟩, ⟨20, 0⟩, ⟨220, 0⟩, ⟨220, 0⟩⟩ = true := by
  decide

/-- C9 (amended) at a fresh canvas of 300 by 150 shown in a content box of 600 by
300 at (10, 20): the squares of side 10 at (0, 0) and at (100, 100) have the
images (10, 20, 20, 20) and (210, 220, 20, 20); the edges of their bounding box
are whole numbers, the arithmetic on them is exact, and the dirty rectangle
after the two calls is the bounding box (10, 20, 220, 220). -/
theorem C9_didDraw_bounding_union_witness :
    scalingHost.renderBox = some box600
      ∧ freshCanvas.m_dirtyRect = FloatRect.zero
      ∧ (freshCanvas.mappedRect box600 squareA).isEmpty = false
      ∧ (freshCanvas.mappedRect box600 squareC).isEmpty = false
      ∧ (freshCanvas.mappedRect box600 squareA).same
          ⟨⟨10, 0⟩, ⟨20, 0⟩, ⟨20, 0⟩, ⟨20, 0⟩⟩ = true
      ∧ (freshCanvas.mappedRect box600 squareC).same
          ⟨⟨210, 0⟩, ⟨220, 0⟩, ⟨20, 0⟩, ⟨20, 0⟩⟩ = true
      ∧ ((freshCanvas.didDraw androidConfig scalingHost squareA).didDraw androidConfig
          scalingHost squareC).m_dirtyRect.same
            ⟨⟨10, 0⟩, ⟨20, 0⟩, ⟨220, 0⟩, ⟨220, 0⟩⟩ = true
      ∧ ((freshCanvas.didDraw androidConfig scalingHost squareA).didDraw androidConfig
          scalingHost squareC).m_dirtyRect.isBoundingBox
            (freshCanvas.mappedRect box600 squareA)
            (freshCanvas.mappedRect box600 squareC) = true :=
  ⟨rfl, rfl, scaled_squares_facts.1, scaled_squares_facts.2.1, scaled_squares_facts.2.2.1,
    scaled_squareC_image.1, scaled_squares_dirtyRect,
    (C9_didDraw_bounding_union androidConfig scalingHost box600 squareA squareC freshCanvas
      rfl rfl scaled_squares_facts.1 scaled_squares_facts.2.1).2.2.mpr
        (Or.inr scaled_squares_facts.2.2.2)⟩

/-- C10: after `didDraw(r)` the copied snapshot is gone, whatever the canvas,
the rectangle and the render box are. -/
theorem C10_didDraw_clears_copiedImage (cfg : Config) (host : Host) (rect : FloatRect)
    (c : HTMLCanvasElement) : (c.didDraw cfg host rect).m_copiedImage = none := by
  unfold HTMLCanvasElement.didDraw
  cases host.renderBox with
  | none => rfl
  | some ro =>
    simp only
    split
    · rfl
    · split <;> rfl

/-! ## Members that the buffer and the calls on collaborators leave alone -/

namespace HTMLCanvasElement

theorem bystanders_of_members {c d : HTMLCanvasElement} (h : c.members = d.members) :
    c.bystanders = d.bystanders :=
  show c.members.bystanders = d.members.bystanders from
    congrArg HTMLCanvasElement.bystanders h

theorem m_presentedImage_of_bystanders {c d : HTMLCanvasElement}
    (h : c.bystanders = d.bystanders) : c.m_presentedImage = d.m_presentedImage :=
  congrArg (fun t => t.2.2.2.2.2.2.1) h

theorem m_dirtyRect_of_bystanders {c d : HTMLCanvasElement}
    (h : c.bystanders = d.bystanders) : c.m_dirtyRect = d.m_dirtyRect :=
  congrArg (fun t => t.2.2.2.2.2.2.2.1) h

theorem m_size_of_bystanders {c d : HTMLCanvasElement}
    (h : c.bystanders = d.bystanders) : c.m_size = d.m_size :=
  congrArg (fun t => t.1) h

theorem m_pageScaleFactor_of_bystanders {c d : HTMLCanvasElement}
    (h : c.bystanders = d.bystanders) : c.m_pageScaleFactor = d.m_pageScaleFactor :=
  congrArg (fun t => t.2.2.2.1) h

theorem m_observers_of_bystanders {c d : HTMLCanvasElement}
    (h : c.bystanders = d.bystanders) : c.m_observers = d.m_observers :=
  congrArg (fun t => t.2.2.2.2.2.2.2.2.1) h

theorem createImageBuffer_bystanders (cfg : Config) (host : Host) (c : HTMLCanvasElement) :
    (c.createImageBuffer cfg host).bystanders = c.bystanders := by
  unfold createImageBuffer
  simp only
  split
  · rfl
  · split <;> rfl

theorem buffer_bystanders (cfg : Config) (host : Host) (c : HTMLCanvasElement) :
    (c.buffer cfg host).2.bystanders = c.bystanders := by
  unfold buffer
  simp only
  split
  · exact createImageBuffer_bystanders cfg host c
  · rfl

theorem copiedImage_bystanders (cfg : Config) (host : Host) (c : HTMLCanvasElement) :
    (c.copiedImage cfg host).2.bystanders = c.bystanders := by
  unfold copiedImage
  cases c.m_copiedImage with
  | some img => rfl
  | none =>
    simp only
    have h1 := buffer_bystanders cfg host c
    rcases hb : c.buffer cfg host with ⟨b, c1⟩
    rw [hb] at h1
    cases b with
    | none => exact h1
    | some b1 =>
      simp only
      have h2 := buffer_bystanders cfg host
        (if c1.m_context.isSome then c1.emit Event.paintRenderingResultsToCanvas else c1)
      rcases hb2 : (if c1.m_context.isSome then c1.emit Event.paintRenderingResultsToCanvas
        else c1).buffer cfg host with ⟨b2, c3⟩
      rw [hb2] at h2
      have h3 : (if c1.m_context.isSome then c1.emit Event.paintRenderingResultsToCanvas
        else c1).bystanders = c1.bystanders := by split <;> rfl
      cases b2 with
      | none => exact h2.trans (h3.trans h1)
      | some b3 => exact h2.trans (h3.trans h1)

theorem paintBuffer_bystanders (cfg : Config) (host : Host) (r : IntRect)
    (c : HTMLCanvasElement) : (c.paintBuffer cfg host r).bystanders = c.bystanders := by
  have he : ∀ d : HTMLCanvasElement, (d.paintEpilogue cfg host).bystanders = d.bystanders :=
    fun d => bystanders_of_members (paintEpilogue_members cfg host d)
  unfold paintBuffer
  split
  · have h1 := buffer_bystanders cfg host c
    rcases hb : c.buffer cfg host with ⟨b, c1⟩
    rw [hb] at h1
    cases b with
    | none => exact (he c1).trans h1
    | some b1 =>
      simp only
      split
      · exact h1
      · split
        · exact (he _).trans h1
        · split
          · have h2 := copiedImage_bystanders cfg host c1
            rcases hc : c1.copiedImage cfg host with ⟨img, c2⟩
            rw [hc] at h2
            exact (he _).trans (h2.trans h1)
          · exact (he _).trans h1
  · exact he c

/-- All that `paint` does to the members outside the buffer is to clear the dirty
rectangle. -/
theorem paint_bystanders (cfg : Config) (host : Host) (r : IntRect) (c : HTMLCanvasElement) :
    (c.paint cfg host r).bystanders
      = ({ c with m_dirtyRect := FloatRect.zero } : HTMLCanvasElement).bystanders := by
  unfold paint
  simp only
  split
  · rfl
  · split
    · split
      · rfl
      · exact (paintBuffer_bystanders cfg host r _).trans rfl
    · exact paintBuffer_bystanders cfg host r _

theorem didDraw_m_presentedImage (cfg : Config) (host : Host) (rect : FloatRect)
    (c : HTMLCanvasElement) :
    (c.didDraw cfg host rect).m_presentedImage = c.m_presentedImage := by
  unfold didDraw
  cases host.renderBox with
  | none => rfl
  | some ro =>
    simp only
    split
    · rfl
    · split <;> rfl

theorem m_presentedImage_of_members {c d : HTMLCanvasElement} (h : c.members = d.members) :
    c.m_presentedImage = d.m_presentedImage :=
  m_presentedImage_of_bystanders (bystanders_of_members h)

theorem m_dirtyRect_of_members {c d : HTMLCanvasElement} (h : c.members = d.members) :
    c.m_dirtyRect = d.m_dirtyRect :=
  m_dirtyRect_of_bystanders (bystanders_of_members h)

theorem m_copiedImage_of_members {c d : HTMLCanvasElement} (h : c.members = d.members) :
    c.m_copiedImage = d.m_copiedImage :=
  show c.members.m_copiedImage = d.members.m_copiedImage from
    congrArg HTMLCanvasElement.m_copiedImage h

end HTMLCanvasElement

/-! ## Facts about the concrete inputs -/

theorem canvasPresented_m_presentedImage : canvasPresented.m_presentedImage = some ⟨1⟩ := by
  decide

theorem canvasPresented_m_imageBuffer :
    canvasPresented.m_imageBuffer = some ⟨0, ⟨300, 150⟩⟩ := by
  decide

theorem canvasPresented_m_size : canvasPresented.m_size = ⟨300, 150⟩ := by
  decide

theorem canvasPresented_m_dirtyRect : canvasPresented.m_dirtyRect = FloatRect.zero := rfl

set_option maxRecDepth 100000 in
/-- Drawing the square at the origin on the clean canvas of 300 by 150 that holds
a presented snapshot makes the square the dirty rectangle. -/
theorem canvasPresentedDrawn_m_dirtyRect :
    canvasPresentedDrawn.m_dirtyRect.same squareA = true
      ∧ canvasPresentedDrawn.m_dirtyRect.isEmpty = false := by
  decide

set_option maxRecDepth 100000 in
/-- Drawing the square at the origin on the fresh canvas makes the square the
dirty rectangle. -/
theorem canvasDrawn_m_dirtyRect :
    canvasDrawn.m_dirtyRect.same squareA = true
      ∧ canvasDrawn.m_dirtyRect.isEmpty = false := by
  decide

theorem canvasPresentedDrawn_m_presentedImage :
    canvasPresentedDrawn.m_presentedImage = some ⟨1⟩ :=
  (HTMLCanvasElement.didDraw_m_presentedImage _ _ _ _).trans canvasPresented_m_presentedImage

theorem HTMLCanvasElement.didDraw_settings (cfg : Config) (host : Host) (rect : FloatRect)
    (c : HTMLCanvasElement) :
    (c.didDraw cfg host rect).m_size = c.m_size
      ∧ (c.didDraw cfg host rect).m_ignoreReset = c.m_ignoreReset
      ∧ (c.didDraw cfg host rect).m_pageScaleFactor = c.m_pageScaleFactor
      ∧ (c.didDraw cfg host rect).m_observers = c.m_observers := by
  unfold HTMLCanvasElement.didDraw
  cases host.renderBox with
  | none => exact ⟨rfl, rfl, rfl, rfl⟩
  | some ro =>
    simp only
    split
    · exact ⟨rfl, rfl, rfl, rfl⟩
    · split <;> exact ⟨rfl, rfl, rfl, rfl⟩

/-! ## What `reset` discards (C11) -/

/-- C11, refuted as stated: a canvas holds a presented snapshot and, after a
`didDraw`, the dirty rectangle (0, 0, 10, 10); it does not ignore resets.  After
`reset()` the presented snapshot is still there and the dirty rectangle is still
(0, 0, 10, 10), which is not empty. -/
theorem C11_counterexample :
    canvasPresentedDrawn.m_ignoreReset = false
      ∧ (canvasPresentedDrawn.reset androidConfig grantingHost).m_presentedImage = some ⟨1⟩
      ∧ (canvasPresentedDrawn.reset androidConfig grantingHost).m_dirtyRect.same
          ⟨⟨0, 0⟩, ⟨0, 0⟩, ⟨10, 0⟩, ⟨10, 0⟩⟩ = true
      ∧ (canvasPresentedDrawn.reset androidConfig grantingHost).m_dirtyRect.isEmpty = false := by
  have hi : canvasPresentedDrawn.m_ignoreReset = false :=
    (HTMLCanvasElement.didDraw_settings androidConfig grantingHost squareA
      canvasPresented).2.1.trans (by decide)
  have hm := HTMLCanvasElement.reset_members androidConfig grantingHost
    canvasPresentedDrawn hi
  have hd : (canvasPresentedDrawn.reset androidConfig grantingHost).m_dirtyRect
      = canvasPresentedDrawn.m_dirtyRect :=
    (HTMLCanvasElement.m_dirtyRect_of_members hm).trans rfl
  refine ⟨hi, ?_, ?_, ?_⟩
  · exact (HTMLCanvasElement.m_presentedImage_of_members hm).trans
      canvasPresentedDrawn_m_presentedImage
  · rw [hd]; exact canvasPresentedDrawn_m_dirtyRect.1
  · rw [hd]; exact canvasPresentedDrawn_m_dirtyRect.2

/-- C11 (amended): after a `reset()` that is not ignored the image buffer and the
copied snapshot are absent and the has-created flag is cleared, also when the
new size equals the old one; the presented snapshot and the dirty rectangle are
what they were before the call. -/
theorem C11_reset_discards_buffer_and_copy (cfg : Config) (host : Host)
    (c : HTMLCanvasElement) (h : c.m_ignoreReset = false) :
    (c.reset cfg host).m_imageBuffer = none
      ∧ (c.reset cfg host).m_hasCreatedImageBuffer = false
      ∧ (c.reset cfg host).m_copiedImage = none
      ∧ (c.reset cfg host).m_presentedImage = c.m_presentedImage
      ∧ (c.reset cfg host).m_dirtyRect = c.m_dirtyRect := by
  have hm := HTMLCanvasElement.reset_members cfg host c h
  exact ⟨HTMLCanvasElement.m_imageBuffer_of_members hm,
    HTMLCanvasElement.m_hasCreatedImageBuffer_of_members hm,
    HTMLCanvasElement.m_copiedImage_of_members hm,
    (HTMLCanvasElement.m_presentedImage_of_members hm).trans rfl,
    (HTMLCanvasElement.m_dirtyRect_of_members hm).trans rfl⟩

/-- C11 (amended) at the canvas with a buffer, a presented snapshot and a dirty
rectangle, whose size attributes are absent so that the size stays 300 by 150. -/
theorem C11_reset_discards_buffer_and_copy_witness :
    canvasPresentedDrawn.m_ignoreReset = false
      ∧ (canvasPresentedDrawn.reset androidConfig grantingHost).m_imageBuffer = none
      ∧ (canvasPresentedDrawn.reset androidConfig grantingHost).m_hasCreatedImageBuffer = false
      ∧ (canvasPresentedDrawn.reset androidConfig grantingHost).m_copiedImage = none
      ∧ (canvasPresentedDrawn.reset androidConfig grantingHost).m_presentedImage
        = canvasPresentedDrawn.m_presentedImage
      ∧ (canvasPresentedDrawn.reset androidConfig grantingHost).m_dirtyRect
        = canvasPresentedDrawn.m_dirtyRect :=
  ⟨(HTMLCanvasElement.didDraw_settings androidConfig grantingHost squareA
      canvasPresented).2.1.trans (by decide),
    C11_reset_discards_buffer_and_copy androidConfig grantingHost canvasPresentedDrawn
      ((HTMLCanvasElement.didDraw_settings androidConfig grantingHost squareA
        canvasPresented).2.1.trans (by decide))⟩

/-! ## Ignored resets (C17) -/

/-- C17: the ignore-reset flag of a freshly constructed canvas is false, and on a
canvas whose flag is true `reset()` changes nothing: size, image buffer,
has-created flag, both snapshots and the dirty rectangle are as before, and no
call is made on the context, the renderer or an observer. -/
theorem C17_ignored_reset_is_noop (cfg : Config) (scaleFactor : F32) (host : Host)
    (c : HTMLCanvasElement) (h : c.m_ignoreReset = true) :
    (HTMLCanvasElement.create cfg scaleFactor).m_ignoreReset = false
      ∧ c.reset cfg host = c := by
  refine ⟨rfl, ?_⟩
  unfold HTMLCanvasElement.reset
  simp [h]

/-- C17 at a canvas with a 2D context that ignores resets while its `width`
attribute reads "50". -/
theorem C17_ignored_reset_is_noop_witness :
    canvasIgnoring.m_ignoreReset = true
      ∧ (HTMLCanvasElement.create androidConfig ⟨1, 0⟩).m_ignoreReset = false
      ∧ canvasIgnoring.reset androidConfig grantingHost = canvasIgnoring :=
  ⟨rfl, C17_ignored_reset_is_noop androidConfig ⟨1, 0⟩ grantingHost canvasIgnoring rfl⟩

/-! ## The dirty rectangle after `paint` (C20) -/

/-- C20: whatever the canvas state and whatever path `paint` takes (painting
disabled, a context that does not paint into the canvas buffer, no image
buffer, a recording buffer or a normal draw), the dirty rectangle is the empty
rectangle `FloatRect()` when `paint` returns; a second `paint` right after it
leaves it empty again. -/
theorem C20_paint_clears_dirtyRect (cfg : Config) (host host2 : Host) (r r2 : IntRect)
    (c : HTMLCanvasElement) :
    (c.paint cfg host r).m_dirtyRect = FloatRect.zero
      ∧ (c.paint cfg host r).m_dirtyRect.isEmpty = true
      ∧ ((c.paint cfg host r).paint cfg host2 r2).m_dirtyRect = FloatRect.zero := by
  have h : ∀ (d : HTMLCanvasElement) (hh : Host) (rr : IntRect),
      (d.paint cfg hh rr).m_dirtyRect = FloatRect.zero :=
    fun d hh rr => HTMLCanvasElement.m_dirtyRect_of_bystanders
      (HTMLCanvasElement.paint_bystanders cfg hh rr d)
  refine ⟨h c host r, ?_, h _ host2 r2⟩
  rw [h c host r]
  decide

/-! ## Observers told of a `reset` (C12) -/

namespace HTMLCanvasElement

theorem resetReshape_trace (cfg : Config) (oldSize : IntSize) (c : HTMLCanvasElement) :
    ∃ es, (c.resetReshape cfg oldSize).trace = c.trace ++ es
      ∧ ∀ o, Event.canvasResized o ∉ es := by
  unfold resetReshape
  split
  · split
    · exact ⟨[_], rfl, by simp⟩
    · exact ⟨[], by simp, by simp⟩
  · exact ⟨[], by simp, by simp⟩

theorem resetContext2D_trace (c : HTMLCanvasElement) :
    ∃ es, c.resetContext2D.trace = c.trace ++ es ∧ ∀ o, Event.canvasResized o ∉ es := by
  unfold resetContext2D
  split
  · split
    · exact ⟨[_], rfl, by simp⟩
    · exact ⟨[], by simp, by simp⟩
  · exact ⟨[], by simp, by simp⟩

theorem resetRenderer_trace (host : Host) (oldSize : IntSize) (had : Bool)
    (c : HTMLCanvasElement) :
    ∃ es, (c.resetRenderer host oldSize had).trace = c.trace ++ es
      ∧ ∀ o, Event.canvasResized o ∉ es := by
  unfold resetRenderer
  split
  · split
    · simp only
      split <;> split
      · exact ⟨[Event.canvasSizeChanged, Event.rendererRepaint], by simp [emit], by simp⟩
      · exact ⟨[_], rfl, by simp⟩
      · exact ⟨[_], rfl, by simp⟩
      · exact ⟨[], by simp, by simp⟩
    · exact ⟨[], by simp, by simp⟩
  · exact ⟨[], by simp, by simp⟩

/-- The calls of a `reset()` that is not ignored: calls on the context and the
renderer, none of them `canvasResized`, and then one `canvasResized` for each
entry of `m_observers`. -/
theorem reset_trace (cfg : Config) (host : Host) (c : HTMLCanvasElement)
    (h : c.m_ignoreReset = false) :
    ∃ es, (c.reset cfg host).trace
        = c.trace ++ (es ++ c.m_observers.map (fun o => Event.canvasResized o))
      ∧ ∀ o, Event.canvasResized o ∉ es := by
  unfold reset
  simp only [h, Bool.false_eq_true, if_false]
  generalize hc1 : c.setSurfaceSize ⟨attrLength c.widthAttr DefaultWidth,
    attrLength c.heightAttr DefaultHeight⟩ = c1
  have t1 : c1.trace = c.trace := by rw [← hc1]; rfl
  have o1 : c1.m_observers = c.m_observers := by rw [← hc1]; rfl
  obtain ⟨e2, t2, n2⟩ := resetReshape_trace cfg c.m_size c1
  obtain ⟨e3, t3, n3⟩ := resetContext2D_trace (c1.resetReshape cfg c.m_size)
  obtain ⟨e4, t4, n4⟩ := resetRenderer_trace host c.m_size c.m_hasCreatedImageBuffer
    (c1.resetReshape cfg c.m_size).resetContext2D
  have o4 : (((c1.resetReshape cfg c.m_size).resetContext2D).resetRenderer host c.m_size
      c.m_hasCreatedImageBuffer).m_observers = c.m_observers := by
    have hm : (((c1.resetReshape cfg c.m_size).resetContext2D).resetRenderer host c.m_size
        c.m_hasCreatedImageBuffer).members = c1.members := by simp
    exact (m_observers_of_bystanders (bystanders_of_members hm)).trans o1
  refine ⟨e2 ++ e3 ++ e4, ?_, ?_⟩
  · unfold notifyResized
    simp only [o4, t4, t3, t2, t1, List.append_assoc]
  · intro o hmem
    simp only [List.mem_append] at hmem
    rcases hmem with (hm | hm) | hm
    · exact n2 o hm
    · exact n3 o hm
    · exact n4 o hm

end HTMLCanvasElement

/-- C12: let the canvas not ignore resets (its observers, a set, being listed
without repetition).  Among the calls that `reset()` makes, `canvasResized` goes
to every registered observer exactly once and to no one else, whether or not
the size changes, a buffer existed, or one can be created for the new size. -/
theorem C12_reset_notifies_each_observer_once (cfg : Config) (host : Host)
    (c : HTMLCanvasElement) (h : c.m_ignoreReset = false) (hset : c.m_observers.Nodup) :
    (c.reset cfg host).trace.take c.trace.length = c.trace
      ∧ ∀ o, ((c.reset cfg host).trace.drop c.trace.length).count (Event.canvasResized o)
        = if o ∈ c.m_observers then 1 else 0 := by
  obtain ⟨es, ht, hn⟩ := HTMLCanvasElement.reset_trace cfg host c h
  rw [ht]
  refine ⟨by simp, fun o => ?_⟩
  rw [List.drop_left, List.count_append, List.count_eq_zero_of_not_mem (hn o), zero_add]
  have hinj : Function.Injective (fun o : Nat => Event.canvasResized o) := by
    intro a b hab
    simpa using hab
  rw [List.count_map_of_injective c.m_observers _ hinj o]
  split
  · rename_i hm
    exact (List.nodup_iff_count_eq_one.mp hset) o hm
  · rename_i hm
    exact List.count_eq_zero_of_not_mem hm

/-- C12 at a canvas with the observers 7 and 9, whose size stays 300 by 150. -/
theorem C12_reset_notifies_each_observer_once_witness :
    canvasObserved.m_ignoreReset = false
      ∧ canvasObserved.m_observers.Nodup
      ∧ ((canvasObserved.reset androidConfig grantingHost).trace.drop
          canvasObserved.trace.length).count (Event.canvasResized 7) = 1
      ∧ ((canvasObserved.reset androidConfig grantingHost).trace.drop
          canvasObserved.trace.length).count (Event.canvasResized 9) = 1
      ∧ ((canvasObserved.reset androidConfig grantingHost).trace.drop
          canvasObserved.trace.length).count (Event.canvasResized 8) = 0 :=
  ⟨rfl, by decide,
    ((C12_reset_notifies_each_observer_once androidConfig grantingHost canvasObserved rfl
      (by decide)).2 7).trans (by decide),
    ((C12_reset_notifies_each_observer_once androidConfig grantingHost canvasObserved rfl
      (by decide)).2 9).trans (by decide),
    ((C12_reset_notifies_each_observer_once androidConfig grantingHost canvasObserved rfl
      (by decide)).2 8).trans (by decide)⟩

/-! ## Invariants of the image buffer -/

namespace HTMLCanvasElement

theorem wellFormed_of_store (cfg : Config) {c d : HTMLCanvasElement}
    (h : d.store = c.store) (hw : c.WellFormed cfg) : d.WellFormed cfg := by
  have h1 : d.m_size = c.m_size := congrArg (fun t => t.1) h
  have h2 : d.m_pageScaleFactor = c.m_pageScaleFactor := congrArg (fun t => t.2.1) h
  have h3 : d.m_hasCreatedImageBuffer = c.m_hasCreatedImageBuffer :=
    congrArg (fun t => t.2.2.1) h
  have h4 : d.m_imageBuffer = c.m_imageBuffer := congrArg (fun t => t.2.2.2.1) h
  have h5 : d.m_copiedImage = c.m_copiedImage := congrArg (fun t => t.2.2.2.2.1) h
  have h6 : d.m_observers = c.m_observers := congrArg (fun t => t.2.2.2.2.2) h
  unfold WellFormed at hw ⊢
  rw [h1, h2, h3, h4, h5, h6]
  exact hw

theorem store_of_members {c d : HTMLCanvasElement} (h : c.members = d.members) :
    c.store = d.store :=
  show c.members.store = d.members.store from congrArg HTMLCanvasElement.store h

theorem create_wellFormed (cfg : Config) (scaleFactor : F32) :
    (create cfg scaleFactor).WellFormed cfg := by
  unfold WellFormed create
  simp

/-- A size that `convertLogicalToDevice` does not reject has both dimensions at
least 1. -/
theorem convertLogicalToDevice_pos (cfg : Config) (s : F32) (w h : Int)
    (hne : ¬ ((convertLogicalToDevice cfg s w h).width = 0
      ∨ (convertLogicalToDevice cfg s w h).height = 0)) :
    1 ≤ (convertLogicalToDevice cfg s w h).width
      ∧ 1 ≤ (convertLogicalToDevice cfg s w h).height := by
  unfold convertLogicalToDevice at hne ⊢
  simp only at hne ⊢
  rw [convertToValidDeviceSize_eq] at hne ⊢
  split
  · rename_i hc
    rw [if_pos hc] at hne
    simp [IntSize.zero] at hne
  · rename_i hc
    simp only
    constructor
    · by_contra h1
      exact hc (Or.inl (by omega))
    · by_contra h1
      exact hc (Or.inr (Or.inl (by omega)))

theorem createImageBuffer_wellFormed (cfg : Config) (host : Host) (c : HTMLCanvasElement)
    (hw : c.WellFormed cfg) (hf : c.m_hasCreatedImageBuffer = false) :
    (c.createImageBuffer cfg host).WellFormed cfg := by
  obtain ⟨w1, w2, w3, w4⟩ := hw
  have hb := w1 hf
  have hcp := w2 hb
  unfold createImageBuffer
  simp only
  split
  · exact ⟨fun h => by simp at h, fun _ => hcp, fun buf h => by
      simp only [hb] at h
      exact absurd h (by simp), w4⟩
  · rename_i hne
    split
    · refine ⟨fun h => by simp [emit] at h, fun h => by simp [emit] at h, fun buf h => ?_, w4⟩
      simp only [emit, Option.some.injEq] at h
      subst h
      exact ⟨rfl, convertLogicalToDevice_pos cfg _ _ _ hne⟩
    · exact ⟨fun h => by simp [emit] at h, fun _ => hcp, fun buf h => by
        simp at h, w4⟩

theorem buffer_wellFormed (cfg : Config) (host : Host) (c : HTMLCanvasElement)
    (hw : c.WellFormed cfg) : (c.buffer cfg host).2.WellFormed cfg := by
  unfold buffer
  simp only
  cases hf : c.m_hasCreatedImageBuffer with
  | true => simpa [hf] using hw
  | false =>
    simp only [Bool.not_false, if_true]
    exact createImageBuffer_wellFormed cfg host c hw hf

end HTMLCanvasElement

namespace HTMLCanvasElement

/-- Storing a copied snapshot keeps the invariants when there is a buffer. -/
theorem wellFormed_set_copied (cfg : Config) (c d : HTMLCanvasElement) (buf : ImageBuffer)
    (img : Image) (hw : c.WellFormed cfg) (hb : c.m_imageBuffer = some buf)
    (hd : d.store = (c.m_size, c.m_pageScaleFactor, c.m_hasCreatedImageBuffer,
      c.m_imageBuffer, some img, c.m_observers)) : d.WellFormed cfg := by
  have h1 : d.m_size = c.m_size := congrArg (fun t => t.1) hd
  have h2 : d.m_pageScaleFactor = c.m_pageScaleFactor := congrArg (fun t => t.2.1) hd
  have h3 : d.m_hasCreatedImageBuffer = c.m_hasCreatedImageBuffer :=
    congrArg (fun t => t.2.2.1) hd
  have h4 : d.m_imageBuffer = c.m_imageBuffer := congrArg (fun t => t.2.2.2.1) hd
  have h6 : d.m_observers = c.m_observers := congrArg (fun t => t.2.2.2.2.2) hd
  obtain ⟨w1, w2, w3, w4⟩ := hw
  unfold WellFormed
  rw [h1, h2, h3, h4, h6]
  exact ⟨w1, fun h => by rw [hb] at h; simp at h, w3, w4⟩

/-- Dropping the copied snapshot keeps the invariants. -/
theorem wellFormed_clear_copied (cfg : Config) (c d : HTMLCanvasElement)
    (hw : c.WellFormed cfg)
    (hd : d.store = (c.m_size, c.m_pageScaleFactor, c.m_hasCreatedImageBuffer,
      c.m_imageBuffer, none, c.m_observers)) : d.WellFormed cfg := by
  have h1 : d.m_size = c.m_size := congrArg (fun t => t.1) hd
  have h2 : d.m_pageScaleFactor = c.m_pageScaleFactor := congrArg (fun t => t.2.1) hd
  have h3 : d.m_hasCreatedImageBuffer = c.m_hasCreatedImageBuffer :=
    congrArg (fun t => t.2.2.1) hd
  have h4 : d.m_imageBuffer = c.m_imageBuffer := congrArg (fun t => t.2.2.2.1) hd
  have h5 : d.m_copiedImage = none := congrArg (fun t => t.2.2.2.2.1) hd
  have h6 : d.m_observers = c.m_observers := congrArg (fun t => t.2.2.2.2.2) hd
  obtain ⟨w1, w2, w3, w4⟩ := hw
  unfold WellFormed
  rw [h1, h2, h3, h4, h5, h6]
  exact ⟨w1, fun _ => rfl, w3, w4⟩

theorem copiedImage_wellFormed (cfg : Config) (host : Host) (c : HTMLCanvasElement)
    (hw : c.WellFormed cfg) : (c.copiedImage cfg host).2.WellFormed cfg := by
  unfold copiedImage
  cases c.m_copiedImage with
  | some img => exact hw
  | none =>
    simp only
    have h1 := buffer_wellFormed cfg host c hw
    rcases hb : c.buffer cfg host with ⟨b, c1⟩
    rw [hb] at h1
    cases b with
    | none => exact h1
    | some b1 =>
      simp only
      have h3 : (if c1.m_context.isSome then c1.emit Event.paintRenderingResultsToCanvas
          else c1).WellFormed cfg := by
        split
        · exact wellFormed_of_store cfg rfl h1
        · exact h1
      have h2 := buffer_wellFormed cfg host _ h3
      have hfst := buffer_fst cfg host
        (if c1.m_context.isSome then c1.emit Event.paintRenderingResultsToCanvas else c1)
      rcases hb2 : (if c1.m_context.isSome then c1.emit Event.paintRenderingResultsToCanvas
        else c1).buffer cfg host with ⟨b2, c3⟩
      rw [hb2] at h2 hfst
      simp only at h2 hfst
      cases b2 with
      | none => exact h2
      | some b3 => exact wellFormed_set_copied cfg c3 _ b3 _ h2 hfst.symm rfl

theorem makePresentationCopy_wellFormed (cfg : Config) (host : Host)
    (c d : HTMLCanvasElement) (hw : c.WellFormed cfg)
    (h : c.makePresentationCopy cfg host = some d) : d.WellFormed cfg := by
  unfold makePresentationCopy at h
  cases hp : c.m_presentedImage with
  | some img =>
    rw [hp] at h
    simp only [Option.some.injEq] at h
    rw [← h]; exact hw
  | none =>
    rw [hp] at h
    simp only at h
    have h1 := buffer_wellFormed cfg host c hw
    rcases hb : c.buffer cfg host with ⟨b, c1⟩
    rw [hb] at h h1
    cases b with
    | none => simp at h
    | some b1 =>
      simp only [Option.some.injEq] at h
      rw [← h]
      exact wellFormed_of_store cfg rfl h1

theorem getImageData_members (cfg : Config) (host : Host) (c : HTMLCanvasElement) :
    (c.getImageData cfg host).2.members = c.members := by
  unfold getImageData
  split
  · rfl
  · split
    · rfl
    · split <;> rfl

theorem toDataURL_wellFormed (cfg : Config) (host : Host) (mimeType : Option String)
    (quality : Option ℚ) (c : HTMLCanvasElement) (hw : c.WellFormed cfg) :
    (c.toDataURL cfg host mimeType quality).2.WellFormed cfg := by
  unfold toDataURL
  split
  · exact hw
  · split
    · exact hw
    · have h1 := buffer_wellFormed cfg host c hw
      rcases hb : c.buffer cfg host with ⟨b, c1⟩
      rw [hb] at h1
      cases b with
      | none => exact h1
      | some b1 =>
        simp only
        have h2 : (if cfg.readsBackImageData then c1.getImageData cfg host
            else (false, c1)).2.WellFormed cfg := by
          split
          · exact wellFormed_of_store cfg
              (store_of_members (getImageData_members cfg host c1)) h1
          · exact h1
        rcases hg : (if cfg.readsBackImageData then c1.getImageData cfg host
            else (false, c1)) with ⟨imageData, c2⟩
        rw [hg] at h2
        simp only at h2 ⊢
        split
        · exact wellFormed_of_store cfg rfl h2
        · have h4 : c2.makeRenderingResultsAvailable.WellFormed cfg :=
            wellFormed_of_store cfg
              (store_of_members (makeRenderingResultsAvailable_members c2)) h2
          have h3 := buffer_wellFormed cfg host _ h4
          rcases hb3 : c2.makeRenderingResultsAvailable.buffer cfg host with ⟨b3, c4⟩
          rw [hb3] at h3
          cases b3 with
          | none => exact h3
          | some b4 => exact wellFormed_of_store cfg rfl h3

theorem paintBuffer_wellFormed (cfg : Config) (host : Host) (r : IntRect)
    (c : HTMLCanvasElement) (hw : c.WellFormed cfg) :
    (c.paintBuffer cfg host r).WellFormed cfg := by
  have he : ∀ d : HTMLCanvasElement, d.WellFormed cfg →
      (d.paintEpilogue cfg host).WellFormed cfg :=
    fun d hd => wellFormed_of_store cfg (store_of_members (paintEpilogue_members cfg host d)) hd
  unfold paintBuffer
  split
  · have h1 := buffer_wellFormed cfg host c hw
    rcases hb : c.buffer cfg host with ⟨b, c1⟩
    rw [hb] at h1
    cases b with
    | none => exact he c1 h1
    | some b1 =>
      simp only
      split
      · exact h1
      · split
        · exact he _ (wellFormed_of_store cfg rfl h1)
        · split
          · have h2 := copiedImage_wellFormed cfg host c1 h1
            rcases hc : c1.copiedImage cfg host with ⟨img, c2⟩
            rw [hc] at h2
            exact he _ (wellFormed_of_store cfg rfl h2)
          · exact he _ (wellFormed_of_store cfg rfl h1)
  · exact he c hw

theorem paint_wellFormed (cfg : Config) (host : Host) (r : IntRect) (c : HTMLCanvasElement)
    (hw : c.WellFormed cfg) : (c.paint cfg host r).WellFormed cfg := by
  have h0 : ({ c with m_dirtyRect := FloatRect.zero } : HTMLCanvasElement).WellFormed cfg :=
    wellFormed_of_store cfg rfl hw
  unfold paint
  simp only
  split
  · exact h0
  · split
    · split
      · exact h0
      · exact paintBuffer_wellFormed cfg host r _ (wellFormed_of_store cfg rfl h0)
    · exact paintBuffer_wellFormed cfg host r _ h0

theorem didDraw_wellFormed (cfg : Config) (host : Host) (rect : FloatRect)
    (c : HTMLCanvasElement) (hw : c.WellFormed cfg) :
    (c.didDraw cfg host rect).WellFormed cfg := by
  apply wellFormed_clear_copied cfg c _ hw
  unfold didDraw
  cases host.renderBox with
  | none => rfl
  | some ro =>
    simp only
    split
    · rfl
    · split <;> rfl

theorem setSurfaceSize_wellFormed (cfg : Config) (size : IntSize) (c : HTMLCanvasElement)
    (hw : c.WellFormed cfg) : (c.setSurfaceSize size).WellFormed cfg := by
  unfold WellFormed setSurfaceSize
  exact ⟨fun _ => rfl, fun _ => rfl, fun buf h => by simp at h, hw.2.2.2⟩

theorem reset_wellFormed (cfg : Config) (host : Host) (c : HTMLCanvasElement)
    (hw : c.WellFormed cfg) : (c.reset cfg host).WellFormed cfg := by
  cases h : c.m_ignoreReset with
  | true =>
    unfold reset
    simpa [h] using hw
  | false =>
    exact wellFormed_of_store cfg (store_of_members (reset_members cfg host c h))
      (setSurfaceSize_wellFormed cfg _ c hw)

theorem getContext_store (cfg : Config) (host : Host) (type : String)
    (c : HTMLCanvasElement) : (c.getContext cfg host type).2.store = c.store := by
  unfold getContext
  repeat' split
  all_goals rfl

/-- Every call keeps the invariants. -/
theorem apply_wellFormed (cfg : Config) (op : Op) (c d : HTMLCanvasElement)
    (hw : c.WellFormed cfg) (hd : op.apply cfg c = some d) : d.WellFormed cfg := by
  cases op <;> simp only [Op.apply, Option.some.injEq] at hd
  case getContext host type =>
    rw [← hd]; exact wellFormed_of_store cfg (getContext_store cfg host type c) hw
  case didDraw host rect => rw [← hd]; exact didDraw_wellFormed cfg host rect c hw
  case reset host => rw [← hd]; exact reset_wellFormed cfg host c hw
  case setSurfaceSize size => rw [← hd]; exact setSurfaceSize_wellFormed cfg size c hw
  case paint host r => rw [← hd]; exact paint_wellFormed cfg host r c hw
  case buffer host => rw [← hd]; exact buffer_wellFormed cfg host c hw
  case drawingContext host => rw [← hd]; exact buffer_wellFormed cfg host c hw
  case copiedImage host => rw [← hd]; exact copiedImage_wellFormed cfg host c hw
  case clearCopiedImage =>
    rw [← hd]; exact wellFormed_clear_copied cfg c _ hw rfl
  case makePresentationCopy host => exact makePresentationCopy_wellFormed cfg host c d hw hd
  case clearPresentationCopy => rw [← hd]; exact wellFormed_of_store cfg rfl hw
  case makeRenderingResultsAvailable =>
    rw [← hd]
    exact wellFormed_of_store cfg (store_of_members (makeRenderingResultsAvailable_members c)) hw
  case toDataURL host mimeType quality =>
    rw [← hd]; exact toDataURL_wellFormed cfg host mimeType quality c hw
  case addObserver observer =>
    rw [← hd]
    exact ⟨hw.1, hw.2.1, hw.2.2.1, List.Nodup.insert hw.2.2.2⟩
  case removeObserver observer =>
    rw [← hd]
    exact ⟨hw.1, hw.2.1, hw.2.2.1, List.Nodup.erase observer hw.2.2.2⟩
  case createRenderer host => rw [← hd]; exact wellFormed_of_store cfg rfl hw
  case parseMappedAttribute host isWidth value =>
    rw [← hd]
    unfold parseMappedAttribute
    apply reset_wellFormed
    split
    · exact wellFormed_of_store cfg rfl hw
    · exact wellFormed_of_store cfg rfl hw

/-- Every state reached from a freshly constructed canvas has the invariants. -/
theorem run_wellFormed (cfg : Config) (ops : List Op) (c d : HTMLCanvasElement)
    (hw : c.WellFormed cfg) (hd : run cfg ops c = some d) : d.WellFormed cfg := by
  induction ops generalizing c with
  | nil =>
    simp only [run, Option.some.injEq] at hd
    rw [← hd]; exact hw
  | cons op ops ih =>
    simp only [run] at hd
    cases ha : op.apply cfg c with
    | none => rw [ha] at hd; simp at hd
    | some c1 =>
      rw [ha] at hd
      exact ih c1 (apply_wellFormed cfg op c c1 hw ha) hd

end HTMLCanvasElement

/-! ## What an absent image buffer implies (C14) -/

/-- C14, refuted as stated: after `didDraw` on a fresh canvas the image buffer is
absent and the dirty rectangle is (0, 0, 10, 10), which is not empty; after
`makePresentationCopy()` and `setSurfaceSize` the image buffer is absent and the
presented snapshot is present. -/
theorem C14_counterexample :
    run androidConfig [Op.didDraw grantingHost squareA] freshCanvas = some canvasDrawn
      ∧ canvasDrawn.m_imageBuffer = none
      ∧ canvasDrawn.m_dirtyRect.same ⟨⟨0, 0⟩, ⟨0, 0⟩, ⟨10, 0⟩, ⟨10, 0⟩⟩ = true
      ∧ canvasDrawn.m_dirtyRect.isEmpty = false
      ∧ run androidConfig [Op.makePresentationCopy grantingHost, Op.setSurfaceSize ⟨300, 150⟩]
          freshCanvas = some canvasPresentedResized
      ∧ canvasPresentedResized.m_imageBuffer = none
      ∧ canvasPresentedResized.m_presentedImage = some ⟨1⟩ := by
  refine ⟨rfl, ?_, canvasDrawn_m_dirtyRect.1, canvasDrawn_m_dirtyRect.2, rfl, rfl,
    canvasPresented_m_presentedImage⟩
  exact (HTMLCanvasElement.didDraw_buffer_members _ _ _ _).2

/-- C14 (amended): in every state reached from a freshly constructed canvas by
any sequence of calls, an absent image buffer implies an absent copied
snapshot.  (The dirty rectangle and the presented snapshot are not bound to the
image buffer.) -/
theorem C14_absent_buffer_no_copied_snapshot (cfg : Config) (scaleFactor : F32)
    (ops : List Op) (c : HTMLCanvasElement)
    (hrun : run cfg ops (HTMLCanvasElement.create cfg scaleFactor) = some c)
    (hb : c.m_imageBuffer = none) : c.m_copiedImage = none :=
  (HTMLCanvasElement.run_wellFormed cfg ops _ c
    (HTMLCanvasElement.create_wellFormed cfg scaleFactor) hrun).2.1 hb

/-- C14 (amended) at the fresh canvas after `copiedImage()` and a `reset()`. -/
theorem C14_absent_buffer_no_copied_snapshot_witness :
    run androidConfig [Op.copiedImage grantingHost, Op.reset grantingHost]
        (HTMLCanvasElement.create androidConfig ⟨1, 0⟩)
      = some ((freshCanvas.copiedImage androidConfig grantingHost).2.reset androidConfig
        grantingHost)
      ∧ ((freshCanvas.copiedImage androidConfig grantingHost).2.reset androidConfig
        grantingHost).m_imageBuffer = none
      ∧ ((freshCanvas.copiedImage androidConfig grantingHost).2.reset androidConfig
        grantingHost).m_copiedImage = none :=
  ⟨rfl,
    HTMLCanvasElement.m_imageBuffer_of_members
      (HTMLCanvasElement.reset_members androidConfig grantingHost _ (by decide)),
    C14_absent_buffer_no_copied_snapshot androidConfig ⟨1, 0⟩
      [Op.copiedImage grantingHost, Op.reset grantingHost] _ rfl
      (HTMLCanvasElement.m_imageBuffer_of_members
        (HTMLCanvasElement.reset_members androidConfig grantingHost _ (by decide)))⟩

/-! ## The size of the image buffer (C15) -/

/-- C15: in every state reached from a freshly constructed canvas, an image
buffer that is present has the device size `convertLogicalToDevice` gives for
the current logical size, with width and height at least 1; and when that
conversion gives the empty size, `buffer()` and `drawingContext()` return
nothing and make no call, so that no allocation is requested. -/
theorem C15_buffer_has_device_size (cfg : Config) (scaleFactor : F32) (ops : List Op)
    (host : Host) (c : HTMLCanvasElement)
    (hrun : run cfg ops (HTMLCanvasElement.create cfg scaleFactor) = some c) :
    (∀ buf, c.m_imageBuffer = some buf →
        buf.size = convertLogicalToDevice cfg c.m_pageScaleFactor c.m_size.width
            c.m_size.height
          ∧ 1 ≤ buf.size.width ∧ 1 ≤ buf.size.height)
      ∧ (convertLogicalToDevice cfg c.m_pageScaleFactor c.m_size.width c.m_size.height
          = IntSize.zero →
        (c.buffer cfg host).1 = none ∧ (c.drawingContext cfg host).1 = none
          ∧ (c.buffer cfg host).2.trace = c.trace
          ∧ (c.drawingContext cfg host).2.trace = c.trace) := by
  have hw := HTMLCanvasElement.run_wellFormed cfg ops _ c
    (HTMLCanvasElement.create_wellFormed cfg scaleFactor) hrun
  refine ⟨hw.2.2.1, fun hz => ?_⟩
  have hb : c.m_imageBuffer = none := by
    cases hbuf : c.m_imageBuffer with
    | none => rfl
    | some buf =>
      have h3 := hw.2.2.1 buf hbuf
      rw [hz] at h3
      have h4 := h3.2.1
      rw [h3.1] at h4
      simp [IntSize.zero] at h4
  have e := HTMLCanvasElement.buffer_of_rejected cfg host c hb hz
  unfold HTMLCanvasElement.drawingContext
  rw [e]
  exact ⟨rfl, rfl, rfl, rfl⟩

/-- C15 at the fresh canvas after `buffer()`, whose buffer is 300 by 150, and at
the fresh canvas given the size 0 by 150, which gets no buffer. -/
theorem C15_buffer_has_device_size_witness :
    run androidConfig [Op.buffer grantingHost] (HTMLCanvasElement.create androidConfig ⟨1, 0⟩)
        = some canvasBuffered
      ∧ canvasBuffered.m_imageBuffer = some ⟨0, ⟨300, 150⟩⟩
      ∧ convertLogicalToDevice androidConfig canvasBuffered.m_pageScaleFactor
          canvasBuffered.m_size.width canvasBuffered.m_size.height = ⟨300, 150⟩
      ∧ run androidConfig [Op.setSurfaceSize ⟨0, 150⟩]
          (HTMLCanvasElement.create androidConfig ⟨1, 0⟩) = some canvasEmpty
      ∧ convertLogicalToDevice androidConfig canvasEmpty.m_pageScaleFactor
          canvasEmpty.m_size.width canvasEmpty.m_size.height = IntSize.zero
      ∧ (canvasEmpty.buffer androidConfig grantingHost).1 = none
      ∧ (canvasEmpty.buffer androidConfig grantingHost).2.trace = canvasEmpty.trace :=
  ⟨rfl, by decide,
    ((C15_buffer_has_device_size androidConfig ⟨1, 0⟩ [Op.buffer grantingHost] grantingHost
      canvasBuffered rfl).1 ⟨0, ⟨300, 150⟩⟩ (by decide)).1.symm,
    rfl, by decide,
    ((C15_buffer_has_device_size androidConfig ⟨1, 0⟩ [Op.setSurfaceSize ⟨0, 150⟩]
      grantingHost canvasEmpty rfl).2 (by decide)).1,
    ((C15_buffer_has_device_size androidConfig ⟨1, 0⟩ [Op.setSurfaceSize ⟨0, 150⟩]
      grantingHost canvasEmpty rfl).2 (by decide)).2.2.1⟩

/-! ## A request that gives no context (C16) -/

/-- On a canvas without context `getContext("2d")` constructs a 2D context and
puts it into the slot. -/
theorem HTMLCanvasElement.getContext_2d_of_unbound (cfg : Config) (host : Host)
    (c : HTMLCanvasElement) (h : c.m_context = none) :
    (c.getContext cfg host "2d").1 = some ⟨c.nextId, ContextKind.canvas2D⟩
      ∧ (c.getContext cfg host "2d").2.m_context = some ⟨c.nextId, ContextKind.canvas2D⟩ := by
  unfold HTMLCanvasElement.getContext
  rw [h]
  simp only [if_true]
  constructor
  · first | rfl | trivial
  · first | rfl | (split <;> rfl)

/-- C16: on a canvas without context, a request that is not for "2d" and whose
construction fails or is unavailable (the type string is not a WebGL name, or
`WebGLRenderingContext::create` gives null, or WebGL is compiled out, or there
are no settings, or the settings disable WebGL or the accelerated compositing
it needs) returns no context, leaves the slot empty and calls nothing but, at
most, the failed `create`: no `setNeedsStyleRecalc`.  A `getContext("2d")` after
it returns a new 2D context, which then sits in the slot. -/
theorem C16_failed_request_leaves_unbound (cfg : Config) (host host2 : Host) (type : String)
    (c : HTMLCanvasElement) (hc : c.m_context = none) (h2d : type ≠ "2d")
    (hfail : ¬ (type = "webkit-3d" ∨ type = "experimental-webgl")
      ∨ host.webGLCreates = false ∨ cfg.enableWebGL = false ∨ host.settings = none
      ∨ ∃ st, host.settings = some st ∧ (st.webGLEnabled = false
        ∨ (cfg.chromiumOrGtk = false ∧ st.acceleratedCompositingEnabled = false))) :
    (c.getContext cfg host type).1 = none
      ∧ (c.getContext cfg host type).2.m_context = none
      ∧ ((c.getContext cfg host type).2.trace = c.trace
        ∨ (c.getContext cfg host type).2.trace = c.trace ++ [Event.webGLCreate false])
      ∧ ((c.getContext cfg host type).2.getContext cfg host2 "2d").1
        = some ⟨(c.getContext cfg host type).2.nextId, ContextKind.canvas2D⟩
      ∧ ((c.getContext cfg host type).2.getContext cfg host2 "2d").2.m_context
        = some ⟨(c.getContext cfg host type).2.nextId, ContextKind.canvas2D⟩ := by
  have key : c.getContext cfg host type = (none, c)
      ∨ c.getContext cfg host type = (none, c.emit (Event.webGLCreate false)) := by
    unfold HTMLCanvasElement.getContext
    rw [if_neg h2d, hc]
    cases hw : cfg.enableWebGL with
    | false => left; simp
    | true =>
      simp only [if_true]
      cases hs : host.settings with
      | none => left; rfl
      | some st =>
        simp only
        split
        · rename_i hen
          split
          · rename_i hty
            cases hcr : host.webGLCreates with
            | false => right; simp
            | true =>
              exfalso
              rcases hfail with h | h | h | h | ⟨st2, h, h3⟩
              · exact h hty
              · rw [hcr] at h; simp at h
              · rw [hw] at h; simp at h
              · rw [hs] at h; simp at h
              · rw [hs] at h
                simp only [Option.some.injEq] at h
                subst h
                simp only [Bool.and_eq_true, Bool.or_eq_true] at hen
                rcases h3 with h3 | ⟨h3, h4⟩
                · rw [h3] at hen; simp at hen
                · rw [h3, h4] at hen; simp at hen
          · left; rfl
        · left; rfl
  have hu : (c.getContext cfg host type).2.m_context = none := by
    rcases key with k | k <;> rw [k] <;> exact hc
  refine ⟨?_, hu, ?_, HTMLCanvasElement.getContext_2d_of_unbound cfg host2 _ hu⟩
  · rcases key with k | k <;> rw [k]
  · rcases key with k | k
    · left; rw [k]
    · right; rw [k]; rfl

/-- C16 at a fresh canvas asked for "experimental-webgl" while no WebGL context
can be created, and then for "2d". -/
theorem C16_failed_request_leaves_unbound_witness :
    freshCanvas.m_context = none
      ∧ refusingHost.webGLCreates = false
      ∧ (freshCanvas.getContext androidConfig refusingHost "experimental-webgl").1 = none
      ∧ (freshCanvas.getContext androidConfig refusingHost "experimental-webgl").2.m_context
        = none
      ∧ ((freshCanvas.getContext androidConfig refusingHost "experimental-webgl").2.getContext
          androidConfig grantingHost "2d").1 = some ⟨0, ContextKind.canvas2D⟩ :=
  ⟨rfl, rfl,
    (C16_failed_request_leaves_unbound androidConfig refusingHost grantingHost
      "experimental-webgl" freshCanvas rfl (by decide) (Or.inr (Or.inl rfl))).1,
    (C16_failed_request_leaves_unbound androidConfig refusingHost grantingHost
      "experimental-webgl" freshCanvas rfl (by decide) (Or.inr (Or.inl rfl))).2.1,
    (C16_failed_request_leaves_unbound androidConfig refusingHost grantingHost
      "experimental-webgl" freshCanvas rfl (by decide) (Or.inr (Or.inl rfl))).2.2.2.1⟩

/-! ## No damage is lost (C19) -/

namespace HTMLCanvasElement

/-- The state of the dirty rectangle that a run of exact `didDraw` calls keeps
up: it is the clean rectangle, or it is not empty and has its far edges beyond
its near edges. -/
theorem didDraw_sound (cfg : Config) (host : Host) (ro : RenderBox) (rect : FloatRect)
    (c : HTMLCanvasElement) (hro : host.renderBox = some ro)
    (hd : c.m_dirtyRect = FloatRect.zero
      ∨ (c.m_dirtyRect.isEmpty = false ∧ c.m_dirtyRect.isProper = true))
    (hm : (c.mappedRect ro rect).isEmpty = false)
    (hp : (c.mappedRect ro rect).isProper = true)
    (hx : c.m_dirtyRect.isEmpty = true
      ∨ c.m_dirtyRect.contains (c.mappedRect ro rect) = true
      ∨ c.m_dirtyRect.unionIsExact (c.mappedRect ro rect) = true) :
    (c.didDraw cfg host rect).m_dirtyRect.isEmpty = false
      ∧ (c.didDraw cfg host rect).m_dirtyRect.isProper = true
      ∧ (c.didDraw cfg host rect).m_dirtyRect.contains (c.mappedRect ro rect) = true
      ∧ (c.m_dirtyRect.isEmpty = false → ∀ a, c.m_dirtyRect.contains a = true →
          (c.didDraw cfg host rect).m_dirtyRect.contains a = true) := by
  rw [didDraw_m_dirtyRect cfg host rect ro c hro, hm]
  simp only [Bool.false_or]
  rcases hd with hz | ⟨hne, hpr⟩
  · rw [hz, FloatRect.zero_not_contains _ hm]
    simp only [Bool.false_eq_true, if_false]
    rw [FloatRect.unite_of_isEmpty _ _ (by decide) hm]
    refine ⟨hm, hp, FloatRect.contains_self _, fun h => ?_⟩
    exact absurd h (by decide)
  · cases hc : c.m_dirtyRect.contains (c.mappedRect ro rect) with
    | true =>
      simp only [if_true]
      exact ⟨hne, hpr, hc, fun _ a ha => ha⟩
    | false =>
      simp only [Bool.false_eq_true, if_false]
      have he : c.m_dirtyRect.unionIsExact (c.mappedRect ro rect) = true := by
        rcases hx with h | h | h
        · rw [hne] at h
          cases h
        · rw [hc] at h
          cases h
        · exact h
      rw [FloatRect.unite_of_not_isEmpty _ _ hne hm]
      have k := FloatRect.fromEdges_contains_of_exact _ _ he
      have p := FloatRect.fromEdges_isProper_of_exact _ _ he hpr
      exact ⟨p.1, p.2, k.2, fun _ a ha => FloatRect.contains_trans k.1 ha⟩

/-- A run of `didDraw` calls whose arithmetic on edges is exact keeps what the
dirty rectangle held and takes in the image of every reported rectangle. -/
theorem didDrawAll_contains (cfg : Config) (host : Host) (ro : RenderBox)
    (hro : host.renderBox = some ro) (a : FloatRect) (ha : a.isEmpty = false) :
    ∀ (rects : List FloatRect) (c : HTMLCanvasElement),
      c.didDrawAllExact cfg host ro rects = true →
      (c.m_dirtyRect = FloatRect.zero
        ∨ (c.m_dirtyRect.isEmpty = false ∧ c.m_dirtyRect.isProper = true)) →
      ((c.m_dirtyRect.isEmpty = false ∧ c.m_dirtyRect.contains a = true)
        ∨ ∃ rect ∈ rects, c.mappedRect ro rect = a) →
      (c.didDrawAll cfg host rects).m_dirtyRect.contains a = true := by
  intro rects
  induction rects with
  | nil =>
    intro c _ _ h
    rcases h with h | ⟨rect, hm, _⟩
    · exact h.2
    · simp at hm
  | cons r0 rs ih =>
    intro c hk hd h
    show ((c.didDraw cfg host r0).didDrawAll cfg host rs).m_dirtyRect.contains a = true
    simp only [didDrawAllExact, Bool.and_eq_true] at hk
    obtain ⟨hk0, hkr⟩ := hk
    cases hm : (c.mappedRect ro r0).isEmpty with
    | true =>
      have e : (c.didDraw cfg host r0).m_dirtyRect = c.m_dirtyRect := by
        rw [didDraw_m_dirtyRect cfg host r0 ro c hro, hm]
        simp
      apply ih _ hkr
      · rw [e]
        exact hd
      · rcases h with h | ⟨rect, hmem, he⟩
        · rw [e]
          exact Or.inl h
        · rcases List.mem_cons.mp hmem with hmem | hmem
          · subst hmem
            rw [he, ha] at hm
            cases hm
          · exact Or.inr ⟨rect, hmem, by rw [mappedRect_didDraw]; exact he⟩
    | false =>
      rw [hm] at hk0
      simp only [Bool.false_or, Bool.and_eq_true, Bool.or_eq_true] at hk0
      have s := didDraw_sound cfg host ro r0 c hro hd hm hk0.1
        (hk0.2.elim (fun h => h.elim Or.inl (fun h => Or.inr (Or.inl h)))
          (fun h => Or.inr (Or.inr h)))
      apply ih _ hkr (Or.inr ⟨s.1, s.2.1⟩)
      rcases h with h | ⟨rect, hmem, he⟩
      · exact Or.inl ⟨s.1, s.2.2.2 h.1 a h.2⟩
      · rcases List.mem_cons.mp hmem with hmem | hmem
        · subst hmem
          rw [he] at s
          exact Or.inl ⟨s.1, s.2.2.1⟩
        · exact Or.inr ⟨rect, hmem, by rw [mappedRect_didDraw]; exact he⟩

end HTMLCanvasElement

set_option maxRecDepth 100000 in
theorem slivers_image :
    (freshCanvas.mappedRect box300 sliverB).same sliverB = true
      ∧ (freshCanvas.mappedRect box300 sliverB).isEmpty = false
      ∧ F32.eqv (freshCanvas.mappedRect box300 sliverB).maxX ⟨13107201, -17⟩ = true := by
  decide

set_option maxRecDepth 100000 in
theorem slivers_lost :
    (freshCanvas.didDrawAll androidConfig grantingHost [sliverA, sliverB]).m_dirtyRect.same
        ⟨⟨262145, -18⟩, ⟨0, 0⟩, ⟨99, 0⟩, ⟨1, 0⟩⟩ = true
      ∧ F32.eqv (freshCanvas.didDrawAll androidConfig grantingHost
          [sliverA, sliverB]).m_dirtyRect.maxX ⟨100, 0⟩ = true
      ∧ (freshCanvas.didDrawAll androidConfig grantingHost
          [sliverA, sliverB]).m_dirtyRect.contains (freshCanvas.mappedRect box300 sliverB)
        = false := by
  decide

/-- C19, refuted as stated: on a fresh canvas of 300 by 150 shown in a content
box of 300 by 150, `didDraw(1 + 2^-18, 0, 1, 1)` and then
`didDraw(50, 0, 50 + 2^-17, 1)` are reported.  The clipped image of the second
rectangle is the rectangle itself; it is not empty and ends at `100 + 2^-17`.
The dirty rectangle after the two calls is `(1 + 2^-18, 0, 99, 1)`, the width
`99 + 2^-18` of the union having been rounded to 99; it ends at 100 and does
not contain the image of the second rectangle. -/
theorem C19_counterexample :
    grantingHost.renderBox = some box300
      ∧ freshCanvas.m_dirtyRect = FloatRect.zero
      ∧ sliverB ∈ [sliverA, sliverB]
      ∧ (freshCanvas.mappedRect box300 sliverB).same sliverB = true
      ∧ (freshCanvas.mappedRect box300 sliverB).isEmpty = false
      ∧ F32.eqv (freshCanvas.mappedRect box300 sliverB).maxX ⟨13107201, -17⟩ = true
      ∧ (freshCanvas.didDrawAll androidConfig grantingHost [sliverA, sliverB]).m_dirtyRect.same
          ⟨⟨262145, -18⟩, ⟨0, 0⟩, ⟨99, 0⟩, ⟨1, 0⟩⟩ = true
      ∧ F32.eqv (freshCanvas.didDrawAll androidConfig grantingHost
          [sliverA, sliverB]).m_dirtyRect.maxX ⟨100, 0⟩ = true
      ∧ (freshCanvas.didDrawAll androidConfig grantingHost
          [sliverA, sliverB]).m_dirtyRect.contains (freshCanvas.mappedRect box300 sliverB)
        = false :=
  ⟨rfl, rfl, by simp, slivers_image.1, slivers_image.2.1, slivers_image.2.2, slivers_lost.1,
    slivers_lost.2.1, slivers_lost.2.2⟩

/-- C19 (amended): on a canvas with a render box that stays the same and a clean
dirty rectangle, as `paint` leaves it, let a sequence of `didDraw` calls be
made whose float arithmetic on edges is exact (`didDrawAllExact`): every image
that is not empty has its right edge beyond its left edge and its bottom edge
beyond its top edge, and every union that is taken, of a dirty rectangle that is
not empty with an image that it does not contain, satisfies `l + (r - l) == r`
and `t + (b - t) == b` for the edges `l`, `t`, `r`, `b` of the bounding box.
Then the dirty rectangle contains the image, mapped to the content box and
clipped to it, of every rectangle that was reported, unless that image is
empty. -/
theorem C19_no_damage_lost (cfg : Config) (host : Host) (ro : RenderBox)
    (rects : List FloatRect) (rect : FloatRect) (c : HTMLCanvasElement)
    (hro : host.renderBox = some ro) (hclean : c.m_dirtyRect = FloatRect.zero)
    (hexact : c.didDrawAllExact cfg host ro rects = true) (hmem : rect ∈ rects)
    (hne : (c.mappedRect ro rect).isEmpty = false) :
    (c.didDrawAll cfg host rects).m_dirtyRect.contains (c.mappedRect ro rect) = true :=
  HTMLCanvasElement.didDrawAll_contains cfg host ro hro _ hne rects c hexact (Or.inl hclean)
    (Or.inr ⟨rect, hmem, rfl⟩)

set_option maxRecDepth 100000 in
theorem scaled_run_facts :
    freshCanvas.didDrawAllExact androidConfig scalingHost box600
        [squareA, squareC, squareD, squareA] = true
      ∧ (freshCanvas.mappedRect box600 squareD).isEmpty = false
      ∧ (freshCanvas.mapToContentBox box600 squareD).same
          ⟨⟨590, 0⟩, ⟨300, 0⟩, ⟨40, 0⟩, ⟨40, 0⟩⟩ = true
      ∧ (freshCanvas.mappedRect box600 squareD).same
          ⟨⟨590, 0⟩, ⟨300, 0⟩, ⟨20, 0⟩, ⟨20, 0⟩⟩ = true
      ∧ (freshCanvas.didDrawAll androidConfig scalingHost
          [squareA, squareC, squareD, squareA]).m_dirtyRect.same
            ⟨⟨10, 0⟩, ⟨20, 0⟩, ⟨600, 0⟩, ⟨300, 0⟩⟩ = true := by
  decide

/-- C19 (amended) at a fresh canvas of 300 by 150 shown in a content box of 600
by 300 at (10, 20), on which the squares at (0, 0), at (100, 100), at
(290, 140) and at (0, 0) again are reported.  The square of side 20 at
(290, 140) is mapped to (590, 300, 40, 40) and clipped to (590, 300, 20, 20);
all edges are whole numbers and the arithmetic of the two unions is exact.  The
dirty rectangle after the four calls is (10, 20, 600, 300) and contains the
clipped image. -/
theorem C19_no_damage_lost_witness :
    scalingHost.renderBox = some box600
      ∧ freshCanvas.m_dirtyRect = FloatRect.zero
      ∧ freshCanvas.didDrawAllExact androidConfig scalingHost box600
          [squareA, squareC, squareD, squareA] = true
      ∧ squareD ∈ [squareA, squareC, squareD, squareA]
      ∧ (freshCanvas.mappedRect box600 squareD).isEmpty = false
      ∧ (freshCanvas.mapToContentBox box600 squareD).same
          ⟨⟨590, 0⟩, ⟨300, 0⟩, ⟨40, 0⟩, ⟨40, 0⟩⟩ = true
      ∧ (freshCanvas.mappedRect box600 squareD).same
          ⟨⟨590, 0⟩, ⟨300, 0⟩, ⟨20, 0⟩, ⟨20, 0⟩⟩ = true
      ∧ (freshCanvas.didDrawAll androidConfig scalingHost
          [squareA, squareC, squareD, squareA]).m_dirtyRect.same
            ⟨⟨10, 0⟩, ⟨20, 0⟩, ⟨600, 0⟩, ⟨300, 0⟩⟩ = true
      ∧ (freshCanvas.didDrawAll androidConfig scalingHost
          [squareA, squareC, squareD, squareA]).m_dirtyRect.contains
            (freshCanvas.mappedRect box600 squareD) = true :=
  ⟨rfl, rfl, scaled_run_facts.1, by simp, scaled_run_facts.2.1, scaled_run_facts.2.2.1,
    scaled_run_facts.2.2.2.1, scaled_run_facts.2.2.2.2,
    C19_no_damage_lost androidConfig scalingHost box600 [squareA, squareC, squareD, squareA]
      squareD freshCanvas rfl rfl scaled_run_facts.1 (by simp) scaled_run_facts.2.1⟩

/-! ## The device rectangle (C18) -/

/-- The clamped value lies in the range of `int`. -/
theorem clampToInteger_range (x : F32) :
    intMin ≤ clampToInteger x ∧ clampToInteger x ≤ intMax := by
  unfold clampToInteger intMin intMax
  split
  · omega
  · split <;> omega

/-- C18, at the logical rectangle from x = -3000000000 to maxX = 3000000000 (and
from y = 0 to maxY = 1) with scale factor 1: the left edge is clamped to
-2147483648 and the right edge to 2147483647, both in the range of `int`, but
their exact difference 4294967295 is not: the `int` subtraction `right - left`
overflows, and what reaches `convertToValidDeviceSize` is (on two's complement
hardware) -1, so that the device rectangle is empty. -/
theorem C18_subtraction_overflows :
    clampToInteger (F32.floorf (F32.mul minusThreeBillion ⟨1, 0⟩)) = -2147483648
      ∧ clampToInteger (F32.ceilf (F32.mul threeBillion ⟨1, 0⟩)) = 2147483647
      ∧ intMax < clampToInteger (F32.ceilf (F32.mul threeBillion ⟨1, 0⟩))
          - clampToInteger (F32.floorf (F32.mul minusThreeBillion ⟨1, 0⟩))
      ∧ wrapInt32 (clampToInteger (F32.ceilf (F32.mul threeBillion ⟨1, 0⟩))
          - clampToInteger (F32.floorf (F32.mul minusThreeBillion ⟨1, 0⟩))) = -1
      ∧ convertLogicalToDeviceRect androidConfig ⟨1, 0⟩ minusThreeBillion ⟨0, 0⟩
          threeBillion ⟨1, 0⟩ = ⟨-2147483648, 0, 0, 0⟩ := by
  decide

/-! ## What `reset` tells the context (C21) -/

namespace HTMLCanvasElement

theorem resetReshape_trace_some (cfg : Config) (oldSize : IntSize) (c : HTMLCanvasElement)
    (ctx : CanvasRenderingContext) (h : c.m_context = some ctx) :
    (c.resetReshape cfg oldSize).trace
      = c.trace ++ (if cfg.enableWebGL && ctx.is3d && decide (oldSize ≠ c.m_size) then
          [Event.reshape c.m_size.width c.m_size.height] else []) := by
  unfold resetReshape
  rw [h]
  simp only
  split
  · rfl
  · simp

theorem resetContext2D_trace_some (c : HTMLCanvasElement) (ctx : CanvasRenderingContext)
    (h : c.m_context = some ctx) :
    c.resetContext2D.trace
      = c.trace ++ (if ctx.is2d then [Event.context2DReset] else []) := by
  unfold resetContext2D
  rw [h]
  simp only
  split
  · rfl
  · simp

/-- The renderer is told of the new size and asked to repaint; these are no
instructions to the context. -/
theorem resetRenderer_instructions (host : Host) (oldSize : IntSize) (had : Bool)
    (c : HTMLCanvasElement) :
    ∃ es, (c.resetRenderer host oldSize had).trace = c.trace ++ es
      ∧ es.filter Event.isContextInstruction = [] := by
  unfold resetRenderer
  split
  · split
    · simp only
      split <;> split
      · exact ⟨[Event.canvasSizeChanged, Event.rendererRepaint], by simp [emit], rfl⟩
      · exact ⟨[_], rfl, rfl⟩
      · exact ⟨[_], rfl, rfl⟩
      · exact ⟨[], by simp, rfl⟩
    · exact ⟨[], by simp, rfl⟩
  · exact ⟨[], by simp, rfl⟩

theorem filter_canvasResized (os : List Nat) :
    (os.map (fun o => Event.canvasResized o)).filter Event.isContextInstruction = [] := by
  induction os with
  | nil => rfl
  | cons o os ih => simp [List.filter_cons, Event.isContextInstruction]

/-- The size after a `reset` that is not ignored. -/
theorem reset_m_size (cfg : Config) (host : Host) (c : HTMLCanvasElement)
    (h : c.m_ignoreReset = false) :
    (c.reset cfg host).m_size
      = ⟨attrLength c.widthAttr DefaultWidth, attrLength c.heightAttr DefaultHeight⟩ :=
  m_size_of_members (reset_members cfg host c h)

/-- The instructions a `reset` that is not ignored gives to a bound context: the
`reshape` under the three conditions of the source, then the `reset` of a 2D
context. -/
theorem resetInstructions_some (cfg : Config) (host : Host) (c : HTMLCanvasElement)
    (ctx : CanvasRenderingContext) (h : c.m_ignoreReset = false)
    (hctx : c.m_context = some ctx) :
    c.resetInstructions cfg host
      = (if cfg.enableWebGL && ctx.is3d && decide (c.m_size ≠ (c.reset cfg host).m_size) then
          [Event.reshape (c.reset cfg host).m_size.width (c.reset cfg host).m_size.height]
          else [])
        ++ (if ctx.is2d then [Event.context2DReset] else []) := by
  rw [reset_m_size cfg host c h]
  unfold resetInstructions reset
  simp only [h, Bool.false_eq_true, if_false]
  generalize hc1 : c.setSurfaceSize ⟨attrLength c.widthAttr DefaultWidth,
    attrLength c.heightAttr DefaultHeight⟩ = c1
  have t1 : c1.trace = c.trace := by rw [← hc1]; rfl
  have o1 : c1.m_observers = c.m_observers := by rw [← hc1]; rfl
  have s1 : c1.m_size = ⟨attrLength c.widthAttr DefaultWidth,
      attrLength c.heightAttr DefaultHeight⟩ := by rw [← hc1]; rfl
  have x1 : c1.m_context = some ctx := by rw [← hc1]; exact hctx
  have x2 : (c1.resetReshape cfg c.m_size).m_context = some ctx :=
    (m_context_of_members (resetReshape_members cfg c.m_size c1)).trans x1
  have t2 := resetReshape_trace_some cfg c.m_size c1 ctx x1
  have t3 := resetContext2D_trace_some (c1.resetReshape cfg c.m_size) ctx x2
  obtain ⟨e4, t4, n4⟩ := resetRenderer_instructions host c.m_size c.m_hasCreatedImageBuffer
    (c1.resetReshape cfg c.m_size).resetContext2D
  have o4 : (((c1.resetReshape cfg c.m_size).resetContext2D).resetRenderer host c.m_size
      c.m_hasCreatedImageBuffer).m_observers = c.m_observers := by
    have hm : (((c1.resetReshape cfg c.m_size).resetContext2D).resetRenderer host c.m_size
        c.m_hasCreatedImageBuffer).members = c1.members := by simp
    exact (m_observers_of_bystanders (bystanders_of_members hm)).trans o1
  unfold notifyResized
  simp only [o4, t4, t3, t2, t1, s1, List.append_assoc, List.drop_left, List.filter_append, n4,
    filter_canvasResized, List.append_nil]
  congr 1
  · split <;> rfl
  · split <;> rfl

/-- A `reset` that is not ignored gives no instruction when no context is bound. -/
theorem resetInstructions_none (cfg : Config) (host : Host) (c : HTMLCanvasElement)
    (h : c.m_ignoreReset = false) (hctx : c.m_context = none) :
    c.resetInstructions cfg host = [] := by
  unfold resetInstructions reset
  simp only [h, Bool.false_eq_true, if_false]
  generalize hc1 : c.setSurfaceSize ⟨attrLength c.widthAttr DefaultWidth,
    attrLength c.heightAttr DefaultHeight⟩ = c1
  have t1 : c1.trace = c.trace := by rw [← hc1]; rfl
  have o1 : c1.m_observers = c.m_observers := by rw [← hc1]; rfl
  have x1 : c1.m_context = none := by rw [← hc1]; exact hctx
  have r2 : c1.resetReshape cfg c.m_size = c1 := by
    unfold resetReshape
    rw [x1]
  have r3 : c1.resetContext2D = c1 := by
    unfold resetContext2D
    rw [x1]
  rw [r2, r3]
  obtain ⟨e4, t4, n4⟩ := resetRenderer_instructions host c.m_size c.m_hasCreatedImageBuffer c1
  have o4 : (c1.resetRenderer host c.m_size c.m_hasCreatedImageBuffer).m_observers
      = c.m_observers := by
    have hm : (c1.resetRenderer host c.m_size c.m_hasCreatedImageBuffer).members
        = c1.members := by simp
    exact (m_observers_of_bystanders (bystanders_of_members hm)).trans o1
  unfold notifyResized
  simp only [o4, t4, t1, List.append_assoc, List.drop_left, List.filter_append, n4,
    filter_canvasResized, List.append_nil]

/-- The calls a `reset` made before stay at the front of the record. -/
theorem reset_trace_take (cfg : Config) (host : Host) (c : HTMLCanvasElement) :
    (c.reset cfg host).trace.take c.trace.length = c.trace := by
  cases h : c.m_ignoreReset with
  | true =>
    unfold reset
    simp [h]
  | false =>
    obtain ⟨es, ht, _⟩ := reset_trace cfg host c h
    rw [ht]
    simp

theorem is2d_of_is3d (ctx : CanvasRenderingContext) (h : ctx.is3d = true) :
    ctx.is2d = false := by
  unfold CanvasRenderingContext.is3d at h
  unfold CanvasRenderingContext.is2d
  cases hk : ctx.kind <;> simp_all

theorem is3d_of_is2d (ctx : CanvasRenderingContext) (h : ctx.is2d = true) :
    ctx.is3d = false := by
  unfold CanvasRenderingContext.is2d at h
  unfold CanvasRenderingContext.is3d
  cases hk : ctx.kind <;> simp_all

/-- The constructor binds no context. -/
theorem create_contextOfBuild (cfg : Config) (scaleFactor : F32) :
    (create cfg scaleFactor).ContextOfBuild cfg := by
  intro ctx h
  simp [create] at h

/-- The only call that binds a context, `getContext`, binds a 3D context only in
a build with WebGL. -/
theorem getContext_contextOfBuild (cfg : Config) (host : Host) (type : String)
    (c : HTMLCanvasElement) (h : c.ContextOfBuild cfg) :
    (c.getContext cfg host type).2.ContextOfBuild cfg := by
  cases hc : c.m_context with
  | some ctx0 =>
    rw [getContext_bound cfg host type c ctx0 hc]
    exact h
  | none =>
    cases hgl : cfg.enableWebGL with
    | true => intro _ _ _; exact hgl
    | false =>
      intro ctx hx h3
      exfalso
      unfold getContext at hx
      rw [hc, hgl] at hx
      simp only [Bool.false_eq_true, if_false] at hx
      split at hx
      · split at hx
        · simp only [emit] at hx
          cases hx
          simp [CanvasRenderingContext.is3d] at h3
        · simp only [emit] at hx
          cases hx
          simp [CanvasRenderingContext.is3d] at h3
      · simp [hc] at hx

theorem contextOfBuild_of_m_context (cfg : Config) {c d : HTMLCanvasElement}
    (h : d.m_context = c.m_context) (hc : c.ContextOfBuild cfg) : d.ContextOfBuild cfg := by
  intro ctx hx
  exact hc ctx (h ▸ hx)

theorem apply_contextOfBuild (cfg : Config) (op : Op) (c d : HTMLCanvasElement)
    (h : c.ContextOfBuild cfg) (hd : op.apply cfg c = some d) : d.ContextOfBuild cfg := by
  cases op <;> simp only [Op.apply, Option.some.injEq] at hd
  case getContext host type => rw [← hd]; exact getContext_contextOfBuild cfg host type c h
  case didDraw host rect =>
    rw [← hd]; exact contextOfBuild_of_m_context cfg (didDraw_m_context ..) h
  case reset host => rw [← hd]; exact contextOfBuild_of_m_context cfg (reset_m_context ..) h
  case setSurfaceSize size => rw [← hd]; exact h
  case paint host r => rw [← hd]; exact contextOfBuild_of_m_context cfg (paint_m_context ..) h
  case buffer host => rw [← hd]; exact contextOfBuild_of_m_context cfg (buffer_m_context ..) h
  case drawingContext host =>
    rw [← hd]; exact contextOfBuild_of_m_context cfg (buffer_m_context cfg host c) h
  case copiedImage host =>
    rw [← hd]; exact contextOfBuild_of_m_context cfg (copiedImage_m_context ..) h
  case clearCopiedImage => rw [← hd]; exact h
  case makePresentationCopy host =>
    exact contextOfBuild_of_m_context cfg (makePresentationCopy_m_context cfg host c d hd) h
  case clearPresentationCopy => rw [← hd]; exact h
  case makeRenderingResultsAvailable =>
    rw [← hd]
    exact contextOfBuild_of_m_context cfg (makeRenderingResultsAvailable_m_context ..) h
  case toDataURL host mimeType quality =>
    rw [← hd]; exact contextOfBuild_of_m_context cfg (toDataURL_m_context ..) h
  case addObserver observer => rw [← hd]; exact h
  case removeObserver observer => rw [← hd]; exact h
  case createRenderer host => rw [← hd]; exact h
  case parseMappedAttribute host isWidth value =>
    rw [← hd]
    refine contextOfBuild_of_m_context cfg ?_ h
    unfold parseMappedAttribute
    rw [reset_m_context]
    split <;> rfl

/-- On every canvas reached from the constructor by calls, a bound 3D context
means a build with WebGL. -/
theorem run_contextOfBuild (cfg : Config) (ops : List Op) (c d : HTMLCanvasElement)
    (h : c.ContextOfBuild cfg) (hd : run cfg ops c = some d) : d.ContextOfBuild cfg := by
  induction ops generalizing c with
  | nil =>
    simp only [run, Option.some.injEq] at hd
    rw [← hd]; exact h
  | cons op ops ih =>
    simp only [run] at hd
    cases ha : op.apply cfg c with
    | none => rw [ha] at hd; simp at hd
    | some c1 =>
      rw [ha] at hd
      exact ih c1 (apply_contextOfBuild cfg op c c1 h ha) hd

end HTMLCanvasElement

/-- C21: let the canvas not ignore resets (a 3D context being bound only in a
build with WebGL, as on every canvas reached from the constructor).  Among the
calls `reset()` makes, the instructions to the context are these.  With a 3D
context bound: one `reshape` with the new width and height when the old size
differs from the new size, and nothing when the size is the same.  With a 2D
context bound: one `reset` of the context, whether or not the size changed.
With no context bound: nothing. -/
theorem C21_reset_instructs_context (cfg : Config) (host : Host) (c : HTMLCanvasElement)
    (h : c.m_ignoreReset = false) (hgl : c.ContextOfBuild cfg) :
    (c.reset cfg host).trace.take c.trace.length = c.trace
      ∧ (∀ ctx, c.m_context = some ctx → ctx.is3d = true →
        (c.m_size ≠ (c.reset cfg host).m_size →
          c.resetInstructions cfg host
            = [Event.reshape (c.reset cfg host).m_size.width (c.reset cfg host).m_size.height])
        ∧ (c.m_size = (c.reset cfg host).m_size → c.resetInstructions cfg host = []))
      ∧ (∀ ctx, c.m_context = some ctx → ctx.is2d = true →
        c.resetInstructions cfg host = [Event.context2DReset])
      ∧ (c.m_context = none → c.resetInstructions cfg host = []) := by
  refine ⟨HTMLCanvasElement.reset_trace_take cfg host c, ?_, ?_, ?_⟩
  · intro ctx hctx h3
    have e := HTMLCanvasElement.resetInstructions_some cfg host c ctx h hctx
    rw [hgl ctx hctx h3, h3, HTMLCanvasElement.is2d_of_is3d ctx h3] at e
    constructor
    · intro hne
      rw [e]
      simp [hne]
    · intro heq
      rw [e]
      simp [heq]
  · intro ctx hctx h2
    have e := HTMLCanvasElement.resetInstructions_some cfg host c ctx h hctx
    rw [h2, HTMLCanvasElement.is3d_of_is2d ctx h2] at e
    rw [e]
    simp
  · exact HTMLCanvasElement.resetInstructions_none cfg host c h

/-- C21 at canvases of the Android build: a 3D context whose canvas goes from
300 by 150 to 640 by 150 is told `reshape(640, 150)`; a 3D context whose
canvas keeps its size is told nothing; a 2D context whose canvas keeps its size
is told to reset; an unbound canvas gives no instruction. -/
theorem C21_reset_instructs_context_witness :
    canvas3DWide.m_ignoreReset = false
      ∧ canvas3DWide.ContextOfBuild androidConfig
      ∧ canvas3DWide.m_context = some ⟨0, ContextKind.webGL⟩
      ∧ canvas3DWide.m_size = ⟨300, 150⟩
      ∧ canvas3DWide.resetInstructions androidConfig grantingHost = [Event.reshape 640 150]
      ∧ canvas3D.resetInstructions androidConfig grantingHost = []
      ∧ canvas2D.resetInstructions androidConfig grantingHost = [Event.context2DReset]
      ∧ freshCanvas.resetInstructions androidConfig grantingHost = [] :=
  ⟨rfl, fun _ _ _ => rfl, rfl, rfl,
    (((C21_reset_instructs_context androidConfig grantingHost canvas3DWide rfl
      (fun _ _ _ => rfl)).2.1 ⟨0, ContextKind.webGL⟩ rfl rfl).1 (by decide)).trans (by decide),
    ((C21_reset_instructs_context androidConfig grantingHost canvas3D rfl
      (fun _ _ _ => rfl)).2.1 ⟨0, ContextKind.webGL⟩ rfl rfl).2 (by decide),
    (C21_reset_instructs_context androidConfig grantingHost canvas2D rfl
      (fun _ _ _ => rfl)).2.2.1 ⟨0, ContextKind.canvas2D⟩ rfl rfl,
    (C21_reset_instructs_context androidConfig grantingHost freshCanvas rfl
      (fun _ _ _ => rfl)).2.2.2 rfl⟩

/-! ## What `paint` draws (C22) -/

namespace HTMLCanvasElement

/-- The end of `paint` draws nothing. -/
theorem paintEpilogue_draws (cfg : Config) (host : Host) (c : HTMLCanvasElement) :
    ∃ es, (c.paintEpilogue cfg host).trace = c.trace ++ es
      ∧ es.filter Event.isDraw = [] := by
  unfold paintEpilogue
  have h : ∃ es, (match c.m_context with
      | some ctx =>
        if cfg.enableWebGL && ctx.is3d then c.emit Event.markLayerComposited else c
      | none => c).trace = c.trace ++ es ∧ es.filter Event.isDraw = [] := by
    split
    · split
      · exact ⟨[_], rfl, rfl⟩
      · exact ⟨[], by simp, rfl⟩
    · exact ⟨[], by simp, rfl⟩
  simp only
  obtain ⟨es, he, hn⟩ := h
  split
  · split
    · split
      · refine ⟨es ++ [Event.setIeForbidsInsertHTML], ?_, ?_⟩
        · exact (congrArg (fun t => t ++ [Event.setIeForbidsInsertHTML]) he).trans
            (List.append_assoc _ _ _)
        · rw [List.filter_append, hn]
          rfl
      · exact ⟨es, he, hn⟩
    · exact ⟨es, he, hn⟩
  · exact ⟨es, he, hn⟩

/-- With a buffer at hand `copiedImage()` returns the snapshot of the slot, a
new one if the slot was empty, and draws nothing. -/
theorem copiedImage_of_buffer (cfg : Config) (host : Host) (c : HTMLCanvasElement)
    (buf : ImageBuffer) (hf : c.m_hasCreatedImageBuffer = true)
    (hb : c.m_imageBuffer = some buf) :
    ∃ img es, (c.copiedImage cfg host).1 = some img
      ∧ (c.copiedImage cfg host).2.m_copiedImage = some img
      ∧ (c.copiedImage cfg host).2.trace = c.trace ++ es
      ∧ es.filter Event.isDraw = []
      ∧ ∀ old, c.m_copiedImage = some old → img = old := by
  rcases Option.eq_none_or_eq_some c.m_copiedImage with hs | ⟨old, hs⟩
  · have h2 := flush_created c
    have e : c.copiedImage cfg host
        = (some ⟨c.nextId⟩,
          { c with
            m_copiedImage := some ⟨c.nextId⟩
            nextId := c.nextId + 1
            trace := (c.trace
              ++ (if c.m_context.isSome then [Event.paintRenderingResultsToCanvas] else []))
              ++ [Event.copyImage buf.id c.nextId] }) := by
      unfold copiedImage
      rw [hs]
      simp only
      rw [buffer_of_created cfg host c hf, hb]
      simp only
      rw [buffer_of_created cfg host _ (h2.1.trans hf), h2.2, hb]
      cases hcc : c.m_context <;> simp [emit, HTMLCanvasElement.copyImage, hcc, hb]
    rw [e]
    refine ⟨⟨c.nextId⟩, (if c.m_context.isSome then [Event.paintRenderingResultsToCanvas]
      else []) ++ [Event.copyImage buf.id c.nextId], rfl, rfl, ?_, ?_, ?_⟩
    · simp only [List.append_assoc]
    · rw [List.filter_append]
      split <;> rfl
    · intro old ho
      rw [hs] at ho
      cases ho
  · have e : c.copiedImage cfg host = (some old, c) := by
      unfold copiedImage
      rw [hs]
    rw [e]
    refine ⟨old, [], rfl, hs, by simp, rfl, ?_⟩
    intro o ho
    rw [hs] at ho
    exact Option.some.inj ho

/-- Without a buffer `paint` goes on to its end. -/
theorem paintBuffer_of_none (cfg : Config) (host : Host) (r : IntRect) (c : HTMLCanvasElement)
    (h : c.m_hasCreatedImageBuffer = false ∨ c.m_imageBuffer = none) :
    c.paintBuffer cfg host r = c.paintEpilogue cfg host := by
  cases hf : c.m_hasCreatedImageBuffer with
  | false =>
    unfold paintBuffer
    simp [hf]
  | true =>
    have hb : c.m_imageBuffer = none := by
      rcases h with h | h
      · rw [hf] at h
        cases h
      · exact h
    unfold paintBuffer
    rw [buffer_of_created cfg host c hf, hb]
    simp [hf]

/-- With a buffer that draws using recording `paint` returns at once. -/
theorem paintBuffer_of_recording (cfg : Config) (host : Host) (r : IntRect)
    (c : HTMLCanvasElement) (buf : ImageBuffer) (hf : c.m_hasCreatedImageBuffer = true)
    (hb : c.m_imageBuffer = some buf) (hr : host.drawsUsingRecording = true) :
    c.paintBuffer cfg host r = c := by
  unfold paintBuffer
  rw [buffer_of_created cfg host c hf, hb]
  simp [hf, hr]

theorem paintBuffer_of_presented (cfg : Config) (host : Host) (r : IntRect)
    (c : HTMLCanvasElement) (buf : ImageBuffer) (img : Image)
    (hf : c.m_hasCreatedImageBuffer = true) (hb : c.m_imageBuffer = some buf)
    (hr : host.drawsUsingRecording = false) (hp : c.m_presentedImage = some img) :
    c.paintBuffer cfg host r
      = (c.emit (Event.drawImage (some img.id) r)).paintEpilogue cfg host := by
  unfold paintBuffer
  rw [buffer_of_created cfg host c hf, hb]
  simp [hf, hr, hp]

theorem paintBuffer_of_copy (cfg : Config) (host : Host) (r : IntRect)
    (c : HTMLCanvasElement) (buf : ImageBuffer)
    (hf : c.m_hasCreatedImageBuffer = true) (hb : c.m_imageBuffer = some buf)
    (hr : host.drawsUsingRecording = false) (hp : c.m_presentedImage = none)
    (hc : host.drawsUsingCopy = true) :
    c.paintBuffer cfg host r
      = ((c.copiedImage cfg host).2.emit
          (Event.drawImage ((c.copiedImage cfg host).1.map Image.id) r)).paintEpilogue
            cfg host := by
  unfold paintBuffer
  rw [buffer_of_created cfg host c hf, hb]
  simp [hf, hr, hp, hc]

theorem paintBuffer_of_live (cfg : Config) (host : Host) (r : IntRect)
    (c : HTMLCanvasElement) (buf : ImageBuffer)
    (hf : c.m_hasCreatedImageBuffer = true) (hb : c.m_imageBuffer = some buf)
    (hr : host.drawsUsingRecording = false) (hp : c.m_presentedImage = none)
    (hc : host.drawsUsingCopy = false) :
    c.paintBuffer cfg host r
      = (c.emit (Event.drawImageBuffer buf.id r)).paintEpilogue cfg host := by
  unfold paintBuffer
  rw [buffer_of_created cfg host c hf, hb]
  simp [hf, hr, hp, hc]

/-- The draw calls of the part of `paint` that deals with the image buffer. -/
theorem paintBuffer_draws (cfg : Config) (host : Host) (r : IntRect) (c : HTMLCanvasElement) :
    ∃ es, (c.paintBuffer cfg host r).trace = c.trace ++ es
      ∧ (es.filter Event.isDraw).length ≤ 1
      ∧ (c.m_hasCreatedImageBuffer = false → es.filter Event.isDraw = [])
      ∧ (c.m_imageBuffer = none → es.filter Event.isDraw = [])
      ∧ (host.drawsUsingRecording = true → es.filter Event.isDraw = [])
      ∧ (c.m_hasCreatedImageBuffer = true → host.drawsUsingRecording = false →
        ∀ buf, c.m_imageBuffer = some buf →
          (∀ img, c.m_presentedImage = some img →
            es.filter Event.isDraw = [Event.drawImage (some img.id) r])
          ∧ (c.m_presentedImage = none → host.drawsUsingCopy = true →
            ∃ img, (c.paintBuffer cfg host r).m_copiedImage = some img
              ∧ (∀ old, c.m_copiedImage = some old → img = old)
              ∧ es.filter Event.isDraw = [Event.drawImage (some img.id) r])
          ∧ (c.m_presentedImage = none → host.drawsUsingCopy = false →
            es.filter Event.isDraw = [Event.drawImageBuffer buf.id r])) := by
  by_cases hnone : c.m_hasCreatedImageBuffer = false ∨ c.m_imageBuffer = none
  · obtain ⟨es, he, hn⟩ := paintEpilogue_draws cfg host c
    refine ⟨es, ?_, by simp [hn], fun _ => hn, fun _ => hn, fun _ => hn, ?_⟩
    · rw [paintBuffer_of_none cfg host r c hnone, he]
    · intro hf _ buf hb
      rcases hnone with h | h
      · rw [hf] at h
        cases h
      · rw [hb] at h
        cases h
  · have hf : c.m_hasCreatedImageBuffer = true := by
      cases h : c.m_hasCreatedImageBuffer with
      | true => rfl
      | false => exact absurd (Or.inl h) hnone
    obtain ⟨buf, hb⟩ : ∃ buf, c.m_imageBuffer = some buf := by
      rcases Option.eq_none_or_eq_some c.m_imageBuffer with h | h
      · exact absurd (Or.inr h) hnone
      · exact h
    have hf0 : c.m_hasCreatedImageBuffer = false → False := by
      intro h
      rw [hf] at h
      cases h
    have hb0 : c.m_imageBuffer = none → False := by
      intro h
      rw [hb] at h
      cases h
    cases hr : host.drawsUsingRecording with
    | true =>
      refine ⟨[], ?_, by simp, fun _ => rfl, fun _ => rfl, fun _ => rfl, ?_⟩
      · rw [paintBuffer_of_recording cfg host r c buf hf hb hr]
        simp
      · intro _ h
        cases h
    | false =>
      rcases Option.eq_none_or_eq_some c.m_presentedImage with hp | ⟨img, hp⟩
      · cases hc : host.drawsUsingCopy with
        | true =>
          obtain ⟨img, cs, h1, h2, h3, h4, h5⟩ := copiedImage_of_buffer cfg host c buf hf hb
          obtain ⟨es, he, hn⟩ := paintEpilogue_draws cfg host
            ((c.copiedImage cfg host).2.emit
              (Event.drawImage ((c.copiedImage cfg host).1.map Image.id) r))
          have hd : ((cs ++ [Event.drawImage (some img.id) r]) ++ es).filter Event.isDraw
              = [Event.drawImage (some img.id) r] := by
            rw [List.filter_append, List.filter_append, h4, hn]
            rfl
          refine ⟨(cs ++ [Event.drawImage (some img.id) r]) ++ es, ?_, (by rw [hd]; simp),
            fun h => (hf0 h).elim, fun h => (hb0 h).elim, (fun h => by cases h), ?_⟩
          · rw [paintBuffer_of_copy cfg host r c buf hf hb hr hp hc, he]
            simp only [emit, h3, h1, Option.map_some', List.append_assoc]
          · intro _ _ buf2 hb2
            refine ⟨fun i hi => ?_, fun _ _ => ⟨img, ?_, h5, hd⟩, (fun _ h => by cases h)⟩
            · rw [hp] at hi
              cases hi
            · rw [paintBuffer_of_copy cfg host r c buf hf hb hr hp hc]
              exact (m_copiedImage_of_members (paintEpilogue_members cfg host _)).trans h2
        | false =>
          obtain ⟨es, he, hn⟩ := paintEpilogue_draws cfg host
            (c.emit (Event.drawImageBuffer buf.id r))
          have hd : ([Event.drawImageBuffer buf.id r] ++ es).filter Event.isDraw
              = [Event.drawImageBuffer buf.id r] := by
            rw [List.filter_append, hn]
            rfl
          refine ⟨[Event.drawImageBuffer buf.id r] ++ es, ?_, (by rw [hd]; simp),
            fun h => (hf0 h).elim, fun h => (hb0 h).elim, (fun h => by cases h), ?_⟩
          · rw [paintBuffer_of_live cfg host r c buf hf hb hr hp hc, he]
            simp only [emit, List.append_assoc]
          · intro _ _ buf2 hb2
            have hbb : buf2 = buf := by
              rw [hb] at hb2
              exact (Option.some.inj hb2).symm
            subst hbb
            refine ⟨fun i hi => ?_, (fun _ h => by cases h), fun _ _ => hd⟩
            rw [hp] at hi
            cases hi
      · obtain ⟨es, he, hn⟩ := paintEpilogue_draws cfg host
          (c.emit (Event.drawImage (some img.id) r))
        have hd : ([Event.drawImage (some img.id) r] ++ es).filter Event.isDraw
            = [Event.drawImage (some img.id) r] := by
          rw [List.filter_append, hn]
          rfl
        refine ⟨[Event.drawImage (some img.id) r] ++ es, ?_, (by rw [hd]; simp),
          fun h => (hf0 h).elim, fun h => (hb0 h).elim, (fun h => by cases h), ?_⟩
        · rw [paintBuffer_of_presented cfg host r c buf img hf hb hr hp, he]
          simp only [emit, List.append_assoc]
        · intro _ _ buf2 hb2
          refine ⟨fun i hi => ?_, fun h => ?_, fun h => ?_⟩
          · rw [hp] at hi
            cases hi
            exact hd
          · rw [hp] at h
            cases h
          · rw [hp] at h
            cases h

/-- When painting is disabled, or the bound context does not paint into the
canvas buffer, `paint` makes no call. -/
theorem paint_trace_of_return (cfg : Config) (host : Host) (r : IntRect)
    (c : HTMLCanvasElement)
    (h : host.paintingDisabled = true
      ∨ (c.m_context.isSome = true ∧ host.paintsIntoCanvasBuffer = false)) :
    (c.paint cfg host r).trace = c.trace := by
  unfold paint
  simp only
  split
  · rfl
  · rename_i hd
    rcases h with h | ⟨h1, h2⟩
    · exact absurd h hd
    · split
      · simp [h2]
      · rename_i hx
        rw [hx] at h1
        cases h1

/-- Otherwise `paint` has a context flush itself and goes on to the image
buffer. -/
theorem paint_eq_paintBuffer (cfg : Config) (host : Host) (r : IntRect)
    (c : HTMLCanvasElement) (hd : host.paintingDisabled = false)
    (hx : c.m_context.isSome = true → host.paintsIntoCanvasBuffer = true) :
    ∃ (p : HTMLCanvasElement) (fs : List Event), c.paint cfg host r = p.paintBuffer cfg host r
      ∧ p.members = { c with m_dirtyRect := FloatRect.zero }.members
      ∧ p.trace = c.trace ++ fs
      ∧ fs.filter Event.isDraw = [] := by
  unfold paint
  simp only [hd, Bool.false_eq_true, if_false]
  split
  · rename_i ctx hc
    have hp := hx (by rw [show c.m_context = some ctx from hc]; rfl)
    simp only [hp, Bool.not_true, Bool.false_eq_true, if_false]
    exact ⟨{ c with m_dirtyRect := FloatRect.zero }.emit Event.paintRenderingResultsToCanvas,
      [Event.paintRenderingResultsToCanvas], rfl, rfl, rfl, rfl⟩
  · exact ⟨{ c with m_dirtyRect := FloatRect.zero }, [], rfl, rfl, by simp, rfl⟩

/-- The calls `paint` made before stay at the front of the record. -/
theorem paint_trace_take (cfg : Config) (host : Host) (r : IntRect) (c : HTMLCanvasElement) :
    (c.paint cfg host r).trace.take c.trace.length = c.trace := by
  by_cases h : host.paintingDisabled = true
      ∨ (c.m_context.isSome = true ∧ host.paintsIntoCanvasBuffer = false)
  · rw [paint_trace_of_return cfg host r c h]
    simp
  · have hd : host.paintingDisabled = false := by
      cases hh : host.paintingDisabled with
      | false => rfl
      | true => exact absurd (Or.inl hh) h
    have hx : c.m_context.isSome = true → host.paintsIntoCanvasBuffer = true := by
      intro h1
      cases hh : host.paintsIntoCanvasBuffer with
      | true => rfl
      | false => exact absurd (Or.inr ⟨h1, hh⟩) h
    obtain ⟨p, fs, e, _, ht, _⟩ := paint_eq_paintBuffer cfg host r c hd hx
    obtain ⟨es, he, _⟩ := paintBuffer_draws cfg host r p
    rw [e, he, ht]
    simp

end HTMLCanvasElement

/-- C22: among the calls a `paint` makes there is at most one draw call.  There
is none when painting is disabled, when a context is bound that does not paint
into the canvas buffer, when no image buffer was ever created, when the buffer
is absent, or when the buffer draws using recording.  In every other case
there is exactly one: `drawImage` of the presented snapshot if there is one;
otherwise, if the buffer draws using copy, `drawImage` of the copied snapshot
(the one of the slot, a new one stored there if the slot was empty); otherwise
`drawImageBuffer` of the buffer itself. -/
theorem C22_paint_draws_one_source (cfg : Config) (host : Host) (r : IntRect)
    (c : HTMLCanvasElement) :
    (c.paint cfg host r).trace.take c.trace.length = c.trace
      ∧ (c.paintDraws cfg host r).length ≤ 1
      ∧ (host.paintingDisabled = true → c.paintDraws cfg host r = [])
      ∧ (c.m_context.isSome = true → host.paintsIntoCanvasBuffer = false →
        c.paintDraws cfg host r = [])
      ∧ (c.m_hasCreatedImageBuffer = false → c.paintDraws cfg host r = [])
      ∧ (c.m_imageBuffer = none → c.paintDraws cfg host r = [])
      ∧ (host.drawsUsingRecording = true → c.paintDraws cfg host r = [])
      ∧ (host.paintingDisabled = false →
        (c.m_context.isSome = true → host.paintsIntoCanvasBuffer = true) →
        c.m_hasCreatedImageBuffer = true → host.drawsUsingRecording = false →
        ∀ buf, c.m_imageBuffer = some buf →
          (∀ img, c.m_presentedImage = some img →
            c.paintDraws cfg host r = [Event.drawImage (some img.id) r])
          ∧ (c.m_presentedImage = none → host.drawsUsingCopy = true →
            ∃ img, (c.paint cfg host r).m_copiedImage = some img
              ∧ (∀ old, c.m_copiedImage = some old → img = old)
              ∧ c.paintDraws cfg host r = [Event.drawImage (some img.id) r])
          ∧ (c.m_presentedImage = none → host.drawsUsingCopy = false →
            c.paintDraws cfg host r = [Event.drawImageBuffer buf.id r])) := by
  refine ⟨HTMLCanvasElement.paint_trace_take cfg host r c, ?_⟩
  by_cases h : host.paintingDisabled = true
      ∨ (c.m_context.isSome = true ∧ host.paintsIntoCanvasBuffer = false)
  · have e : c.paintDraws cfg host r = [] := by
      unfold HTMLCanvasElement.paintDraws
      rw [HTMLCanvasElement.paint_trace_of_return cfg host r c h]
      simp
    refine ⟨by simp [e], fun _ => e, fun _ _ => e, fun _ => e, fun _ => e, fun _ => e, ?_⟩
    intro hd hx _ _ buf _
    rcases h with h | ⟨h1, h2⟩
    · rw [hd] at h
      cases h
    · rw [hx h1] at h2
      cases h2
  · have hd : host.paintingDisabled = false := by
      cases hh : host.paintingDisabled with
      | false => rfl
      | true => exact absurd (Or.inl hh) h
    have hx : c.m_context.isSome = true → host.paintsIntoCanvasBuffer = true := by
      intro h1
      cases hh : host.paintsIntoCanvasBuffer with
      | true => rfl
      | false => exact absurd (Or.inr ⟨h1, hh⟩) h
    obtain ⟨p, fs, e, hm, ht, hfs⟩ := HTMLCanvasElement.paint_eq_paintBuffer cfg host r c hd hx
    obtain ⟨es, he, hlen, hflag, hbuf, hrec, hsrc⟩ :=
      HTMLCanvasElement.paintBuffer_draws cfg host r p
    have pf : p.m_hasCreatedImageBuffer = c.m_hasCreatedImageBuffer :=
      (HTMLCanvasElement.m_hasCreatedImageBuffer_of_members hm).trans rfl
    have pb : p.m_imageBuffer = c.m_imageBuffer :=
      (HTMLCanvasElement.m_imageBuffer_of_members hm).trans rfl
    have pp : p.m_presentedImage = c.m_presentedImage :=
      (HTMLCanvasElement.m_presentedImage_of_members hm).trans rfl
    have pc : p.m_copiedImage = c.m_copiedImage :=
      (HTMLCanvasElement.m_copiedImage_of_members hm).trans rfl
    have ed : c.paintDraws cfg host r = es.filter Event.isDraw := by
      unfold HTMLCanvasElement.paintDraws
      rw [e, he, ht, List.append_assoc, List.drop_left, List.filter_append, hfs, List.nil_append]
    rw [ed]
    rw [pf] at hflag hsrc
    rw [pb] at hbuf hsrc
    rw [pp, pc, ← e] at hsrc
    refine ⟨hlen, fun hh => ?_, fun h1 h2 => ?_, hflag, hbuf, hrec, fun _ _ => hsrc⟩
    · rw [hd] at hh
      cases hh
    · rw [hx h1] at h2
      cases h2

/-- C22 on canvases of the Android build, painted into the rectangle of 300 by
150 at the origin.  A canvas with a buffer (object 0) and no presented
snapshot: the buffer itself is drawn; if the buffer draws using copy, the copied
snapshot (the new image, object 1) is drawn instead; if it draws using
recording, nothing is drawn.  A canvas with a presented snapshot (object 1):
that snapshot is drawn, also when the buffer draws using copy.  A canvas whose
buffer was never created: nothing is drawn. -/
theorem C22_paint_draws_one_source_witness :
    canvasBuffered.m_imageBuffer = some ⟨0, ⟨300, 150⟩⟩
      ∧ canvasBuffered.m_presentedImage = none
      ∧ canvasBuffered.paintDraws androidConfig grantingHost ⟨0, 0, 300, 150⟩
        = [Event.drawImageBuffer 0 ⟨0, 0, 300, 150⟩]
      ∧ canvasBuffered.paintDraws androidConfig copyingHost ⟨0, 0, 300, 150⟩
        = [Event.drawImage (some 1) ⟨0, 0, 300, 150⟩]
      ∧ canvasBuffered.paintDraws androidConfig recordingHost ⟨0, 0, 300, 150⟩ = []
      ∧ canvasPresented.m_presentedImage = some ⟨1⟩
      ∧ canvasPresented.paintDraws androidConfig copyingHost ⟨0, 0, 300, 150⟩
        = [Event.drawImage (some 1) ⟨0, 0, 300, 150⟩]
      ∧ freshCanvas.paintDraws androidConfig grantingHost ⟨0, 0, 300, 150⟩ = [] :=
  ⟨by decide, rfl,
    ((C22_paint_draws_one_source androidConfig grantingHost ⟨0, 0, 300, 150⟩
      canvasBuffered).2.2.2.2.2.2.2 rfl (fun _ => rfl) (by decide) rfl ⟨0, ⟨300, 150⟩⟩
        (by decide)).2.2 rfl rfl,
    by decide,
    (C22_paint_draws_one_source androidConfig recordingHost ⟨0, 0, 300, 150⟩
      canvasBuffered).2.2.2.2.2.2.1 rfl,
    by decide,
    ((C22_paint_draws_one_source androidConfig copyingHost ⟨0, 0, 300, 150⟩
      canvasPresented).2.2.2.2.2.2.2 rfl (fun _ => rfl) (by decide) rfl ⟨0, ⟨300, 150⟩⟩
        (by decide)).1 ⟨1⟩ (by decide),
    (C22_paint_draws_one_source androidConfig grantingHost ⟨0, 0, 300, 150⟩
      freshCanvas).2.2.2.2.1 rfl⟩

/-! ## The presented snapshot (C13) -/

/-- C13, refuted as stated: on a canvas that holds a presented snapshot both
`didDraw` and `paint` leave the snapshot in its slot. -/
theorem C13_counterexample :
    canvasPresented.m_presentedImage = some ⟨1⟩
      ∧ (canvasPresented.didDraw androidConfig grantingHost squareA).m_presentedImage
        = some ⟨1⟩
      ∧ (canvasPresented.paint androidConfig grantingHost ⟨0, 0, 300, 150⟩).m_presentedImage
        = some ⟨1⟩ :=
  ⟨canvasPresented_m_presentedImage,
    (HTMLCanvasElement.didDraw_m_presentedImage _ _ _ _).trans canvasPresented_m_presentedImage,
    (HTMLCanvasElement.m_presentedImage_of_bystanders
      (HTMLCanvasElement.paint_bystanders _ _ _ _)).trans canvasPresented_m_presentedImage⟩

namespace HTMLCanvasElement

theorem getContext_m_presentedImage (cfg : Config) (host : Host) (type : String)
    (c : HTMLCanvasElement) :
    (c.getContext cfg host type).2.m_presentedImage = c.m_presentedImage := by
  unfold getContext
  repeat' split
  all_goals rfl

theorem reset_m_presentedImage (cfg : Config) (host : Host) (c : HTMLCanvasElement) :
    (c.reset cfg host).m_presentedImage = c.m_presentedImage := by
  cases h : c.m_ignoreReset with
  | true =>
    unfold reset
    simp [h]
  | false => exact (m_presentedImage_of_members (reset_members cfg host c h)).trans rfl

theorem toDataURL_m_presentedImage (cfg : Config) (host : Host) (mimeType : Option String)
    (quality : Option ℚ) (c : HTMLCanvasElement) :
    (c.toDataURL cfg host mimeType quality).2.m_presentedImage = c.m_presentedImage := by
  unfold toDataURL
  split
  · rfl
  · split
    · rfl
    · have h1 := m_presentedImage_of_bystanders (buffer_bystanders cfg host c)
      rcases hb : c.buffer cfg host with ⟨b, c1⟩
      rw [hb] at h1
      cases b with
      | none => exact h1
      | some b1 =>
        simp only
        have h2 : (if cfg.readsBackImageData then c1.getImageData cfg host
            else (false, c1)).2.m_presentedImage = c1.m_presentedImage := by
          split
          · exact m_presentedImage_of_members (getImageData_members cfg host c1)
          · rfl
        rcases hg : (if cfg.readsBackImageData then c1.getImageData cfg host
            else (false, c1)) with ⟨imageData, c2⟩
        rw [hg] at h2
        simp only
        split
        · exact h2.trans h1
        · have h3 := m_presentedImage_of_bystanders
            (buffer_bystanders cfg host c2.makeRenderingResultsAvailable)
          rcases hb3 : c2.makeRenderingResultsAvailable.buffer cfg host with ⟨b3, c4⟩
          rw [hb3] at h3
          have h4 := m_presentedImage_of_members (makeRenderingResultsAvailable_members c2)
          cases b3 with
          | none => exact h3.trans (h4.trans (h2.trans h1))
          | some b4 => exact h3.trans (h4.trans (h2.trans h1))

/-- No call but `clearPresentationCopy()` takes a presented snapshot out of its
slot or puts another one in. -/
theorem apply_m_presentedImage (cfg : Config) (op : Op) (c d : HTMLCanvasElement)
    (img : Image) (hop : op ≠ Op.clearPresentationCopy)
    (h : c.m_presentedImage = some img) (hd : op.apply cfg c = some d) :
    d.m_presentedImage = some img := by
  cases op <;> simp only [Op.apply, Option.some.injEq] at hd
  case getContext host type => rw [← hd, getContext_m_presentedImage, h]
  case didDraw host rect => rw [← hd, didDraw_m_presentedImage, h]
  case reset host => rw [← hd, reset_m_presentedImage, h]
  case setSurfaceSize size => rw [← hd]; exact h
  case paint host r =>
    rw [← hd]
    exact (m_presentedImage_of_bystanders (paint_bystanders cfg host r c)).trans h
  case buffer host =>
    rw [← hd]
    exact (m_presentedImage_of_bystanders (buffer_bystanders cfg host c)).trans h
  case drawingContext host =>
    rw [← hd]
    exact (m_presentedImage_of_bystanders (buffer_bystanders cfg host c)).trans h
  case copiedImage host =>
    rw [← hd]
    exact (m_presentedImage_of_bystanders (copiedImage_bystanders cfg host c)).trans h
  case clearCopiedImage => rw [← hd]; exact h
  case makePresentationCopy host =>
    unfold makePresentationCopy at hd
    rw [h] at hd
    simp only [Option.some.injEq] at hd
    rw [← hd]
    exact h
  case clearPresentationCopy => exact absurd rfl hop
  case makeRenderingResultsAvailable =>
    rw [← hd]
    exact (m_presentedImage_of_members (makeRenderingResultsAvailable_members c)).trans h
  case toDataURL host mimeType quality => rw [← hd, toDataURL_m_presentedImage, h]
  case addObserver observer => rw [← hd]; exact h
  case removeObserver observer => rw [← hd]; exact h
  case createRenderer host => rw [← hd]; exact h
  case parseMappedAttribute host isWidth value =>
    rw [← hd]
    unfold parseMappedAttribute
    rw [reset_m_presentedImage]
    split <;> exact h

end HTMLCanvasElement

/-- C13 (amended): a presented snapshot is cleared by `clearPresentationCopy()`
only.  For every canvas state `didDraw(r)` and `paint(...)` leave the slot
holding what it held before the call; no call of the element other than
`clearPresentationCopy()` empties a slot that holds a snapshot or replaces the
snapshot; and after `clearPresentationCopy()` the slot is empty. -/
theorem C13_presentedImage_kept (cfg : Config) (host : Host) (rect : FloatRect) (r : IntRect)
    (c : HTMLCanvasElement) :
    (c.didDraw cfg host rect).m_presentedImage = c.m_presentedImage
      ∧ (c.paint cfg host r).m_presentedImage = c.m_presentedImage
      ∧ (∀ (op : Op) (d : HTMLCanvasElement) (img : Image),
          op ≠ Op.clearPresentationCopy → c.m_presentedImage = some img →
            op.apply cfg c = some d → d.m_presentedImage = some img)
      ∧ c.clearPresentationCopy.m_presentedImage = none :=
  ⟨HTMLCanvasElement.didDraw_m_presentedImage cfg host rect c,
    (HTMLCanvasElement.m_presentedImage_of_bystanders
      (HTMLCanvasElement.paint_bystanders cfg host r c)).trans rfl,
    fun op d img hop h hd => HTMLCanvasElement.apply_m_presentedImage cfg op c d img hop h hd,
    rfl⟩

/-- C13 (amended) at the canvas that holds the presented snapshot 1: `didDraw`,
`paint`, `reset()` and `copiedImage()` leave it in the slot, and
`clearPresentationCopy()` empties the slot. -/
theorem C13_presentedImage_kept_witness :
    canvasPresented.m_presentedImage = some ⟨1⟩
      ∧ (canvasPresented.didDraw androidConfig grantingHost squareA).m_presentedImage
        = canvasPresented.m_presentedImage
      ∧ (canvasPresented.paint androidConfig grantingHost ⟨0, 0, 300, 150⟩).m_presentedImage
        = canvasPresented.m_presentedImage
      ∧ (canvasPresented.reset androidConfig grantingHost).m_presentedImage = some ⟨1⟩
      ∧ (canvasPresented.copiedImage androidConfig grantingHost).2.m_presentedImage
        = some ⟨1⟩
      ∧ canvasPresented.clearPresentationCopy.m_presentedImage = none :=
  ⟨canvasPresented_m_presentedImage,
    (C13_presentedImage_kept androidConfig grantingHost squareA ⟨0, 0, 300, 150⟩
      canvasPresented).1,
    (C13_presentedImage_kept androidConfig grantingHost squareA ⟨0, 0, 300, 150⟩
      canvasPresented).2.1,
    (C13_presentedImage_kept androidConfig grantingHost squareA ⟨0, 0, 300, 150⟩
      canvasPresented).2.2.1 (Op.reset grantingHost) _ ⟨1⟩ (by simp)
        canvasPresented_m_presentedImage rfl,
    (C13_presentedImage_kept androidConfig grantingHost squareA ⟨0, 0, 300, 150⟩
      canvasPresented).2.2.1 (Op.copiedImage grantingHost) _ ⟨1⟩ (by simp)
        canvasPresented_m_presentedImage rfl,
    (C13_presentedImage_kept androidConfig grantingHost squareA ⟨0, 0, 300, 150⟩
      canvasPresented).2.2.2⟩

end WebCore
